import Mathlib

/-!
# GexTuX customer management: the dual-pane interactive client list

A shallow embedding of `display_interactive_client_list`
(`src/gextux_customer_management.c`, lines 1479-1812) and of the helpers it
relies on, and of the note wrapping loop of `draw_client_details_in_pane`
(lines 1412-1470), followed by theorems about the scroll/selection state
machine, the key dispatch, the column plan, the pane layout, the detail cache
and the note wrapper.

Conventions of the embedding

* C `int` variables are mathematical integers (`Int`).  The clamp pass applies
  arithmetic only to indices it has already brought into `[0, total_items]`,
  and the key handlers apply it to the indices of a state that satisfies the
  invariants, so every intermediate value lies between `-items_per_page` and
  `total_items + items_per_page` (`viewport_arithmetic_fits_int`): the exact
  arithmetic is the machine arithmetic as long as
  `total_items + items_per_page` fits in an `int`, which a row count held in
  memory and a page size taken from the terminal height always do.
* A NUL-terminated `char` buffer is the list of its bytes before the NUL.
* The heap array `items` is a list holding the allocated slots; the result set
  the user sees is its prefix of length `total_items`.
* Everything the loop obtains from the terminal or from the record store in one
  iteration (window height, key codes, store answers) is an explicit input.
* The C library functions `mbtowc` and `wcwidth` are parameters of the note
  wrapper; a byte read at or after the terminator of the notes is 0.
-/

namespace Gextux

/-! ## Constants (lines 59-107) -/

/-- The general buffer size `MAX_STR_LEN`. -/
def MAX_STR_LEN : Nat := 256

/-- The border width `MAIN_WIN_BORDER_WIDTH`. -/
def MAIN_WIN_BORDER_WIDTH : Int := 2

/-- The row of the screen title, `SCREEN_TITLE_Y`. -/
def SCREEN_TITLE_Y : Int := MAIN_WIN_BORDER_WIDTH - 1

/-- The row of the title separator, `SCREEN_SEPARATOR_Y`. -/
def SCREEN_SEPARATOR_Y : Int := SCREEN_TITLE_Y + 1

/-- Bytes of a C string. -/
abbrev CStr := List Nat

/-- Bytes of a string literal of the source (all of them ASCII). -/
def cstr (s : String) : CStr := s.toList.map Char.toNat

/-- The effect of `strncpy(dest, src, n); dest[n] = 0` on the string held by `dest`. -/
def strncpy (src : CStr) (n : Nat) : CStr := src.take n

/-- The C library `toupper` on the ASCII range. -/
def toupper (c : Int) : Int := if 97 ≤ c ∧ c ≤ 122 then c - 32 else c

/-- The character constant `Y`. -/
def CHAR_Y : Int := 89

/-- The largest value of a 32-bit `int`. -/
def INT_MAX : Int := 2147483647

/-- The value is representable in a 32-bit `int`. -/
def fitsInt (x : Int) : Prop := -INT_MAX - 1 ≤ x ∧ x ≤ INT_MAX

/-! ## Data model (lines 110-156) -/

/-- The full record, `Client`. -/
structure Client where
  id : Int
  business_name : CStr
  email : CStr
  phone : CStr
  website : CStr
  street : CStr
  city : CStr
  state : CStr
  zip_code : CStr
  country : CStr
  tax_number : CStr
  num_employees : Int
  industry : CStr
  contact_person : CStr
  contact_email : CStr
  contact_phone : CStr
  status : CStr
  notes : CStr
  created_at : CStr
  deriving DecidableEq, Repr, Inhabited

/-- The summary shown in the list pane, `ClientListItem`. -/
structure ClientListItem where
  id : Int
  business_name : CStr
  city : CStr
  phone : CStr
  email : CStr
  contact_person : CStr
  deriving DecidableEq, Repr, Inhabited

/-- The enumeration `InteractiveListAction`. -/
inductive InteractiveListAction where
  | INTERACTIVE_LIST_ACTION_EDIT
  | INTERACTIVE_LIST_ACTION_DELETE
  deriving DecidableEq, Repr

open InteractiveListAction

/-- The values `wgetch(main_win)` is distinguished by in the event loop: one
constructor per `case` label of the `switch` (lines 1660-1783), `ERR`, and
`OTHER` for every remaining key code (the `default` label). -/
inductive Key where
  | KEY_NAV_UP
  | KEY_NAV_DOWN
  | KEY_NAV_PPAGE
  | KEY_NAV_NPAGE
  | KEY_NAV_HOME
  | KEY_NAV_END
  | KEY_EDIT_CLIENT
  | KEY_EDIT_CLIENT_ALT
  | KEY_ACTION_DELETE
  | KEY_ACTION_DELETE_ALT
  | KEY_ACTION_SELECT
  | KEY_ACTION_ENTER
  | KEY_ACTION_QUIT
  | KEY_ACTION_QUIT_ALT
  | KEY_ESC
  | KEY_RESIZE
  | ERR
  | OTHER
  deriving DecidableEq, Repr

open Key

/-- The local variables of `display_interactive_client_list` that live across
iterations of the event loop (lines 1483, 1525-1528). -/
structure ListState where
  items : List ClientListItem
  total_items : Int
  top_item_index : Int
  selected_item_index : Int
  current_detailed_client : Client
  details_loaded_for_selected : Bool
  prev_selected_item_index : Int
  deriving DecidableEq, Repr

/-- The element `items[i]`. -/
def itemAt (items : List ClientListItem) (i : Int) : ClientListItem :=
  items.getD i.toNat default

/-- The result set the browser shows: the first `total_items` slots of `items`. -/
def resultSet (s : ListState) : List ClientListItem :=
  s.items.take s.total_items.toNat

/-- The effect of `memmove(&items[dst], &items[src], n * sizeof(ClientListItem))`:
the `n` slots starting at `src` are copied, as if through a temporary buffer,
over the slots starting at `dst`. -/
def memmove (items : List ClientListItem) (dst src n : Nat) : List ClientListItem :=
  let tmp := (items.drop src).take n
  items.take dst ++ tmp ++ items.drop (dst + tmp.length)

/-- The state on entry to the event loop (lines 1525-1528), for a query that
returned `total_items` rows in the array `items`. -/
def initialState (items : List ClientListItem) (total_items : Int) (uninit : Client) :
    ListState :=
  { items := items
    total_items := total_items
    top_item_index := 0
    selected_item_index := 0
    current_detailed_client := uninit
    details_loaded_for_selected := false
    prev_selected_item_index := -1 }

/-! ## Page size (lines 1534-1553, 1597-1598, 1658) -/

/-- The value of `items_per_page_list` for a main window of the given height. -/
def items_per_page_list (main_win_height : Int) : Int :=
  let title_bar_h := (SCREEN_SEPARATOR_Y - SCREEN_TITLE_Y) + 1
  let list_header_h := 1
  let list_pane_content_height :=
    main_win_height - (2 * (MAIN_WIN_BORDER_WIDTH - 1)) - title_bar_h
  let list_pane_content_height :=
    if list_pane_content_height < 1 then 1 else list_pane_content_height
  let items_per_page_list := list_pane_content_height - list_header_h
  if items_per_page_list ≤ 0 then 1 else items_per_page_list

/-- The value of `items_per_page_nav` (line 1658). -/
def items_per_page_nav (main_win_height : Int) : Int :=
  if items_per_page_list main_win_height > 0 then items_per_page_list main_win_height else 1

/-! ## The key dispatch (lines 1655-1783) -/

/-- What the terminal and the record store answer while one key is handled. -/
structure KeyEnv where
  /-- The result of `fetch_client_by_id` after the edit form (line 1734). -/
  edit_refetch : Option Client
  /-- The key read by `wgetch(input_win)` at the delete confirmation (line 1744). -/
  confirm_key : Int
  /-- Whether `db_delete_client` succeeds (line 1749). -/
  db_delete_ok : Bool
  deriving DecidableEq, Repr

/-- The outcome of the `switch`: the new values of the loop variables and the
calls that were made on the way. -/
structure KeyOutcome where
  state : ListState
  /-- The function returned (lines 1773-1776). -/
  returned : Bool := false
  /-- The function `beep()` was called. -/
  beeped : Bool := false
  /-- The call `edit_customer_form_screen(id)` was made (line 1729). -/
  edit_form : Option Int := none
  /-- The delete confirmation was asked for this identifier (lines 1740-1744). -/
  confirm_prompt : Option Int := none
  /-- The call `db_delete_client(id)` was made (line 1749). -/
  db_delete : Option Int := none
  deriving DecidableEq, Repr

/-- The labels `KEY_ACTION_SELECT` and `KEY_ACTION_ENTER` (lines 1718-1771), also
reached by falling through from the labels above them. -/
def caseSelect (action_type : InteractiveListAction) (key : Key) (env : KeyEnv)
    (s : ListState) : KeyOutcome :=
  if s.total_items > 0 ∧ s.selected_item_index ≥ 0 ∧ s.selected_item_index < s.total_items then
    let client_id_action := (itemAt s.items s.selected_item_index).id
    match action_type with
    | INTERACTIVE_LIST_ACTION_EDIT =>
      if key = KEY_ACTION_DELETE ∨ key = KEY_ACTION_DELETE_ALT then
        { state := s, beeped := true }
      else
        let s1 := { s with details_loaded_for_selected := false, prev_selected_item_index := -1 }
        match env.edit_refetch with
        | some temp_full_client_refresh =>
          let it := itemAt s1.items s1.selected_item_index
          let it := { it with
            business_name := strncpy temp_full_client_refresh.business_name (MAX_STR_LEN - 1) }
          { state := { s1 with items := s1.items.set s1.selected_item_index.toNat it },
            edit_form := some client_id_action }
        | none => { state := s1, edit_form := some client_id_action }
    | INTERACTIVE_LIST_ACTION_DELETE =>
      if key = KEY_EDIT_CLIENT ∨ key = KEY_EDIT_CLIENT_ALT then
        { state := s, beeped := true }
      else if toupper env.confirm_key = CHAR_Y then
        if env.db_delete_ok then
          let items :=
            if s.selected_item_index < s.total_items - 1 then
              memmove s.items s.selected_item_index.toNat (s.selected_item_index + 1).toNat
                (s.total_items - 1 - s.selected_item_index).toNat
            else s.items
          let total_items := s.total_items - 1
          let selected_item_index :=
            if total_items = 0 then 0
            else if s.selected_item_index ≥ total_items then total_items - 1
            else s.selected_item_index
          { state := { s with
              items := items
              total_items := total_items
              selected_item_index := selected_item_index
              prev_selected_item_index := -1
              details_loaded_for_selected := false },
            confirm_prompt := some client_id_action,
            db_delete := some client_id_action }
        else
          { state := s, confirm_prompt := some client_id_action,
            db_delete := some client_id_action }
      else
        { state := s, confirm_prompt := some client_id_action }
  else { state := s, beeped := true }

/-- The labels `KEY_ACTION_DELETE` and `KEY_ACTION_DELETE_ALT` (lines 1710-1717),
also reached by falling through from the edit labels. -/
def caseDelete (action_type : InteractiveListAction) (key : Key) (env : KeyEnv)
    (s : ListState) : KeyOutcome :=
  if action_type ≠ INTERACTIVE_LIST_ACTION_DELETE ∧ key ≠ KEY_ACTION_SELECT
      ∧ key ≠ KEY_ACTION_ENTER then
    { state := s, beeped := true }
  else if action_type = INTERACTIVE_LIST_ACTION_DELETE
      ∧ (key = KEY_EDIT_CLIENT ∨ key = KEY_EDIT_CLIENT_ALT) then
    { state := s, beeped := true }
  else caseSelect action_type key env s

/-- The labels `KEY_EDIT_CLIENT` and `KEY_EDIT_CLIENT_ALT` (lines 1707-1709). -/
def caseEdit (action_type : InteractiveListAction) (key : Key) (env : KeyEnv)
    (s : ListState) : KeyOutcome :=
  if action_type ≠ INTERACTIVE_LIST_ACTION_EDIT then { state := s, beeped := true }
  else caseDelete action_type key env s

/-- The `switch (key)` of the event loop (lines 1660-1783). -/
def handleKey (action_type : InteractiveListAction) (items_per_page_nav : Int) (key : Key)
    (env : KeyEnv) (s : ListState) : KeyOutcome :=
  match key with
  | KEY_NAV_UP =>
    if s.total_items > 0 ∧ s.selected_item_index > 0 then
      let selected_item_index := s.selected_item_index - 1
      let top_item_index :=
        if selected_item_index < s.top_item_index then selected_item_index else s.top_item_index
      { state := { s with
          selected_item_index := selected_item_index, top_item_index := top_item_index } }
    else { state := s, beeped := true }
  | KEY_NAV_DOWN =>
    if s.total_items > 0 ∧ s.selected_item_index < s.total_items - 1 then
      let selected_item_index := s.selected_item_index + 1
      let top_item_index :=
        if selected_item_index ≥ s.top_item_index + items_per_page_nav then
          let top := selected_item_index - items_per_page_nav + 1
          if top < 0 then 0 else top
        else s.top_item_index
      { state := { s with
          selected_item_index := selected_item_index, top_item_index := top_item_index } }
    else { state := s, beeped := true }
  | KEY_NAV_PPAGE =>
    if s.total_items > 0 then
      let selected_item_index := s.selected_item_index - items_per_page_nav
      let selected_item_index := if selected_item_index < 0 then 0 else selected_item_index
      { state := { s with
          selected_item_index := selected_item_index, top_item_index := selected_item_index } }
    else { state := s, beeped := true }
  | KEY_NAV_NPAGE =>
    if s.total_items > 0 then
      let selected_item_index := s.selected_item_index + items_per_page_nav
      let selected_item_index :=
        if selected_item_index ≥ s.total_items then
          (if s.total_items > 0 then s.total_items - 1 else 0)
        else selected_item_index
      let top_item_index := selected_item_index - items_per_page_nav + 1
      let top_item_index := if top_item_index < 0 then 0 else top_item_index
      let top_item_index :=
        if s.total_items > 0 ∧ top_item_index + items_per_page_nav > s.total_items then
          let top := s.total_items - items_per_page_nav
          if top < 0 then 0 else top
        else top_item_index
      { state := { s with
          selected_item_index := selected_item_index, top_item_index := top_item_index } }
    else { state := s, beeped := true }
  | KEY_NAV_HOME =>
    if s.total_items > 0 then
      { state := { s with selected_item_index := 0, top_item_index := 0 } }
    else { state := s, beeped := true }
  | KEY_NAV_END =>
    if s.total_items > 0 then
      let top_item_index := s.total_items - items_per_page_nav
      let top_item_index := if top_item_index < 0 then 0 else top_item_index
      { state := { s with
          selected_item_index := s.total_items - 1, top_item_index := top_item_index } }
    else { state := s, beeped := true }
  | KEY_EDIT_CLIENT => caseEdit action_type key env s
  | KEY_EDIT_CLIENT_ALT => caseEdit action_type key env s
  | KEY_ACTION_DELETE => caseDelete action_type key env s
  | KEY_ACTION_DELETE_ALT => caseDelete action_type key env s
  | KEY_ACTION_SELECT => caseSelect action_type key env s
  | KEY_ACTION_ENTER => caseSelect action_type key env s
  | KEY_ACTION_QUIT => { state := s, returned := true }
  | KEY_ACTION_QUIT_ALT => { state := s, returned := true }
  | KEY_ESC => { state := s, returned := true }
  | KEY_RESIZE =>
    { state := { s with details_loaded_for_selected := false, prev_selected_item_index := -1 } }
  | ERR => { state := s, beeped := true }
  | OTHER => { state := s, beeped := true }

/-! ## The clamp pass (lines 1785-1807) -/

/-- The block that closes every iteration of the event loop (lines 1785-1807). -/
def clampPass (items_per_page_nav : Int) (s : ListState) : ListState :=
  if s.total_items > 0 then
    let selected_item_index :=
      if s.selected_item_index < 0 then 0 else s.selected_item_index
    let selected_item_index :=
      if selected_item_index ≥ s.total_items then s.total_items - 1 else selected_item_index
    let top_item_index :=
      if s.top_item_index > selected_item_index then selected_item_index else s.top_item_index
    let top_item_index := if top_item_index < 0 then 0 else top_item_index
    let top_item_index :=
      if selected_item_index ≥ top_item_index + items_per_page_nav then
        selected_item_index - items_per_page_nav + 1
      else top_item_index
    let top_item_index :=
      if selected_item_index < top_item_index then selected_item_index else top_item_index
    let top_item_index :=
      if top_item_index > 0 ∧ top_item_index + items_per_page_nav > s.total_items then
        let top := s.total_items - items_per_page_nav
        if top < 0 then 0 else top
      else top_item_index
    { s with selected_item_index := selected_item_index, top_item_index := top_item_index }
  else
    { s with
      selected_item_index := 0
      top_item_index := 0
      prev_selected_item_index := -1
      details_loaded_for_selected := false }

/-! ## The detail refresh of a redraw (lines 1621-1639) -/

/-- The record with every byte zero, the effect of `memset(&c, 0, sizeof(Client))`. -/
def zeroClient : Client :=
  { id := 0, business_name := [], email := [], phone := [], website := [], street := [],
    city := [], state := [], zip_code := [], country := [], tax_number := [],
    num_employees := 0, industry := [], contact_person := [], contact_email := [],
    contact_phone := [], status := [], notes := [], created_at := [] }

/-- The record left in `current_detailed_client` when the fetch fails
(lines 1628-1629). -/
def errorClient (id : Int) : Client :=
  { zeroClient with
    business_name := (cstr ("Error loading ID " ++ toString id)).take (MAX_STR_LEN - 1) }

/-- Lines 1621-1633: reload `current_detailed_client` when the selection moved
or no detail is loaded; `fetch` is the answer of `fetch_client_by_id`. -/
def refreshDetail (fetch : Int → Option Client) (s : ListState) : ListState :=
  if s.total_items > 0 ∧ s.selected_item_index ≥ 0 ∧ s.selected_item_index < s.total_items then
    if s.selected_item_index ≠ s.prev_selected_item_index ∨ s.details_loaded_for_selected = false then
      match fetch (itemAt s.items s.selected_item_index).id with
      | some c =>
        { s with
          current_detailed_client := c
          details_loaded_for_selected := true
          prev_selected_item_index := s.selected_item_index }
      | none =>
        { s with
          current_detailed_client := errorClient (itemAt s.items s.selected_item_index).id
          details_loaded_for_selected := false
          prev_selected_item_index := s.selected_item_index }
    else s
  else s

/-! ## One iteration of the event loop (lines 1538-1808) -/

/-- What the environment supplies to one iteration of the loop that was entered. -/
structure Input where
  /-- The windows exist after `check_and_handle_resize()` (line 1540). -/
  windows_ok : Bool
  /-- The value of `getmaxy(main_win)` (line 1545). -/
  main_win_height : Int
  /-- The answer of the store to `fetch_client_by_id` during the redraw. -/
  fetch_detail : Int → Option Client
  /-- The value of `wgetch(main_win)` (line 1655). -/
  key : Key
  /-- The flag `exit_requested` when it is read at line 1656. -/
  exit_requested : Bool
  /-- The answers used while the key is handled. -/
  env : KeyEnv

/-- One iteration of the `while` loop; `none` when the function returns from
inside the loop. -/
def loopIteration (action_type : InteractiveListAction) (i : Input) (s : ListState) :
    Option ListState :=
  if i.windows_ok = false then none
  else
    let s := refreshDetail i.fetch_detail s
    if i.key = ERR ∧ i.exit_requested = false then some s
    else
      let r := handleKey action_type (items_per_page_nav i.main_win_height) i.key i.env s
      if r.returned then none
      else some (clampPass (items_per_page_nav i.main_win_height) r.state)

/-- The loop run over the inputs of successive iterations; `none` when the
function returned before the inputs were used up. -/
def runLoop (action_type : InteractiveListAction) : List Input → ListState → Option ListState
  | [], s => some s
  | i :: rest, s =>
    match loopIteration action_type i s with
    | some s1 => runLoop action_type rest s1
    | none => none

/-! ## The ListViewport contract of the spec, stated over the loop variables -/

/-- The four ListViewport invariants of the spec for the page size in force:
the selection lies in the result set (both indices are 0 when it is empty), the
first visible index is between 0 and the selection, the selection is on the
visible page, and the first visible index is at most `max(0, len - page_size)`. -/
def ListViewportInv (page_size : Int) (s : ListState) : Prop :=
  ((s.total_items > 0 → 0 ≤ s.selected_item_index ∧ s.selected_item_index < s.total_items)
    ∧ (s.total_items = 0 → s.selected_item_index = 0 ∧ s.top_item_index = 0))
  ∧ (0 ≤ s.top_item_index ∧ s.top_item_index ≤ s.selected_item_index)
  ∧ s.selected_item_index < s.top_item_index + page_size
  ∧ s.top_item_index ≤ max 0 (s.total_items - page_size)

instance (page_size : Int) (s : ListState) : Decidable (ListViewportInv page_size s) := by
  unfold ListViewportInv
  infer_instance

/-- The key and the answers of a confirmed delete that the store accepts: the
list was opened for deletion, the key is one of the four that reach the delete
branch, the confirmation is `y` or `Y`, and `db_delete_client` succeeds. -/
def IsRemoveSelected (action_type : InteractiveListAction) (key : Key) (env : KeyEnv) : Prop :=
  action_type = INTERACTIVE_LIST_ACTION_DELETE
  ∧ (key = KEY_ACTION_DELETE ∨ key = KEY_ACTION_DELETE_ALT ∨ key = KEY_ACTION_SELECT
      ∨ key = KEY_ACTION_ENTER)
  ∧ toupper env.confirm_key = CHAR_Y
  ∧ env.db_delete_ok = true

instance (action_type : InteractiveListAction) (key : Key) (env : KeyEnv) :
    Decidable (IsRemoveSelected action_type key env) := by
  unfold IsRemoveSelected
  infer_instance

/-- The iterations in which one of the viewport events of the spec occurs: a
move (Up, Down), a page (PageUp, PageDown), Home, End, a resize, or a confirmed
delete that the store accepts.  The window height of the iteration is free. -/
def IsViewportEvent (action_type : InteractiveListAction) (i : Input) : Prop :=
  i.windows_ok = true
  ∧ (i.key = KEY_NAV_UP ∨ i.key = KEY_NAV_DOWN ∨ i.key = KEY_NAV_PPAGE ∨ i.key = KEY_NAV_NPAGE
      ∨ i.key = KEY_NAV_HOME ∨ i.key = KEY_NAV_END ∨ i.key = KEY_RESIZE
      ∨ IsRemoveSelected action_type i.key i.env)

instance (action_type : InteractiveListAction) (i : Input) :
    Decidable (IsViewportEvent action_type i) := by
  unfold IsViewportEvent
  infer_instance

/-- The height of the main window in the last iteration that ran, `h0` (the
height at the first draw) when none ran yet.  The page size in force is
`items_per_page_nav` of it. -/
def finalHeight (h0 : Int) : List Input → Int
  | [] => h0
  | i :: rest => finalHeight i.main_win_height rest

/-- An iteration with valid windows and no pending exit in which `key` is read
from a main window of height `h`. -/
def keyInput (h : Int) (key : Key) (fetch : Int → Option Client) (env : KeyEnv) : Input :=
  { windows_ok := true
    main_win_height := h
    fetch_detail := fetch
    key := key
    exit_requested := false
    env := env }

/-! ## Sample data for the concrete instances -/

/-- A summary row with the given identifier. -/
def sampleItem (id : Int) : ClientListItem :=
  { id := id, business_name := [65, 99, 109, 101], city := [], phone := [], email := [],
    contact_person := [] }

/-- A result set of five summaries. -/
def sampleItems : List ClientListItem :=
  [sampleItem 11, sampleItem 12, sampleItem 13, sampleItem 14, sampleItem 15]

/-- A state over `sampleItems` with the given count and indices. -/
def sampleState (total_items selected_item_index top_item_index : Int) : ListState :=
  { items := sampleItems
    total_items := total_items
    top_item_index := top_item_index
    selected_item_index := selected_item_index
    current_detailed_client := zeroClient
    details_loaded_for_selected := false
    prev_selected_item_index := -1 }

/-- Answers of a user who confirms with `y` and a store that accepts the delete. -/
def sampleEnv : KeyEnv :=
  { edit_refetch := none, confirm_key := 121, db_delete_ok := true }

/-- An iteration reading `key` in a window of height `h`, with `sampleEnv`. -/
def sampleInput (h : Int) (key : Key) : Input :=
  keyInput h key (fun _ => none) sampleEnv

/-! ## ColumnPlan (lines 147-151, 1280-1301) -/

/-- The padding between list columns, `LIST_COL_PADDING`. -/
def LIST_COL_PADDING : Int := 1

/-- The column plan of the list pane, `ListColumnWidths`. -/
structure ListColumnWidths where
  id_width : Int
  name_width : Int
  name_col_start : Int
  deriving DecidableEq, Repr

/-- The function `calculate_list_column_widths_for_pane`; the result is the
value left in `*widths`. -/
def calculate_list_column_widths_for_pane (pane_content_width : Int) : ListColumnWidths :=
  let min_id_w : Int := 4
  let padding := LIST_COL_PADDING
  let widths : ListColumnWidths := { id_width := 0, name_width := 0, name_col_start := 0 }
  if pane_content_width ≤ 0 then widths
  else
    let widths : ListColumnWidths :=
      if pane_content_width < min_id_w + padding + 1 then
        { id_width := pane_content_width
          name_width := 0
          name_col_start := pane_content_width }
      else
        let id_width := min_id_w
        let name_width := pane_content_width - id_width - padding
        let name_width := if name_width < 0 then 0 else name_width
        { id_width := id_width
          name_width := name_width
          name_col_start := id_width + padding }
    let widths := if widths.id_width < 0 then { widths with id_width := 0 } else widths
    let widths := if widths.name_width < 0 then { widths with name_width := 0 } else widths
    widths

/-! ## PaneLayout (lines 84-86, 1556-1572) -/

/-- The share of the width given to the list pane, `LIST_PANE_PERCENT` (0.50). -/
def LIST_PANE_PERCENT : ℚ := 1 / 2

/-- The minimum width of the detail pane, `DETAIL_PANE_MIN_WIDTH`. -/
def DETAIL_PANE_MIN_WIDTH : Int := 45

/-- The width of the separator between the panes, `PANE_SEPARATOR_WIDTH`. -/
def PANE_SEPARATOR_WIDTH : Int := 1

/-- The conversion `(int)x` of a `double`: the fraction is discarded, so the
value is truncated toward zero. -/
def castToInt (x : ℚ) : Int := if x ≥ 0 then ⌊x⌋ else ⌈x⌉

/-- The raw list width of line 1557,
`(int)(available_content_width * LIST_PANE_PERCENT)`.  The product of an `int`
and 0.5 is exact in a `double`, so the rational product is the value that is
converted. -/
def rawListPaneWidth (available_content_width : Int) : Int :=
  castToInt ((available_content_width : ℚ) * LIST_PANE_PERCENT)

/-- The raw detail width of line 1558. -/
def rawDetailPaneWidth (available_content_width list_pane_w : Int) : Int :=
  available_content_width - list_pane_w - PANE_SEPARATOR_WIDTH

/-- The adjustment of lines 1560-1568 applied to the raw widths: the pair
`(list_pane_w, detail_pane_w)` after it. -/
def adjustPaneWidths (available_content_width list_pane_w detail_pane_w : Int) : Int × Int :=
  let widths : Int × Int :=
    if detail_pane_w < DETAIL_PANE_MIN_WIDTH
        ∧ list_pane_w > (DETAIL_PANE_MIN_WIDTH + PANE_SEPARATOR_WIDTH + 20) then
      let detail_pane_w := DETAIL_PANE_MIN_WIDTH
      let list_pane_w := available_content_width - detail_pane_w - PANE_SEPARATOR_WIDTH
      (list_pane_w, detail_pane_w)
    else if list_pane_w < 30
        ∧ detail_pane_w > (30 + PANE_SEPARATOR_WIDTH + DETAIL_PANE_MIN_WIDTH) then
      let list_pane_w := 30
      let detail_pane_w := available_content_width - list_pane_w - PANE_SEPARATOR_WIDTH
      (list_pane_w, detail_pane_w)
    else (list_pane_w, detail_pane_w)
  let list_pane_w := if widths.1 < 0 then 0 else widths.1
  let detail_pane_w := if widths.2 < 0 then 0 else widths.2
  (list_pane_w, detail_pane_w)

/-- The geometry computed at every redraw (lines 1556-1572). -/
structure PaneGeometry where
  list_pane_start_x : Int
  list_pane_w : Int
  detail_pane_start_x : Int
  detail_pane_w : Int
  separator_x_pane : Int
  deriving DecidableEq, Repr

/-- Lines 1556-1572 for a main window of the given width. -/
def paneLayout (main_win_width : Int) : PaneGeometry :=
  let available_content_width := main_win_width - (2 * MAIN_WIN_BORDER_WIDTH)
  let list_pane_w := rawListPaneWidth available_content_width
  let detail_pane_w := rawDetailPaneWidth available_content_width list_pane_w
  let widths := adjustPaneWidths available_content_width list_pane_w detail_pane_w
  let list_pane_start_x := MAIN_WIN_BORDER_WIDTH
  let separator_x_pane := list_pane_start_x + widths.1
  let detail_pane_start_x := separator_x_pane + PANE_SEPARATOR_WIDTH
  { list_pane_start_x := list_pane_start_x
    list_pane_w := widths.1
    detail_pane_start_x := detail_pane_start_x
    detail_pane_w := widths.2
    separator_x_pane := separator_x_pane }

/-- The raw list width as the spec words it, `round(total_width * split_ratio)`:
the nearest integer, a half rounded up. -/
def specRawListWidth (total_width : Int) (split_ratio : ℚ) : Int :=
  round ((total_width : ℚ) * split_ratio)

/-! ## DetailCache: the calls and the record shown (lines 1621-1639) -/

/-- The identifiers for which `fetch_client_by_id` is called by the redraw that
starts in state `s` (line 1624): at most one. -/
def detailFetchCalls (s : ListState) : List Int :=
  if s.total_items > 0 ∧ s.selected_item_index ≥ 0 ∧ s.selected_item_index < s.total_items then
    if s.selected_item_index ≠ s.prev_selected_item_index ∨ s.details_loaded_for_selected = false then
      [(itemAt s.items s.selected_item_index).id]
    else []
  else []

/-- The identifiers fetched by the redraws of the loop run over the inputs, in
the order of the calls: the counter of a counting fetch function is the length
of this list. -/
def loopFetchCalls (action_type : InteractiveListAction) : List Input → ListState → List Int
  | [], _ => []
  | i :: rest, s =>
    if i.windows_ok = false then []
    else
      detailFetchCalls s ++
        (match loopIteration action_type i s with
          | some s1 => loopFetchCalls action_type rest s1
          | none => [])

/-- The record passed to `draw_client_details_in_pane` when the detail pane has
a positive width (lines 1634-1639), for the state left by the refresh: `none`
stands for `NULL`. -/
def detailPaneArg (s : ListState) : Option Client :=
  if s.total_items > 0 ∧ s.selected_item_index ≥ 0 ∧ s.selected_item_index < s.total_items then
    some s.current_detailed_client
  else none

/-- The key handled in the iteration that starts in state `s` opens no edit
form, deletes nothing, is not a resize, and the iteration leaves the selection
where it was. -/
def IsQuietEvent (action_type : InteractiveListAction) (i : Input) (s : ListState) : Prop :=
  i.key ≠ KEY_RESIZE
  ∧ (handleKey action_type (items_per_page_nav i.main_win_height) i.key i.env
      (refreshDetail i.fetch_detail s)).edit_form = none
  ∧ (handleKey action_type (items_per_page_nav i.main_win_height) i.key i.env
      (refreshDetail i.fetch_detail s)).state.total_items = s.total_items
  ∧ (clampPass (items_per_page_nav i.main_win_height)
      (handleKey action_type (items_per_page_nav i.main_win_height) i.key i.env
        (refreshDetail i.fetch_detail s)).state).selected_item_index = s.selected_item_index

instance (action_type : InteractiveListAction) (i : Input) (s : ListState) :
    Decidable (IsQuietEvent action_type i s) := by
  unfold IsQuietEvent
  infer_instance

/-- A store in which every record is found: the fetch answers with a record
that carries the requested identifier. -/
def sampleFetch (id : Int) : Option Client :=
  some { zeroClient with id := id }

/-! ## The rows drawn in the list pane (lines 1548-1553, 1605-1612) -/

/-- The value of `list_pane_content_height` (lines 1551-1553). -/
def list_pane_content_height (main_win_height : Int) : Int :=
  let title_bar_h := (SCREEN_SEPARATOR_Y - SCREEN_TITLE_Y) + 1
  let list_pane_content_height :=
    main_win_height - (2 * (MAIN_WIN_BORDER_WIDTH - 1)) - title_bar_h
  if list_pane_content_height < 1 then 1 else list_pane_content_height

/-- The `for` loop of lines 1608-1612 from index `i` on: the pairs of an item
index and the screen row it is drawn on.  The fuel bounds the number of
iterations; `drawLoop_fuel` shows that the fuel used below never runs out
before the loop ends. -/
def drawLoop (limit_y list_items_start_y top_item_index last_visible_on_page : Int) :
    Nat → Int → List (Int × Int)
  | 0, _ => []
  | fuel + 1, i =>
    if i ≤ last_visible_on_page then
      let screen_y := list_items_start_y + (i - top_item_index)
      if screen_y ≥ limit_y then []
      else
        (i, screen_y) ::
          drawLoop limit_y list_items_start_y top_item_index last_visible_on_page fuel (i + 1)
    else []

/-- The items drawn by lines 1605-1612 (reached when the list pane has a
positive width and the list is not empty), with their screen rows. -/
def drawnItems (main_win_height total_items top_item_index : Int) : List (Int × Int) :=
  let content_below_separator_y := SCREEN_SEPARATOR_Y + 1
  let list_header_h : Int := 1
  let list_items_start_y := content_below_separator_y + list_header_h
  let last_visible_on_page := top_item_index + items_per_page_list main_win_height - 1
  let last_visible_on_page :=
    if last_visible_on_page ≥ total_items then total_items - 1 else last_visible_on_page
  drawLoop (content_below_separator_y + list_pane_content_height main_win_height)
    list_items_start_y top_item_index last_visible_on_page
    (last_visible_on_page - top_item_index + 1).toNat top_item_index

/-! ## The calls of the store's delete (line 1749) -/

/-- The identifiers passed to `db_delete_client` by the loop run over the
inputs, in the order of the calls. -/
def loopDeleteCalls (action_type : InteractiveListAction) : List Input → ListState → List Int
  | [], _ => []
  | i :: rest, s =>
    if i.windows_ok = false then []
    else if i.key = ERR ∧ i.exit_requested = false then
      loopDeleteCalls action_type rest (refreshDetail i.fetch_detail s)
    else
      (handleKey action_type (items_per_page_nav i.main_win_height) i.key i.env
          (refreshDetail i.fetch_detail s)).db_delete.toList ++
        (match loopIteration action_type i s with
          | some s1 => loopDeleteCalls action_type rest s1
          | none => [])

/-! ## DetailCache: what a detail that is not stale is -/

/-- The test of lines 1621 and 1719: the list is not empty and the selection
lies in it. -/
def hasSelection (s : ListState) : Prop :=
  s.total_items > 0 ∧ s.selected_item_index ≥ 0 ∧ s.selected_item_index < s.total_items

instance (s : ListState) : Decidable (hasSelection s) := by
  unfold hasSelection
  infer_instance

/-- The identifier of the selected summary, `items[selected_item_index].id`. -/
def selectedId (s : ListState) : Int := (itemAt s.items s.selected_item_index).id

/-- What a fetch for `id` leaves in `current_detailed_client` (lines 1624-1630):
the answer of the store, or the error placeholder for `id`. -/
def fetchOutcome (fetch : Int → Option Client) (id : Int) : Client :=
  match fetch id with
  | some c => c
  | none => errorClient id

/-- The iteration from `s` to `s1` changed the selection, opened the edit form
or performed a delete that the store accepted. -/
def invalidates (action_type : InteractiveListAction) (i : Input) (s s1 : ListState) : Prop :=
  s1.selected_item_index ≠ s.selected_item_index
  ∨ (handleKey action_type (items_per_page_nav i.main_win_height) i.key i.env
      (refreshDetail i.fetch_detail s)).edit_form ≠ none
  ∨ ((handleKey action_type (items_per_page_nav i.main_win_height) i.key i.env
        (refreshDetail i.fetch_detail s)).db_delete ≠ none
      ∧ i.env.db_delete_ok = true)

instance (action_type : InteractiveListAction) (i : Input) (s s1 : ListState) :
    Decidable (invalidates action_type i s s1) := by
  unfold invalidates
  infer_instance

/-- The identifier and the outcome of the most recent fetch, after the redraw
that starts in state `s`: the fetch of this redraw if there is one, otherwise
what was recorded before (`none` when no fetch was made since the last
selection change, edit or successful delete). -/
def freshAfterRedraw (fresh : Option (Int × Client)) (fetch : Int → Option Client)
    (s : ListState) : Option (Int × Client) :=
  if detailFetchCalls s = [] then fresh
  else some (selectedId s, fetchOutcome fetch (selectedId s))

/-- The record is forgotten when the iteration changed the selection, opened
the edit form or deleted a record. -/
def freshAfterKey (action_type : InteractiveListAction) (i : Input) (s s1 : ListState)
    (fresh : Option (Int × Client)) : Option (Int × Client) :=
  if invalidates action_type i s s1 then none else fresh

/-- At every redraw of the run with a selection, the record handed to the
detail pane is the outcome of a fetch for the identifier of the selected
summary that was made after the most recent selection change, edit or
successful delete. -/
def NeverStale (action_type : InteractiveListAction) :
    List Input → ListState → Option (Int × Client) → Prop
  | [], _, _ => True
  | i :: rest, s, fresh =>
    i.windows_ok = true →
      (hasSelection s →
          detailPaneArg (refreshDetail i.fetch_detail s)
              = some (refreshDetail i.fetch_detail s).current_detailed_client
          ∧ freshAfterRedraw fresh i.fetch_detail s
              = some (selectedId s, (refreshDetail i.fetch_detail s).current_detailed_client))
        ∧ (match loopIteration action_type i s with
            | some s1 =>
              NeverStale action_type rest s1
                (freshAfterKey action_type i s s1 (freshAfterRedraw fresh i.fetch_detail s))
            | none => True)

/-! ## NoteWrapper: the notes of the detail pane (lines 1412-1470)

The text is the content of `client->notes` before its terminator; a pointer
into it is the number of bytes between the start of the buffer and it.  The C
library functions `mbtowc` and `wcwidth` are parameters: `mbtowc` is given the
bytes from the pointer on and answers with the pair of its return value and of
the wide character it stored. -/

/-- The line break `'\n'`. -/
def NEWLINE : Nat := 10

/-- The byte `*p` of the NUL-terminated buffer that holds `text`: 0 at the
terminator, and in this model after it as well (a decoder that respects the
terminator, `DecoderInBounds`, never moves a pointer there). -/
def byteAt (text : CStr) (p : Nat) : Nat := text.getD p 0

/-- The label width `DETAIL_LABEL_WIDTH` (line 72). -/
def DETAIL_LABEL_WIDTH : Int := 18

/-- The guard of line 1367 for a client that is not null: the pane draws the
fields, and with them the notes, only when it is wider than this. -/
def detailPaneDrawsFields (pane_content_width : Int) : Bool :=
  !decide (pane_content_width ≤ DETAIL_LABEL_WIDTH + 5)

/-- The value of `notes_available_width` (lines 1416-1417). -/
def notes_available_width (pane_content_width : Int) : Int :=
  let notes_available_width := pane_content_width - 2
  if notes_available_width < 1 then 1 else notes_available_width

/-- The variables of the inner loop (lines 1422-1426). -/
structure LineScan where
  temp_ptr : Nat
  bytes_to_print_this_line : Nat
  current_visual_width : Int
  deriving DecidableEq, Repr

/-- The inner `while` loop (lines 1427-1447): the variables when it is left,
`none` when the fuel runs out first. -/
def scanLine (mbtowc : CStr → Int × Int) (wcwidth : Int → Int) (text : CStr)
    (notes_available_width : Int) : Nat → LineScan → Option LineScan
  | 0, _ => none
  | fuel + 1, st =>
    if byteAt text st.temp_ptr ≠ 0 ∧ byteAt text st.temp_ptr ≠ NEWLINE then
      let mb_len := (mbtowc (text.drop st.temp_ptr)).1
      let wch := (mbtowc (text.drop st.temp_ptr)).2
      if mb_len ≤ 0 then
        if mb_len < 0 then
          some { st with
            bytes_to_print_this_line := st.bytes_to_print_this_line + 1
            temp_ptr := st.temp_ptr + 1 }
        else some st
      else
        let char_width := wcwidth wch
        let char_width := if char_width < 0 then 1 else char_width
        if st.current_visual_width + char_width > notes_available_width then some st
        else
          scanLine mbtowc wcwidth text notes_available_width fuel
            { temp_ptr := st.temp_ptr + mb_len.toNat
              bytes_to_print_this_line := st.bytes_to_print_this_line + mb_len.toNat
              current_visual_width := st.current_visual_width + char_width }
    else some st

/-- What one iteration of the outer loop did: the row, the span handed to
`waddnstr` (when it has at least one byte), its column total, and
`notes_ptr` after the iteration. -/
structure NoteRow where
  y : Int
  line_start : Nat
  bytes_to_print_this_line : Nat
  current_visual_width : Int
  next_ptr : Nat
  deriving DecidableEq, Repr

/-- The bytes of the line of a row. -/
def NoteRow.line (text : CStr) (row : NoteRow) : CStr :=
  (text.drop row.line_start).take row.bytes_to_print_this_line

/-- One iteration of the outer loop (lines 1421-1469) from `notes_ptr` on row
`y`; `none` when the inner loop ran out of fuel. -/
def wrapIteration (mbtowc : CStr → Int × Int) (wcwidth : Int → Int) (text : CStr)
    (notes_available_width : Int) (notes_ptr : Nat) (y : Int) : Option NoteRow :=
  match scanLine mbtowc wcwidth text notes_available_width (text.length + 1)
      { temp_ptr := notes_ptr, bytes_to_print_this_line := 0, current_visual_width := 0 } with
  | none => none
  | some sc =>
    let notes_ptr1 := notes_ptr + sc.bytes_to_print_this_line
    let notes_ptr2 :=
      if byteAt text notes_ptr1 = NEWLINE then notes_ptr1 + 1
      else if sc.bytes_to_print_this_line = 0 ∧ byteAt text notes_ptr1 ≠ 0 then notes_ptr1 + 1
      else notes_ptr1
    some
      { y := y
        line_start := notes_ptr
        bytes_to_print_this_line := sc.bytes_to_print_this_line
        current_visual_width := sc.current_visual_width
        next_ptr := notes_ptr2 }

/-- The outer `while` loop (lines 1420-1470) from `notes_ptr` on row `y`, for
the row limit `y_limit` (`getmaxy(win) - (MAIN_WIN_BORDER_WIDTH - 1)`): the rows
in order and the final `notes_ptr`; `none` when the fuel runs out first. -/
def wrapNotes (mbtowc : CStr → Int × Int) (wcwidth : Int → Int) (text : CStr)
    (notes_available_width : Int) (y_limit : Int) : Nat → Nat → Int → Option (List NoteRow × Nat)
  | 0, _, _ => none
  | fuel + 1, notes_ptr, y =>
    if byteAt text notes_ptr ≠ 0 ∧ y < y_limit then
      match wrapIteration mbtowc wcwidth text notes_available_width notes_ptr y with
      | none => none
      | some row =>
        match wrapNotes mbtowc wcwidth text notes_available_width y_limit fuel row.next_ptr
            (y + 1) with
        | none => none
        | some (rows, p) => some (row :: rows, p)
    else some ([], notes_ptr)

/-- The wrapping of a whole text from row `y` on. -/
def drawNotes (mbtowc : CStr → Int × Int) (wcwidth : Int → Int) (text : CStr)
    (notes_available_width : Int) (y y_limit : Int) : Option (List NoteRow × Nat) :=
  wrapNotes mbtowc wcwidth text notes_available_width y_limit (text.length + 1) 0 y

/-! ### The notions the NoteWrapper claims are stated with -/

/-- The character boundaries of a text under a decoder: the start, and the end
of every character decoded at a boundary. -/
inductive CharBoundary (mbtowc : CStr → Int × Int) (text : CStr) : Nat → Prop where
  | start : CharBoundary mbtowc text 0
  | next (p : Nat) : CharBoundary mbtowc text p → p < text.length →
      0 < (mbtowc (text.drop p)).1 →
      CharBoundary mbtowc text (p + (mbtowc (text.drop p)).1.toNat)

/-- The text is validly encoded: at every character boundary before the end the
decoder finds a character that lies within the text, and a line break is a
character of one byte. -/
def ValidlyEncoded (mbtowc : CStr → Int × Int) (text : CStr) : Prop :=
  ∀ p, CharBoundary mbtowc text p → p < text.length →
    0 < (mbtowc (text.drop p)).1
    ∧ p + (mbtowc (text.drop p)).1.toNat ≤ text.length
    ∧ (byteAt text p = NEWLINE → (mbtowc (text.drop p)).1 = 1)

/-- The width the loop counts for the character at `p`: its `wcwidth`, a
negative one counted as 1 (lines 1438-1439). -/
def charWidthAt (mbtowc : CStr → Int × Int) (wcwidth : Int → Int) (text : CStr) (p : Nat) :
    Int :=
  let char_width := wcwidth (mbtowc (text.drop p)).2
  if char_width < 0 then 1 else char_width

/-- No character of the text is wider than the available width. -/
def FitsWidth (mbtowc : CStr → Int × Int) (wcwidth : Int → Int) (text : CStr)
    (notes_available_width : Int) : Prop :=
  ∀ p, CharBoundary mbtowc text p → p < text.length →
    charWidthAt mbtowc wcwidth text p ≤ notes_available_width

/-- The decoder never reports a character that reaches beyond the terminator
(a NUL byte is never part of a multi-byte character). -/
def DecoderInBounds (mbtowc : CStr → Int × Int) (text : CStr) : Prop :=
  ∀ p, p < text.length → (mbtowc (text.drop p)).1 ≤ ((text.length - p : Nat) : Int)

instance (mbtowc : CStr → Int × Int) (text : CStr) : Decidable (DecoderInBounds mbtowc text) := by
  unfold DecoderInBounds
  infer_instance

/-- No byte after the first of a character that the decoder reports is a line
break. -/
def DecoderKeepsLineBreaks (mbtowc : CStr → Int × Int) (text : CStr) : Prop :=
  ∀ p, p < text.length → ∀ k, k < text.length → 0 < k →
    (k : Int) < (mbtowc (text.drop p)).1 → byteAt text (p + k) ≠ NEWLINE

instance (mbtowc : CStr → Int × Int) (text : CStr) :
    Decidable (DecoderKeepsLineBreaks mbtowc text) := by
  unfold DecoderKeepsLineBreaks
  infer_instance

/-- The rows cover the bytes from `p` to `q` one after the other: each row
starts where the one before stopped and consumes its line and at most one more
byte (the line break, or a byte that was skipped). -/
def Chained : Nat → List NoteRow → Nat → Prop
  | p, [], q => p = q
  | p, row :: rest, q =>
    row.line_start = p
    ∧ (row.next_ptr = p + row.bytes_to_print_this_line
      ∨ row.next_ptr = p + row.bytes_to_print_this_line + 1)
    ∧ Chained row.next_ptr rest q

/-- The greedy property of a line as the spec words it: its column total is at
most the width, and when the line ended neither at a line break nor at the end
of the text, the next character does not fit any more. -/
def GreedyLine (mbtowc : CStr → Int × Int) (wcwidth : Int → Int) (text : CStr)
    (notes_available_width : Int) (row : NoteRow) : Prop :=
  row.current_visual_width ≤ notes_available_width
  ∧ (byteAt text (row.line_start + row.bytes_to_print_this_line) ≠ 0 →
      byteAt text (row.line_start + row.bytes_to_print_this_line) ≠ NEWLINE →
      0 < (mbtowc (text.drop (row.line_start + row.bytes_to_print_this_line))).1
      ∧ row.current_visual_width
          + charWidthAt mbtowc wcwidth text (row.line_start + row.bytes_to_print_this_line)
          > notes_available_width)

instance (mbtowc : CStr → Int × Int) (wcwidth : Int → Int) (text : CStr)
    (notes_available_width : Int) (row : NoteRow) :
    Decidable (GreedyLine mbtowc wcwidth text notes_available_width row) := by
  unfold GreedyLine
  infer_instance

/-- The positions at which the decoder is applied when it walks from `s` over
the characters it finds: `s`, and the end of every character decoded at such a
position. -/
inductive DecodedFrom (mbtowc : CStr → Int × Int) (text : CStr) (s : Nat) : Nat → Prop where
  | start : DecodedFrom mbtowc text s s
  | next (p : Nat) : DecodedFrom mbtowc text s p → 0 < (mbtowc (text.drop p)).1 →
      DecodedFrom mbtowc text s (p + (mbtowc (text.drop p)).1.toNat)

/-- A row advances by whole characters: it starts on a character boundary, its
line ends on one, and the cursor after it is on one, at the end of the line or
one byte further when that byte is a line break. -/
def WholeCharacters (mbtowc : CStr → Int × Int) (text : CStr) (row : NoteRow) : Prop :=
  CharBoundary mbtowc text row.line_start
  ∧ CharBoundary mbtowc text (row.line_start + row.bytes_to_print_this_line)
  ∧ CharBoundary mbtowc text row.next_ptr
  ∧ (row.next_ptr = row.line_start + row.bytes_to_print_this_line
    ∨ (byteAt text (row.line_start + row.bytes_to_print_this_line) = NEWLINE
      ∧ row.next_ptr = row.line_start + row.bytes_to_print_this_line + 1))

/-- The column total of the bytes from `p` up to `e` as the spec words it: the
widths of the characters decoded one after the other from `p`, as long as a
character starts before `e`. -/
def lineColumns (mbtowc : CStr → Int × Int) (wcwidth : Int → Int) (text : CStr) :
    Nat → Nat → Nat → Int
  | 0, _, _ => 0
  | fuel + 1, p, e =>
    if p < e ∧ 0 < (mbtowc (text.drop p)).1 then
      charWidthAt mbtowc wcwidth text p
        + lineColumns mbtowc wcwidth text fuel (p + (mbtowc (text.drop p)).1.toNat) e
    else 0

/-! ### Sample decoder, widths and texts for the concrete instances -/

/-- A model of `mbtowc` in a UTF-8 locale. -/
def utf8_mbtowc (s : CStr) : Int × Int :=
  match s with
  | [] => (0, 0)
  | b0 :: rest =>
    if b0 = 0 then (0, 0)
    else if b0 < 128 then (1, b0)
    else if 194 ≤ b0 ∧ b0 < 224 then
      match rest with
      | b1 :: _ =>
        if 128 ≤ b1 ∧ b1 < 192 then (2, (((b0 - 192) * 64 + (b1 - 128) : Nat) : Int))
        else (-1, 0)
      | [] => (-1, 0)
    else if 224 ≤ b0 ∧ b0 < 240 then
      match rest with
      | b1 :: b2 :: _ =>
        if (128 ≤ b1 ∧ b1 < 192) ∧ (128 ≤ b2 ∧ b2 < 192) then
          (3, (((b0 - 224) * 4096 + (b1 - 128) * 64 + (b2 - 128) : Nat) : Int))
        else (-1, 0)
      | _ => (-1, 0)
    else if 240 ≤ b0 ∧ b0 < 245 then
      match rest with
      | b1 :: b2 :: b3 :: _ =>
        if (128 ≤ b1 ∧ b1 < 192) ∧ (128 ≤ b2 ∧ b2 < 192) ∧ (128 ≤ b3 ∧ b3 < 192) then
          (4, (((b0 - 240) * 262144 + (b1 - 128) * 4096 + (b2 - 128) * 64 + (b3 - 128) : Nat)
            : Int))
        else (-1, 0)
      | _ => (-1, 0)
    else (-1, 0)

/-- A model of `wcwidth`: control characters are not printable, combining marks
have width 0, East Asian wide characters width 2, the rest width 1. -/
def sample_wcwidth (wch : Int) : Int :=
  if wch < 32 ∨ (127 ≤ wch ∧ wch < 160) then -1
  else if 768 ≤ wch ∧ wch < 880 then 0
  else if (4352 ≤ wch ∧ wch < 4448) ∨ (11904 ≤ wch ∧ wch < 42192)
      ∨ (44032 ≤ wch ∧ wch < 55204) ∨ (63744 ≤ wch ∧ wch < 64256)
      ∨ (65280 ≤ wch ∧ wch < 65377) then 2
  else 1

/-- The bytes of `ab\ncd`. -/
def note_ab_cd : CStr := [97, 98, 10, 99, 100]

/-- The bytes of the single wide character U+4E2D in UTF-8. -/
def note_wide : CStr := [228, 184, 173]

/-- One byte that starts no UTF-8 character, followed by `ab`. -/
def note_invalid_ab : CStr := [255, 97, 98]

/-- The letter `a`, one byte that starts no UTF-8 character, and `b`. -/
def note_a_invalid_b : CStr := [97, 255, 98]

/-- The bytes of `abc`, the wide character U+4E2D and `d` in UTF-8. -/
def note_abc_wide_d : CStr := [97, 98, 99, 228, 184, 173, 100]

/-! ## Auxiliary facts -/

section Auxiliary

theorem items_per_page_nav_pos (h : Int) : items_per_page_nav h ≥ 1 := by
  unfold items_per_page_nav items_per_page_list
  simp only [SCREEN_SEPARATOR_Y, SCREEN_TITLE_Y, MAIN_WIN_BORDER_WIDTH]
  omega

theorem items_per_page_nav_eq (h : Int) (hh : h ≥ 6) : items_per_page_nav h = h - 5 := by
  unfold items_per_page_nav items_per_page_list
  simp only [SCREEN_SEPARATOR_Y, SCREEN_TITLE_Y, MAIN_WIN_BORDER_WIDTH]
  omega

/-- Every page size from 1 upwards is the page size of some window height. -/
theorem items_per_page_nav_surj (p : Int) (hp : p ≥ 1) : items_per_page_nav (p + 5) = p := by
  rw [items_per_page_nav_eq (p + 5) (by omega)]
  omega

/-- The sums and differences formed by the key handlers and the clamp pass, on
indices `x` and `y` between 0 and the count and a page size `p >= 1`, are
representable when `total + p` is. -/
theorem viewport_arithmetic_fits_int (total p x y : Int) (hp : 1 ≤ p)
    (hfit : total + p ≤ INT_MAX) (hx : 0 ≤ x ∧ x ≤ total) (hy : 0 ≤ y ∧ y ≤ total) :
    fitsInt (x - 1) ∧ fitsInt (x + 1) ∧ fitsInt (x + p) ∧ fitsInt (x - p)
    ∧ fitsInt (x - p + 1) ∧ fitsInt (total - p) ∧ fitsInt (total - 1)
    ∧ fitsInt (total - 1 - y) ∧ fitsInt (x + 1 - p + 1) := by
  simp only [fitsInt, INT_MAX] at *
  omega

theorem refreshDetail_frame (f : Int → Option Client) (s : ListState) :
    (refreshDetail f s).items = s.items ∧ (refreshDetail f s).total_items = s.total_items
    ∧ (refreshDetail f s).top_item_index = s.top_item_index
    ∧ (refreshDetail f s).selected_item_index = s.selected_item_index := by
  unfold refreshDetail
  split_ifs
  · split <;> simp
  · simp
  · simp

theorem clampPass_total (p : Int) (s : ListState) :
    (clampPass p s).total_items = s.total_items := by
  unfold clampPass
  split_ifs <;> rfl

theorem clampPass_items (p : Int) (s : ListState) : (clampPass p s).items = s.items := by
  unfold clampPass
  split_ifs <;> rfl

theorem clampPass_inv (p : Int) (s : ListState) (hlen : s.total_items ≥ 1) (hp : p ≥ 1) :
    ListViewportInv p (clampPass p s) := by
  have hpos : s.total_items > 0 := by omega
  unfold ListViewportInv clampPass
  simp only [hpos, if_true]
  omega

theorem clampPass_fix (p : Int) (s : ListState) (hlen : s.total_items ≥ 1)
    (h : ListViewportInv p s) : clampPass p s = s := by
  obtain ⟨items, total, top, sel, cdc, dl, prev⟩ := s
  simp only [ListViewportInv] at h
  simp only at hlen
  have hpos : total > 0 := by omega
  simp only [clampPass, hpos, if_true, ListState.mk.injEq, true_and, and_true]
  constructor <;> omega

theorem clampPass_empty (p : Int) (s : ListState) (hlen : s.total_items ≤ 0) :
    clampPass p s =
      { s with
        selected_item_index := 0
        top_item_index := 0
        prev_selected_item_index := -1
        details_loaded_for_selected := false } := by
  have : ¬ s.total_items > 0 := by omega
  simp only [clampPass, this, if_false]

theorem clampPass_inv_nonneg (p : Int) (s : ListState) (hlen : s.total_items ≥ 0) (hp : p ≥ 1) :
    ListViewportInv p (clampPass p s) := by
  by_cases h : s.total_items ≥ 1
  · exact clampPass_inv p s h hp
  · have h0 : s.total_items = 0 := by omega
    rw [clampPass_empty p s (by omega)]
    simp only [ListViewportInv, h0]
    refine ⟨⟨fun h => absurd h (by decide), fun _ => ⟨trivial, trivial⟩⟩, ?_, ?_, ?_⟩ <;> omega

theorem caseSelect_returned (a : InteractiveListAction) (k : Key) (env : KeyEnv) (s : ListState) :
    (caseSelect a k env s).returned = false := by
  unfold caseSelect
  repeat' split
  all_goals rfl

theorem caseDelete_returned (a : InteractiveListAction) (k : Key) (env : KeyEnv) (s : ListState) :
    (caseDelete a k env s).returned = false := by
  unfold caseDelete
  split_ifs
  · rfl
  · rfl
  · exact caseSelect_returned a k env s

theorem caseEdit_returned (a : InteractiveListAction) (k : Key) (env : KeyEnv) (s : ListState) :
    (caseEdit a k env s).returned = false := by
  unfold caseEdit
  split_ifs
  · rfl
  · exact caseDelete_returned a k env s

theorem handleKey_returned (a : InteractiveListAction) (p : Int) (k : Key) (env : KeyEnv)
    (s : ListState) (hq : k ≠ KEY_ACTION_QUIT ∧ k ≠ KEY_ACTION_QUIT_ALT ∧ k ≠ KEY_ESC) :
    (handleKey a p k env s).returned = false := by
  obtain ⟨h1, h2, h3⟩ := hq
  cases k <;> simp only [handleKey] <;>
    first
      | contradiction
      | exact caseSelect_returned a _ env s
      | exact caseDelete_returned a _ env s
      | exact caseEdit_returned a _ env s
      | rfl
      | (split_ifs <;> rfl)

theorem caseSelect_total_nonneg (a : InteractiveListAction) (k : Key) (env : KeyEnv)
    (s : ListState) (h : s.total_items ≥ 0) : (caseSelect a k env s).state.total_items ≥ 0 := by
  unfold caseSelect
  repeat' split
  all_goals first | exact h | (simp only; omega)

theorem caseDelete_total_nonneg (a : InteractiveListAction) (k : Key) (env : KeyEnv)
    (s : ListState) (h : s.total_items ≥ 0) : (caseDelete a k env s).state.total_items ≥ 0 := by
  unfold caseDelete
  split_ifs
  · exact h
  · exact h
  · exact caseSelect_total_nonneg a k env s h

theorem caseEdit_total_nonneg (a : InteractiveListAction) (k : Key) (env : KeyEnv)
    (s : ListState) (h : s.total_items ≥ 0) : (caseEdit a k env s).state.total_items ≥ 0 := by
  unfold caseEdit
  split_ifs
  · exact h
  · exact caseDelete_total_nonneg a k env s h

theorem handleKey_total_nonneg (a : InteractiveListAction) (p : Int) (k : Key) (env : KeyEnv)
    (s : ListState) (h : s.total_items ≥ 0) : (handleKey a p k env s).state.total_items ≥ 0 := by
  cases k <;> simp only [handleKey] <;>
    first
      | exact caseSelect_total_nonneg a _ env s h
      | exact caseDelete_total_nonneg a _ env s h
      | exact caseEdit_total_nonneg a _ env s h
      | exact h
      | (split_ifs <;> exact h)

theorem loopIteration_eq (a : InteractiveListAction) (i : Input) (s : ListState)
    (hw : i.windows_ok = true) (hk : i.key ≠ ERR)
    (hq : i.key ≠ KEY_ACTION_QUIT ∧ i.key ≠ KEY_ACTION_QUIT_ALT ∧ i.key ≠ KEY_ESC) :
    loopIteration a i s =
      some (clampPass (items_per_page_nav i.main_win_height)
        (handleKey a (items_per_page_nav i.main_win_height) i.key i.env
          (refreshDetail i.fetch_detail s)).state) := by
  unfold loopIteration
  simp only [hw, hk, false_and, if_false, Bool.true_eq_false, Bool.false_eq_true,
    handleKey_returned a _ i.key i.env _ hq]

/-- An iteration that handles a key and does not leave the function ends in a
state that satisfies the invariants for the page size of that iteration. -/
theorem loopIteration_inv (a : InteractiveListAction) (i : Input) (s : ListState)
    (hw : i.windows_ok = true) (hk : i.key ≠ ERR)
    (hq : i.key ≠ KEY_ACTION_QUIT ∧ i.key ≠ KEY_ACTION_QUIT_ALT ∧ i.key ≠ KEY_ESC)
    (hlen : s.total_items ≥ 0) :
    ∃ s1, loopIteration a i s = some s1
      ∧ ListViewportInv (items_per_page_nav i.main_win_height) s1 ∧ s1.total_items ≥ 0 := by
  refine ⟨_, loopIteration_eq a i s hw hk hq, ?_, ?_⟩
  · apply clampPass_inv_nonneg _ _ _ (items_per_page_nav_pos _)
    apply handleKey_total_nonneg
    rw [(refreshDetail_frame _ s).2.1]
    exact hlen
  · rw [clampPass_total]
    apply handleKey_total_nonneg
    rw [(refreshDetail_frame _ s).2.1]
    exact hlen

end Auxiliary

section KeySpecs

variable (a : InteractiveListAction) (p : Int) (env : KeyEnv) (s : ListState)

theorem nav_up_spec (hsel : 0 ≤ s.selected_item_index ∧ s.selected_item_index < s.total_items) :
    (clampPass p (handleKey a p KEY_NAV_UP env s).state).selected_item_index
        = max 0 (s.selected_item_index - 1)
    ∧ (clampPass p (handleKey a p KEY_NAV_UP env s).state).total_items = s.total_items
    ∧ (clampPass p (handleKey a p KEY_NAV_UP env s).state).items = s.items := by
  have hlen : s.total_items > 0 := by omega
  by_cases hg : s.selected_item_index > 0
  · simp only [handleKey, clampPass, hlen, hg, and_self, and_true, true_and, if_true]
    omega
  · simp only [handleKey, clampPass, hlen, hg, and_false, and_true, true_and, if_true, if_false]
    omega

theorem nav_down_spec (hsel : 0 ≤ s.selected_item_index ∧ s.selected_item_index < s.total_items) :
    (clampPass p (handleKey a p KEY_NAV_DOWN env s).state).selected_item_index
        = min (s.total_items - 1) (s.selected_item_index + 1)
    ∧ (clampPass p (handleKey a p KEY_NAV_DOWN env s).state).total_items = s.total_items
    ∧ (clampPass p (handleKey a p KEY_NAV_DOWN env s).state).items = s.items := by
  have hlen : s.total_items > 0 := by omega
  by_cases hg : s.selected_item_index < s.total_items - 1
  · simp only [handleKey, clampPass, hlen, hg, and_self, and_true, true_and, if_true]
    omega
  · simp only [handleKey, clampPass, hlen, hg, and_false, and_true, true_and, if_true, if_false]
    omega

theorem nav_down_top (hp : p ≥ 1) (hlen : s.total_items > 0) (hinv : ListViewportInv p s) :
    (clampPass p (handleKey a p KEY_NAV_DOWN env s).state).top_item_index
        = max s.top_item_index (min (s.total_items - 1) (s.selected_item_index + 1) - p + 1) := by
  unfold ListViewportInv at hinv
  by_cases hg : s.selected_item_index < s.total_items - 1
  · simp only [handleKey, clampPass, hlen, hg, and_self, and_true, true_and, if_true]
    omega
  · simp only [handleKey, clampPass, hlen, hg, and_false, and_true, true_and, if_true, if_false]
    omega

theorem page_up_spec (hp : p ≥ 1)
    (hsel : 0 ≤ s.selected_item_index ∧ s.selected_item_index < s.total_items) :
    (clampPass p (handleKey a p KEY_NAV_PPAGE env s).state).selected_item_index
        = max 0 (s.selected_item_index - p)
    ∧ (clampPass p (handleKey a p KEY_NAV_PPAGE env s).state).top_item_index
        = max 0 (s.selected_item_index - p)
    ∧ (clampPass p (handleKey a p KEY_NAV_PPAGE env s).state).total_items = s.total_items
    ∧ (clampPass p (handleKey a p KEY_NAV_PPAGE env s).state).items = s.items := by
  have hlen : s.total_items > 0 := by omega
  simp only [handleKey, clampPass, hlen, and_self, and_true, true_and, if_true]
  omega

theorem page_down_spec (hp : p ≥ 1)
    (hsel : 0 ≤ s.selected_item_index ∧ s.selected_item_index < s.total_items) :
    (clampPass p (handleKey a p KEY_NAV_NPAGE env s).state).selected_item_index
        = min (s.total_items - 1) (s.selected_item_index + p)
    ∧ (clampPass p (handleKey a p KEY_NAV_NPAGE env s).state).top_item_index
        = max 0 (min (s.total_items - 1) (s.selected_item_index + p) - p + 1)
    ∧ (clampPass p (handleKey a p KEY_NAV_NPAGE env s).state).total_items = s.total_items
    ∧ (clampPass p (handleKey a p KEY_NAV_NPAGE env s).state).items = s.items := by
  have hlen : s.total_items > 0 := by omega
  simp only [handleKey, clampPass, hlen, and_self, and_true, true_and, if_true]
  omega

theorem home_spec (hlen : s.total_items > 0) :
    (clampPass p (handleKey a p KEY_NAV_HOME env s).state).selected_item_index = 0
    ∧ (clampPass p (handleKey a p KEY_NAV_HOME env s).state).top_item_index = 0
    ∧ (clampPass p (handleKey a p KEY_NAV_HOME env s).state).total_items = s.total_items
    ∧ (clampPass p (handleKey a p KEY_NAV_HOME env s).state).items = s.items := by
  simp only [handleKey, clampPass, hlen, and_self, and_true, true_and, if_true]
  omega

theorem end_spec (hp : p ≥ 1) (hlen : s.total_items > 0) :
    (clampPass p (handleKey a p KEY_NAV_END env s).state).selected_item_index
        = s.total_items - 1
    ∧ (clampPass p (handleKey a p KEY_NAV_END env s).state).top_item_index
        = max 0 (s.total_items - p)
    ∧ (clampPass p (handleKey a p KEY_NAV_END env s).state).total_items = s.total_items
    ∧ (clampPass p (handleKey a p KEY_NAV_END env s).state).items = s.items := by
  simp only [handleKey, clampPass, hlen, and_self, and_true, true_and, if_true]
  omega

theorem resize_spec (hsel : 0 ≤ s.selected_item_index ∧ s.selected_item_index < s.total_items) :
    (clampPass p (handleKey a p KEY_RESIZE env s).state).selected_item_index
        = s.selected_item_index
    ∧ (clampPass p (handleKey a p KEY_RESIZE env s).state).total_items = s.total_items
    ∧ (clampPass p (handleKey a p KEY_RESIZE env s).state).items = s.items := by
  have hlen : s.total_items > 0 := by omega
  simp only [handleKey, clampPass, hlen, and_self, and_true, true_and, if_true]
  omega

end KeySpecs

section RemoveSelected

/-- The loop variables after a confirmed delete that the store accepts
(lines 1749-1762), before the clamp pass. -/
theorem handleKey_remove (a : InteractiveListAction) (p : Int) (k : Key) (env : KeyEnv)
    (s : ListState) (hrm : IsRemoveSelected a k env)
    (hsel : 0 ≤ s.selected_item_index ∧ s.selected_item_index < s.total_items) :
    (handleKey a p k env s).state =
      { s with
        items :=
          if s.selected_item_index < s.total_items - 1 then
            memmove s.items s.selected_item_index.toNat (s.selected_item_index + 1).toNat
              (s.total_items - 1 - s.selected_item_index).toNat
          else s.items
        total_items := s.total_items - 1
        selected_item_index :=
          if s.total_items - 1 = 0 then 0
          else if s.selected_item_index ≥ s.total_items - 1 then s.total_items - 1 - 1
          else s.selected_item_index
        prev_selected_item_index := -1
        details_loaded_for_selected := false } := by
  obtain ⟨ha, hk, hc, hd⟩ := hrm
  have hg : s.total_items > 0 ∧ s.selected_item_index ≥ 0
      ∧ s.selected_item_index < s.total_items := by omega
  subst ha
  rcases hk with hk | hk | hk | hk <;> subst hk <;>
    simp [handleKey, caseDelete, caseSelect, hg, hc, hd]

theorem memmove_take {α : Type} (items : List α) (k n : Nat) (hk : k < n)
    (hn : n ≤ items.length) :
    (items.take k ++ (items.drop (k + 1)).take (n - 1 - k)
        ++ items.drop (k + ((items.drop (k + 1)).take (n - 1 - k)).length)).take (n - 1)
      = (items.take n).eraseIdx k := by
  have hlen : (items.take k ++ (items.drop (k + 1)).take (n - 1 - k)).length = n - 1 := by
    simp only [List.length_append, List.length_take, List.length_drop]
    omega
  rw [List.take_append_eq_append_take, hlen, Nat.sub_self, List.take_zero, List.append_nil,
    List.take_of_length_le (by omega), List.eraseIdx_eq_take_drop_succ, List.take_take,
    List.drop_take]
  congr 2
  · omega
  · omega

end RemoveSelected

section Runs

theorem refreshDetail_inv (f : Int → Option Client) (p : Int) (s : ListState) :
    ListViewportInv p (refreshDetail f s) ↔ ListViewportInv p s := by
  obtain ⟨_, h2, h3, h4⟩ := refreshDetail_frame f s
  simp only [ListViewportInv, h2, h3, h4]

theorem resultSet_clampPass (p : Int) (s : ListState) :
    resultSet (clampPass p s) = resultSet s := by
  simp only [resultSet, clampPass_items, clampPass_total]

theorem resultSet_refreshDetail (f : Int → Option Client) (s : ListState) :
    resultSet (refreshDetail f s) = resultSet s := by
  obtain ⟨h1, h2, _, _⟩ := refreshDetail_frame f s
  simp only [resultSet, h1, h2]

theorem IsViewportEvent.key_handled {a : InteractiveListAction} {i : Input}
    (h : IsViewportEvent a i) :
    i.key ≠ ERR ∧ i.key ≠ KEY_ACTION_QUIT ∧ i.key ≠ KEY_ACTION_QUIT_ALT ∧ i.key ≠ KEY_ESC := by
  obtain ⟨_, hk⟩ := h
  rcases hk with hk | hk | hk | hk | hk | hk | hk | ⟨_, hk, _⟩
  all_goals first
    | (rw [hk]; decide)
    | (rcases hk with hk | hk | hk | hk <;> rw [hk] <;> decide)

theorem runLoop_inv (a : InteractiveListAction) :
    ∀ (inputs : List Input) (s : ListState) (h0 : Int), s.total_items ≥ 0 →
      ListViewportInv (items_per_page_nav h0) s → (∀ i ∈ inputs, IsViewportEvent a i) →
      ∃ s1, runLoop a inputs s = some s1
        ∧ ListViewportInv (items_per_page_nav (finalHeight h0 inputs)) s1
        ∧ s1.total_items ≥ 0 := by
  intro inputs
  induction inputs with
  | nil =>
    intro s h0 hlen hinv _
    exact ⟨s, rfl, hinv, hlen⟩
  | cons i rest ih =>
    intro s h0 hlen _ hev
    have hi : IsViewportEvent a i := hev i (List.mem_cons_self i rest)
    obtain ⟨hk, hq⟩ := hi.key_handled
    obtain ⟨s1, hs1, hinv1, hlen1⟩ := loopIteration_inv a i s hi.1 hk hq hlen
    obtain ⟨s2, hs2, hinv2, hlen2⟩ :=
      ih s1 i.main_win_height hlen1 hinv1 (fun j hj => hev j (List.mem_cons_of_mem i hj))
    refine ⟨s2, ?_, hinv2, hlen2⟩
    simp only [runLoop, hs1, hs2]

theorem initialState_inv (items : List ClientListItem) (total_items : Int) (uninit : Client)
    (p : Int) (hp : p ≥ 1) (hlen : total_items > 0) :
    ListViewportInv p (initialState items total_items uninit) := by
  simp only [ListViewportInv, initialState]
  omega

theorem remove_resultSet (a : InteractiveListAction) (p : Int) (k : Key) (env : KeyEnv)
    (s : ListState) (hrm : IsRemoveSelected a k env)
    (hsel : 0 ≤ s.selected_item_index ∧ s.selected_item_index < s.total_items)
    (hcap : s.total_items ≤ s.items.length) :
    resultSet (handleKey a p k env s).state
      = (resultSet s).eraseIdx s.selected_item_index.toNat := by
  rw [handleKey_remove a p k env s hrm hsel]
  obtain ⟨h0, h1⟩ := hsel
  have hk : s.selected_item_index.toNat < s.total_items.toNat := by omega
  have hn : s.total_items.toNat ≤ s.items.length := by omega
  have e1 : (s.selected_item_index + 1).toNat = s.selected_item_index.toNat + 1 := by omega
  have e2 : (s.total_items - 1 - s.selected_item_index).toNat
      = s.total_items.toNat - 1 - s.selected_item_index.toNat := by omega
  have e3 : (s.total_items - 1).toNat = s.total_items.toNat - 1 := by omega
  simp only [resultSet, e3]
  split_ifs with hlt
  · simp only [memmove, e1, e2]
    exact memmove_take s.items _ _ hk hn
  · have e4 : s.selected_item_index.toNat = s.total_items.toNat - 1 := by omega
    rw [List.eraseIdx_eq_take_drop_succ, List.take_take, List.drop_take, e4]
    have e5 : s.total_items.toNat - (s.total_items.toNat - 1 + 1) = 0 := by omega
    rw [e5, List.take_zero, List.append_nil]
    congr 1
    omega

end Runs

/-! ## The claims about the ListViewport state machine -/

/-- C1. Starting from the initial state of the loop (both indices 0) on a
non-empty result set, after any finite sequence of iterations in which a move,
page, Home, End, resize or confirmed successful delete occurs, each in a window
of any height, the loop has not returned and its state satisfies the four
ListViewport invariants for the page size in force (the page size of the last
iteration, or of the first draw when no event occurred). -/
theorem viewport_invariants_hold_after_events (a : InteractiveListAction)
    (items : List ClientListItem) (total_items : Int) (uninit : Client) (h0 : Int)
    (inputs : List Input) (hlen : total_items > 0)
    (hev : ∀ i ∈ inputs, IsViewportEvent a i) :
    ∃ s, runLoop a inputs (initialState items total_items uninit) = some s
      ∧ ListViewportInv (items_per_page_nav (finalHeight h0 inputs)) s := by
  obtain ⟨s, hs, hinv, _⟩ :=
    runLoop_inv a inputs (initialState items total_items uninit) h0
      (by simp only [initialState]; omega)
      (initialState_inv items total_items uninit _ (items_per_page_nav_pos h0) hlen) hev
  exact ⟨s, hs, hinv⟩

theorem viewport_invariants_hold_after_events_witness :
    (5 : Int) > 0
    ∧ (∀ i ∈ [sampleInput 8 KEY_NAV_DOWN, sampleInput 8 KEY_NAV_NPAGE,
          sampleInput 7 KEY_RESIZE, sampleInput 7 KEY_ACTION_DELETE, sampleInput 7 KEY_NAV_END,
          sampleInput 7 KEY_NAV_UP, sampleInput 7 KEY_NAV_PPAGE, sampleInput 7 KEY_NAV_HOME],
        IsViewportEvent INTERACTIVE_LIST_ACTION_DELETE i)
    ∧ ∃ s, runLoop INTERACTIVE_LIST_ACTION_DELETE
          [sampleInput 8 KEY_NAV_DOWN, sampleInput 8 KEY_NAV_NPAGE,
            sampleInput 7 KEY_RESIZE, sampleInput 7 KEY_ACTION_DELETE, sampleInput 7 KEY_NAV_END,
            sampleInput 7 KEY_NAV_UP, sampleInput 7 KEY_NAV_PPAGE, sampleInput 7 KEY_NAV_HOME]
          (initialState sampleItems 5 zeroClient) = some s
        ∧ ListViewportInv (items_per_page_nav (finalHeight 8
            [sampleInput 8 KEY_NAV_DOWN, sampleInput 8 KEY_NAV_NPAGE,
              sampleInput 7 KEY_RESIZE, sampleInput 7 KEY_ACTION_DELETE,
              sampleInput 7 KEY_NAV_END, sampleInput 7 KEY_NAV_UP, sampleInput 7 KEY_NAV_PPAGE,
              sampleInput 7 KEY_NAV_HOME])) s :=
  ⟨by decide, by decide,
    viewport_invariants_hold_after_events INTERACTIVE_LIST_ACTION_DELETE sampleItems 5 zeroClient 8
      _ (by decide) (by decide)⟩

/-- C2. For every count `len >= 1`, every page size `>= 1` and every pair of
integer indices, the clamp pass returns a state that satisfies the four
ListViewport invariants; for `len = 0` it returns both indices equal to 0.  The
count and the array are left as they were. -/
theorem clampPass_establishes_invariants (p : Int) (s : ListState) :
    (s.total_items ≥ 1 → p ≥ 1 → ListViewportInv p (clampPass p s))
    ∧ (s.total_items = 0 →
        (clampPass p s).selected_item_index = 0 ∧ (clampPass p s).top_item_index = 0)
    ∧ (clampPass p s).total_items = s.total_items
    ∧ (clampPass p s).items = s.items := by
  refine ⟨fun hlen hp => clampPass_inv p s hlen hp, fun h0 => ?_, clampPass_total p s,
    clampPass_items p s⟩
  rw [clampPass_empty p s (by omega)]
  exact ⟨rfl, rfl⟩

theorem clampPass_establishes_invariants_witness :
    ((sampleState 5 100 (-7)).total_items ≥ 1 ∧ (3 : Int) ≥ 1
      ∧ ListViewportInv 3 (clampPass 3 (sampleState 5 100 (-7))))
    ∧ ((sampleState 0 9 4).total_items = 0
      ∧ (clampPass 3 (sampleState 0 9 4)).selected_item_index = 0
      ∧ (clampPass 3 (sampleState 0 9 4)).top_item_index = 0) :=
  ⟨⟨by decide, by decide,
      (clampPass_establishes_invariants 3 (sampleState 5 100 (-7))).1 (by decide) (by decide)⟩,
    ⟨by decide,
      (clampPass_establishes_invariants 3 (sampleState 0 9 4)).2.1 (by decide)⟩⟩

/-- C3. End-to-end scenario: with a result set of 5 summaries, a window of
height 8 (page size 3) and the initial state (both indices 0), three Down keys
lead to `selected_item_index = 3`, `top_item_index = 1`, and a following End
key leads to `selected_item_index = 4`, `top_item_index = 2`. -/
theorem end_to_end_scenario (a : InteractiveListAction) (items : List ClientListItem)
    (uninit : Client) (f : Int → Option Client) (env : KeyEnv) :
    items_per_page_nav 8 = 3
    ∧ ∃ s3 s4,
        runLoop a [keyInput 8 KEY_NAV_DOWN f env, keyInput 8 KEY_NAV_DOWN f env,
            keyInput 8 KEY_NAV_DOWN f env] (initialState items 5 uninit) = some s3
        ∧ s3.selected_item_index = 3 ∧ s3.top_item_index = 1 ∧ s3.total_items = 5
        ∧ loopIteration a (keyInput 8 KEY_NAV_END f env) s3 = some s4
        ∧ s4.selected_item_index = 4 ∧ s4.top_item_index = 2 ∧ s4.total_items = 5 := by
  have hp : items_per_page_nav 8 = 3 := by decide
  have hdown : ∀ s : ListState, s.total_items = 5 → ListViewportInv 3 s →
      ∃ s1, loopIteration a (keyInput 8 KEY_NAV_DOWN f env) s = some s1
        ∧ s1.selected_item_index = min (5 - 1) (s.selected_item_index + 1)
        ∧ s1.top_item_index
            = max s.top_item_index (min (5 - 1) (s.selected_item_index + 1) - 3 + 1)
        ∧ s1.total_items = 5 ∧ ListViewportInv 3 s1 := by
    intro s hlen hinv
    have hit := loopIteration_eq a (keyInput 8 KEY_NAV_DOWN f env) s rfl
      (by simp only [keyInput]; decide) (by simp only [keyInput]; decide)
    obtain ⟨s1, hs1, hinv1, _⟩ :=
      loopIteration_inv a (keyInput 8 KEY_NAV_DOWN f env) s rfl
        (by simp only [keyInput]; decide) (by simp only [keyInput]; decide) (by omega)
    obtain ⟨_, f2, f3, f4⟩ := refreshDetail_frame f s
    have hsel : 0 ≤ s.selected_item_index ∧ s.selected_item_index < s.total_items :=
      hinv.1.1 (by omega)
    have h1 := nav_down_spec a 3 env (refreshDetail f s) (by rw [f4, f2]; exact hsel)
    have h2 := nav_down_top a 3 env (refreshDetail f s) (by decide) (by rw [f2]; omega)
      ((refreshDetail_inv f 3 s).2 hinv)
    rw [f4, f2] at h1
    rw [f4, f3, f2] at h2
    simp only [keyInput, hp] at hit hs1 hinv1
    rw [hit] at hs1
    have e := Option.some.inj hs1
    subst e
    rw [hlen] at h1 h2
    exact ⟨_, hit, h1.1, h2, h1.2.1, hinv1⟩
  have h0 : ListViewportInv 3 (initialState items 5 uninit) :=
    initialState_inv items 5 uninit 3 (by decide) (by decide)
  obtain ⟨s1, r1, a1, b1, c1, i1⟩ := hdown _ rfl h0
  obtain ⟨s2, r2, a2, b2, c2, i2⟩ := hdown s1 c1 i1
  obtain ⟨s3, r3, a3, b3, c3, i3⟩ := hdown s2 c2 i2
  have hit := loopIteration_eq a (keyInput 8 KEY_NAV_END f env) s3 rfl
    (by simp only [keyInput]; decide) (by simp only [keyInput]; decide)
  obtain ⟨_, f2, _, _⟩ := refreshDetail_frame f s3
  have h4 := end_spec a 3 env (refreshDetail f s3) (by decide) (by rw [f2]; omega)
  rw [f2, c3] at h4
  simp only [keyInput, hp] at hit
  simp only [initialState] at a1 b1
  refine ⟨hp, s3, _, ?_, ?_, ?_, c3, hit, ?_, ?_, h4.2.2.1⟩
  · simp only [runLoop, r1, r2, r3]
  · omega
  · omega
  · rw [h4.1]; decide
  · rw [h4.2.1]; decide

/-- C4. A confirmed delete that the store accepts, in a state with
`0 <= selected_item_index < total_items`, decrements the count; when the new
count is 0 both indices become 0 (in particular on a 1-element result set), and
otherwise the selection is unchanged unless it equals the new count, in which
case it is decremented by one. -/
theorem remove_selected_adjusts_selection (a : InteractiveListAction) (i : Input)
    (s : ListState) (hw : i.windows_ok = true) (hrm : IsRemoveSelected a i.key i.env)
    (hsel : 0 ≤ s.selected_item_index ∧ s.selected_item_index < s.total_items) :
    ∃ s1, loopIteration a i s = some s1
      ∧ s1.total_items = s.total_items - 1
      ∧ (s.total_items - 1 = 0 → s1.selected_item_index = 0 ∧ s1.top_item_index = 0)
      ∧ (s.total_items - 1 > 0 →
          s1.selected_item_index
            = if s.selected_item_index = s.total_items - 1 then s.total_items - 2
              else s.selected_item_index) := by
  have hev : IsViewportEvent a i := ⟨hw, by simp only [hrm, or_true]⟩
  obtain ⟨hk, hq⟩ := hev.key_handled
  have hit := loopIteration_eq a i s hw hk hq
  obtain ⟨_, f2, _, f4⟩ := refreshDetail_frame i.fetch_detail s
  have hst := handleKey_remove a (items_per_page_nav i.main_win_height) i.key i.env
    (refreshDetail i.fetch_detail s) hrm (by rw [f4, f2]; exact hsel)
  rw [hst] at hit
  refine ⟨_, hit, ?_, ?_, ?_⟩
  · rw [clampPass_total, f2]
  · intro h0
    rw [clampPass_empty _ _ (by simp only [f2]; omega)]
    exact ⟨rfl, rfl⟩
  · intro hpos
    have hne : ¬ s.total_items - 1 = 0 := by omega
    simp only [clampPass, f2, f4, hpos, if_true, hne, if_false]
    omega

theorem remove_selected_adjusts_selection_witness :
    ((sampleInput 8 KEY_ACTION_ENTER).windows_ok = true
      ∧ IsRemoveSelected INTERACTIVE_LIST_ACTION_DELETE (sampleInput 8 KEY_ACTION_ENTER).key
          (sampleInput 8 KEY_ACTION_ENTER).env
      ∧ (0 ≤ (sampleState 1 0 0).selected_item_index
          ∧ (sampleState 1 0 0).selected_item_index < (sampleState 1 0 0).total_items)
      ∧ ∃ s1, loopIteration INTERACTIVE_LIST_ACTION_DELETE (sampleInput 8 KEY_ACTION_ENTER)
            (sampleState 1 0 0) = some s1
          ∧ s1.total_items = 0 ∧ s1.selected_item_index = 0 ∧ s1.top_item_index = 0)
    ∧ ∃ s1, loopIteration INTERACTIVE_LIST_ACTION_DELETE (sampleInput 8 KEY_ACTION_DELETE)
          (sampleState 5 4 2) = some s1
        ∧ s1.total_items = 4 ∧ s1.selected_item_index = 3 := by
  refine ⟨⟨rfl, by decide, by decide, ?_⟩, ?_⟩
  · obtain ⟨s1, h1, h2, h3, _⟩ :=
      remove_selected_adjusts_selection INTERACTIVE_LIST_ACTION_DELETE
        (sampleInput 8 KEY_ACTION_ENTER) (sampleState 1 0 0) rfl (by decide) (by decide)
    exact ⟨s1, h1, h2, h3 (by decide)⟩
  · obtain ⟨s1, h1, h2, _, h4⟩ :=
      remove_selected_adjusts_selection INTERACTIVE_LIST_ACTION_DELETE
        (sampleInput 8 KEY_ACTION_DELETE) (sampleState 5 4 2) rfl (by decide) (by decide)
    exact ⟨s1, h1, h2, h4 (by decide)⟩

/-- C5. After a successful delete of the element at `selected_item_index = k`
in a result set of length `n` (`0 <= k < n`, held in the array), the result set
is the old one with element `k` erased: positions below `k` are unchanged, old
element `j + 1` is at position `j` for `k <= j < n - 1`, the order is kept, and
the reported count equals the new length `n - 1`. -/
theorem remove_selected_erases_element (a : InteractiveListAction) (i : Input)
    (s : ListState) (hw : i.windows_ok = true) (hrm : IsRemoveSelected a i.key i.env)
    (hsel : 0 ≤ s.selected_item_index ∧ s.selected_item_index < s.total_items)
    (hcap : s.total_items ≤ s.items.length) :
    ∃ s1, loopIteration a i s = some s1
      ∧ resultSet s1 = (resultSet s).eraseIdx s.selected_item_index.toNat
      ∧ (∀ j : Nat, j < s.selected_item_index.toNat → (resultSet s1)[j]? = (resultSet s)[j]?)
      ∧ (∀ j : Nat, s.selected_item_index.toNat ≤ j → j < s.total_items.toNat - 1 →
          (resultSet s1)[j]? = (resultSet s)[j + 1]?)
      ∧ List.Sublist (resultSet s1) (resultSet s)
      ∧ ((resultSet s).length : Int) = s.total_items
      ∧ s1.total_items = s.total_items - 1
      ∧ ((resultSet s1).length : Int) = s1.total_items := by
  have hev : IsViewportEvent a i := ⟨hw, by simp only [hrm, or_true]⟩
  obtain ⟨hk, hq⟩ := hev.key_handled
  have hit := loopIteration_eq a i s hw hk hq
  obtain ⟨f1, f2, _, f4⟩ := refreshDetail_frame i.fetch_detail s
  have hrs := remove_resultSet a (items_per_page_nav i.main_win_height) i.key i.env
    (refreshDetail i.fetch_detail s) hrm (by rw [f4, f2]; exact hsel) (by rw [f2, f1]; exact hcap)
  rw [resultSet_refreshDetail, f4] at hrs
  have hst := handleKey_remove a (items_per_page_nav i.main_win_height) i.key i.env
    (refreshDetail i.fetch_detail s) hrm (by rw [f4, f2]; exact hsel)
  have htot : (clampPass (items_per_page_nav i.main_win_height)
      (handleKey a (items_per_page_nav i.main_win_height) i.key i.env
        (refreshDetail i.fetch_detail s)).state).total_items = s.total_items - 1 := by
    rw [clampPass_total, hst, f2]
  have hlen0 : (resultSet s).length = s.total_items.toNat := by
    simp only [resultSet, List.length_take]
    omega
  have hk0 : s.selected_item_index.toNat < (resultSet s).length := by omega
  refine ⟨_, hit, ?_, ?_, ?_, ?_, ?_, htot, ?_⟩
  · rw [resultSet_clampPass, hrs]
  · intro j hj
    rw [resultSet_clampPass, hrs, List.getElem?_eraseIdx, if_pos hj]
  · intro j hj _
    rw [resultSet_clampPass, hrs, List.getElem?_eraseIdx, if_neg (by omega)]
  · rw [resultSet_clampPass, hrs]
    exact List.eraseIdx_sublist _ _
  · omega
  · rw [resultSet_clampPass, hrs, List.length_eraseIdx, if_pos hk0, htot]
    omega

theorem remove_selected_erases_element_witness :
    (sampleInput 8 KEY_ACTION_DELETE).windows_ok = true
    ∧ IsRemoveSelected INTERACTIVE_LIST_ACTION_DELETE (sampleInput 8 KEY_ACTION_DELETE).key
        (sampleInput 8 KEY_ACTION_DELETE).env
    ∧ (0 ≤ (sampleState 5 1 0).selected_item_index
        ∧ (sampleState 5 1 0).selected_item_index < (sampleState 5 1 0).total_items)
    ∧ (sampleState 5 1 0).total_items ≤ (sampleState 5 1 0).items.length
    ∧ ∃ s1, loopIteration INTERACTIVE_LIST_ACTION_DELETE (sampleInput 8 KEY_ACTION_DELETE)
          (sampleState 5 1 0) = some s1
        ∧ resultSet s1 = [sampleItem 11, sampleItem 13, sampleItem 14, sampleItem 15]
        ∧ s1.total_items = 4 := by
  refine ⟨rfl, by decide, by decide, by decide, ?_⟩
  obtain ⟨s1, h1, h2, _, _, _, _, h3, _⟩ :=
    remove_selected_erases_element INTERACTIVE_LIST_ACTION_DELETE
      (sampleInput 8 KEY_ACTION_DELETE) (sampleState 5 1 0) rfl (by decide) (by decide)
      (by decide)
  exact ⟨s1, h1, h2, h3⟩

/-- C6. Move: on a non-empty result set with `0 <= selected_item_index < len`,
an Up key sets the selection to `max(0, selected - 1)` and a Down key sets it to
`min(len - 1, selected + 1)`; Up at 0 and Down at `len - 1` leave it unchanged. -/
theorem move_steps_selection (a : InteractiveListAction) (i : Input) (s : ListState)
    (hw : i.windows_ok = true)
    (hsel : 0 ≤ s.selected_item_index ∧ s.selected_item_index < s.total_items) :
    (i.key = KEY_NAV_UP → ∃ s1, loopIteration a i s = some s1
        ∧ s1.selected_item_index = max 0 (s.selected_item_index - 1)
        ∧ (s.selected_item_index = 0 → s1.selected_item_index = s.selected_item_index)
        ∧ s1.total_items = s.total_items)
    ∧ (i.key = KEY_NAV_DOWN → ∃ s1, loopIteration a i s = some s1
        ∧ s1.selected_item_index = min (s.total_items - 1) (s.selected_item_index + 1)
        ∧ (s.selected_item_index = s.total_items - 1 →
            s1.selected_item_index = s.selected_item_index)
        ∧ s1.total_items = s.total_items) := by
  obtain ⟨_, f2, _, f4⟩ := refreshDetail_frame i.fetch_detail s
  constructor
  · intro hk
    have hit := loopIteration_eq a i s hw (by rw [hk]; decide) (by rw [hk]; decide)
    rw [hk] at hit
    have h := nav_up_spec a (items_per_page_nav i.main_win_height) i.env
      (refreshDetail i.fetch_detail s) (by rw [f4, f2]; exact hsel)
    rw [f4, f2] at h
    exact ⟨_, hit, h.1, fun h0 => by rw [h.1]; omega, h.2.1⟩
  · intro hk
    have hit := loopIteration_eq a i s hw (by rw [hk]; decide) (by rw [hk]; decide)
    rw [hk] at hit
    have h := nav_down_spec a (items_per_page_nav i.main_win_height) i.env
      (refreshDetail i.fetch_detail s) (by rw [f4, f2]; exact hsel)
    rw [f4, f2] at h
    exact ⟨_, hit, h.1, fun h0 => by rw [h.1]; omega, h.2.1⟩

theorem move_steps_selection_witness :
    ((sampleInput 8 KEY_NAV_UP).windows_ok = true
      ∧ (0 ≤ (sampleState 5 2 0).selected_item_index
          ∧ (sampleState 5 2 0).selected_item_index < (sampleState 5 2 0).total_items)
      ∧ (sampleInput 8 KEY_NAV_UP).key = KEY_NAV_UP
      ∧ ∃ s1, loopIteration INTERACTIVE_LIST_ACTION_EDIT (sampleInput 8 KEY_NAV_UP)
            (sampleState 5 2 0) = some s1 ∧ s1.selected_item_index = 1)
    ∧ ((sampleInput 8 KEY_NAV_DOWN).key = KEY_NAV_DOWN
      ∧ ∃ s1, loopIteration INTERACTIVE_LIST_ACTION_EDIT (sampleInput 8 KEY_NAV_DOWN)
            (sampleState 5 4 2) = some s1 ∧ s1.selected_item_index = 4) := by
  refine ⟨⟨rfl, by decide, rfl, ?_⟩, rfl, ?_⟩
  · obtain ⟨s1, h1, h2, _⟩ :=
      (move_steps_selection INTERACTIVE_LIST_ACTION_EDIT (sampleInput 8 KEY_NAV_UP)
        (sampleState 5 2 0) rfl (by decide)).1 rfl
    exact ⟨s1, h1, h2⟩
  · obtain ⟨s1, h1, h2, _⟩ :=
      (move_steps_selection INTERACTIVE_LIST_ACTION_EDIT (sampleInput 8 KEY_NAV_DOWN)
        (sampleState 5 4 2) rfl (by decide)).2 rfl
    exact ⟨s1, h1, h2⟩

/-- C7. Page: on a non-empty result set, in a state that satisfies the
invariants for the page size `p >= 1` of the iteration, a PageUp key followed by
the clamp pass gives `selected = max(0, old_selected - p)` and
`first_visible = selected`; a PageDown key gives
`selected = min(len - 1, old_selected + p)` and
`first_visible = max(0, selected - p + 1)`. -/
theorem page_jumps_by_page_size (a : InteractiveListAction) (i : Input) (s : ListState)
    (hw : i.windows_ok = true) (hlen : s.total_items > 0)
    (hinv : ListViewportInv (items_per_page_nav i.main_win_height) s) :
    (i.key = KEY_NAV_PPAGE → ∃ s1, loopIteration a i s = some s1
        ∧ s1.selected_item_index
            = max 0 (s.selected_item_index - items_per_page_nav i.main_win_height)
        ∧ s1.top_item_index = s1.selected_item_index
        ∧ s1.total_items = s.total_items)
    ∧ (i.key = KEY_NAV_NPAGE → ∃ s1, loopIteration a i s = some s1
        ∧ s1.selected_item_index
            = min (s.total_items - 1)
                (s.selected_item_index + items_per_page_nav i.main_win_height)
        ∧ s1.top_item_index
            = max 0 (s1.selected_item_index - items_per_page_nav i.main_win_height + 1)
        ∧ s1.total_items = s.total_items) := by
  obtain ⟨_, f2, _, f4⟩ := refreshDetail_frame i.fetch_detail s
  have hsel : 0 ≤ s.selected_item_index ∧ s.selected_item_index < s.total_items :=
    hinv.1.1 hlen
  have hp := items_per_page_nav_pos i.main_win_height
  constructor
  · intro hk
    have hit := loopIteration_eq a i s hw (by rw [hk]; decide) (by rw [hk]; decide)
    rw [hk] at hit
    have h := page_up_spec a (items_per_page_nav i.main_win_height) i.env
      (refreshDetail i.fetch_detail s) hp (by rw [f4, f2]; exact hsel)
    rw [f4, f2] at h
    exact ⟨_, hit, h.1, by rw [h.2.1, h.1], h.2.2.1⟩
  · intro hk
    have hit := loopIteration_eq a i s hw (by rw [hk]; decide) (by rw [hk]; decide)
    rw [hk] at hit
    have h := page_down_spec a (items_per_page_nav i.main_win_height) i.env
      (refreshDetail i.fetch_detail s) hp (by rw [f4, f2]; exact hsel)
    rw [f4, f2] at h
    exact ⟨_, hit, h.1, by rw [h.2.1, h.1], h.2.2.1⟩

theorem page_jumps_by_page_size_witness :
    ((sampleInput 7 KEY_NAV_PPAGE).windows_ok = true
      ∧ (sampleState 5 4 3).total_items > 0
      ∧ ListViewportInv (items_per_page_nav (sampleInput 7 KEY_NAV_PPAGE).main_win_height)
          (sampleState 5 4 3)
      ∧ (sampleInput 7 KEY_NAV_PPAGE).key = KEY_NAV_PPAGE
      ∧ ∃ s1, loopIteration INTERACTIVE_LIST_ACTION_EDIT (sampleInput 7 KEY_NAV_PPAGE)
            (sampleState 5 4 3) = some s1
          ∧ s1.selected_item_index = 2 ∧ s1.top_item_index = 2)
    ∧ ((sampleInput 7 KEY_NAV_NPAGE).key = KEY_NAV_NPAGE
      ∧ ListViewportInv (items_per_page_nav (sampleInput 7 KEY_NAV_NPAGE).main_win_height)
          (sampleState 5 1 0)
      ∧ ∃ s1, loopIteration INTERACTIVE_LIST_ACTION_EDIT (sampleInput 7 KEY_NAV_NPAGE)
            (sampleState 5 1 0) = some s1
          ∧ s1.selected_item_index = 3 ∧ s1.top_item_index = 2) := by
  refine ⟨⟨rfl, by decide, by decide, rfl, ?_⟩, rfl, by decide, ?_⟩
  · obtain ⟨s1, h1, h2, h3, _⟩ :=
      (page_jumps_by_page_size INTERACTIVE_LIST_ACTION_EDIT (sampleInput 7 KEY_NAV_PPAGE)
        (sampleState 5 4 3) rfl (by decide) (by decide)).1 rfl
    exact ⟨s1, h1, h2, by rw [h3, h2]; decide⟩
  · obtain ⟨s1, h1, h2, h3, _⟩ :=
      (page_jumps_by_page_size INTERACTIVE_LIST_ACTION_EDIT (sampleInput 7 KEY_NAV_NPAGE)
        (sampleState 5 1 0) rfl (by decide) (by decide)).2 rfl
    exact ⟨s1, h1, h2, by rw [h3, h2]; decide⟩

/-- C8. Home and End: on a non-empty result set, from any state, a Home key
gives `selected = 0` and `first_visible = 0`, and an End key gives
`selected = len - 1` and `first_visible = max(0, len - page_size)`. -/
theorem home_end_jump_to_bounds (a : InteractiveListAction) (i : Input) (s : ListState)
    (hw : i.windows_ok = true) (hlen : s.total_items > 0) :
    (i.key = KEY_NAV_HOME → ∃ s1, loopIteration a i s = some s1
        ∧ s1.selected_item_index = 0 ∧ s1.top_item_index = 0
        ∧ s1.total_items = s.total_items)
    ∧ (i.key = KEY_NAV_END → ∃ s1, loopIteration a i s = some s1
        ∧ s1.selected_item_index = s.total_items - 1
        ∧ s1.top_item_index = max 0 (s.total_items - items_per_page_nav i.main_win_height)
        ∧ s1.total_items = s.total_items) := by
  obtain ⟨_, f2, _, _⟩ := refreshDetail_frame i.fetch_detail s
  have hp := items_per_page_nav_pos i.main_win_height
  constructor
  · intro hk
    have hit := loopIteration_eq a i s hw (by rw [hk]; decide) (by rw [hk]; decide)
    rw [hk] at hit
    have h := home_spec a (items_per_page_nav i.main_win_height) i.env
      (refreshDetail i.fetch_detail s) (by rw [f2]; exact hlen)
    rw [f2] at h
    exact ⟨_, hit, h.1, h.2.1, h.2.2.1⟩
  · intro hk
    have hit := loopIteration_eq a i s hw (by rw [hk]; decide) (by rw [hk]; decide)
    rw [hk] at hit
    have h := end_spec a (items_per_page_nav i.main_win_height) i.env
      (refreshDetail i.fetch_detail s) hp (by rw [f2]; exact hlen)
    rw [f2] at h
    exact ⟨_, hit, h.1, h.2.1, h.2.2.1⟩

theorem home_end_jump_to_bounds_witness :
    ((sampleInput 8 KEY_NAV_HOME).windows_ok = true
      ∧ (sampleState 5 77 (-3)).total_items > 0
      ∧ (sampleInput 8 KEY_NAV_HOME).key = KEY_NAV_HOME
      ∧ ∃ s1, loopIteration INTERACTIVE_LIST_ACTION_EDIT (sampleInput 8 KEY_NAV_HOME)
            (sampleState 5 77 (-3)) = some s1
          ∧ s1.selected_item_index = 0 ∧ s1.top_item_index = 0)
    ∧ ((sampleInput 8 KEY_NAV_END).key = KEY_NAV_END
      ∧ ∃ s1, loopIteration INTERACTIVE_LIST_ACTION_EDIT (sampleInput 8 KEY_NAV_END)
            (sampleState 5 77 (-3)) = some s1
          ∧ s1.selected_item_index = 4 ∧ s1.top_item_index = 2) := by
  refine ⟨⟨rfl, by decide, rfl, ?_⟩, rfl, ?_⟩
  · obtain ⟨s1, h1, h2, h3, _⟩ :=
      (home_end_jump_to_bounds INTERACTIVE_LIST_ACTION_EDIT (sampleInput 8 KEY_NAV_HOME)
        (sampleState 5 77 (-3)) rfl (by decide)).1 rfl
    exact ⟨s1, h1, h2, h3⟩
  · obtain ⟨s1, h1, h2, h3, _⟩ :=
      (home_end_jump_to_bounds INTERACTIVE_LIST_ACTION_EDIT (sampleInput 8 KEY_NAV_END)
        (sampleState 5 77 (-3)) rfl (by decide)).2 rfl
    exact ⟨s1, h1, h2, h3⟩

/-- C9. Resize preserves the selection: for every window height (hence every
new page size `>= 1`) and every state with
`0 <= selected_item_index <= len - 1` (so that `len >= 1`), a resize key
followed by the clamp pass leaves the selection, the array and the count
unchanged; only `top_item_index` may change. -/
theorem resize_preserves_selection (a : InteractiveListAction) (i : Input) (s : ListState)
    (hw : i.windows_ok = true) (hk : i.key = KEY_RESIZE)
    (hsel : 0 ≤ s.selected_item_index ∧ s.selected_item_index ≤ s.total_items - 1) :
    ∃ s1, loopIteration a i s = some s1
      ∧ s1.selected_item_index = s.selected_item_index
      ∧ s1.items = s.items ∧ s1.total_items = s.total_items
      ∧ resultSet s1 = resultSet s := by
  obtain ⟨f1, f2, _, f4⟩ := refreshDetail_frame i.fetch_detail s
  have hit := loopIteration_eq a i s hw (by rw [hk]; decide) (by rw [hk]; decide)
  rw [hk] at hit
  have h := resize_spec a (items_per_page_nav i.main_win_height) i.env
    (refreshDetail i.fetch_detail s) (by rw [f4, f2]; omega)
  rw [f4, f2, f1] at h
  refine ⟨_, hit, h.1, h.2.2, h.2.1, ?_⟩
  simp only [resultSet, h.2.1, h.2.2]

theorem resize_preserves_selection_witness :
    (sampleInput 6 KEY_RESIZE).windows_ok = true
    ∧ (sampleInput 6 KEY_RESIZE).key = KEY_RESIZE
    ∧ (0 ≤ (sampleState 5 3 0).selected_item_index
        ∧ (sampleState 5 3 0).selected_item_index ≤ (sampleState 5 3 0).total_items - 1)
    ∧ ∃ s1, loopIteration INTERACTIVE_LIST_ACTION_EDIT (sampleInput 6 KEY_RESIZE)
          (sampleState 5 3 0) = some s1
        ∧ s1.selected_item_index = 3 ∧ s1.items = sampleItems ∧ s1.total_items = 5 := by
  refine ⟨rfl, rfl, by decide, ?_⟩
  obtain ⟨s1, h1, h2, h3, h4, _⟩ :=
    resize_preserves_selection INTERACTIVE_LIST_ACTION_EDIT (sampleInput 6 KEY_RESIZE)
      (sampleState 5 3 0) rfl rfl (by decide)
  exact ⟨s1, h1, h2, h3, h4⟩

/-- C10. The clamp pass is idempotent: for every count (in particular every
`len >= 0`), every page size `>= 1` and every pair of integer indices, applying
the clamp pass twice gives the same state as applying it once. -/
theorem clampPass_idempotent (p : Int) (s : ListState) (hp : p ≥ 1) :
    clampPass p (clampPass p s) = clampPass p s := by
  by_cases h : s.total_items ≥ 1
  · exact clampPass_fix p _ (by rw [clampPass_total]; exact h) (clampPass_inv p s h hp)
  · have h1 : s.total_items ≤ 0 := by omega
    rw [clampPass_empty p s h1]
    exact clampPass_empty p _ (show s.total_items ≤ 0 from h1)

theorem clampPass_idempotent_witness :
    (3 : Int) ≥ 1
    ∧ clampPass 3 (clampPass 3 (sampleState 5 100 (-7))) = clampPass 3 (sampleState 5 100 (-7)) :=
  ⟨by decide, clampPass_idempotent 3 (sampleState 5 100 (-7)) (by decide)⟩

/-! ## Auxiliary facts about the key dispatch, the panes and the detail cache -/

section Auxiliary2

theorem toupper_eq_Y (c : Int) : toupper c = CHAR_Y ↔ (c = 89 ∨ c = 121) := by
  unfold toupper CHAR_Y
  split_ifs <;> omega

/-- A delete that the user declines or the store rejects leaves every loop
variable as it was. -/
theorem handleKey_delete_rejected (p : Int) (k : Key) (env : KeyEnv) (s : ListState)
    (hk : k = KEY_ACTION_DELETE ∨ k = KEY_ACTION_DELETE_ALT ∨ k = KEY_ACTION_SELECT
      ∨ k = KEY_ACTION_ENTER)
    (hrej : toupper env.confirm_key ≠ CHAR_Y ∨ env.db_delete_ok = false) :
    (handleKey INTERACTIVE_LIST_ACTION_DELETE p k env s).state = s := by
  rcases hk with hk | hk | hk | hk <;> subst hk <;>
    simp only [handleKey, caseDelete, caseSelect] <;>
    rcases hrej with h | h <;> simp [h] <;> split_ifs <;> rfl

theorem castToInt_half (a : Int) : castToInt ((a : ℚ) * (1 / 2)) = a.tdiv 2 := by
  unfold castToInt
  have h2 : ((a : ℚ) * (1 / 2)) = (a : ℚ) / ((2 : ℕ) : ℚ) := by push_cast; ring
  split_ifs with h
  · have ha : 0 ≤ a := by
      by_contra hn
      push_neg at hn
      have : (a : ℚ) < 0 := by exact_mod_cast hn
      linarith
    rw [h2, Rat.floor_intCast_div_natCast, Int.tdiv_eq_ediv ha (by decide)]
    rfl
  · have ha : a < 0 := by
      by_contra hn
      push_neg at hn
      have : (0 : ℚ) ≤ (a : ℚ) := by exact_mod_cast hn
      apply h
      positivity
    have h3 : ((a : ℚ) * (1 / 2)) = -(((-a : ℤ) : ℚ) / ((2 : ℕ) : ℚ)) := by push_cast; ring
    rw [h3, Int.ceil_neg, Rat.floor_intCast_div_natCast,
      ← Int.tdiv_eq_ediv (by omega) (by decide), Int.neg_tdiv, neg_neg]
    rfl

theorem rawListPaneWidth_eq (a : Int) : rawListPaneWidth a = a.tdiv 2 := by
  unfold rawListPaneWidth LIST_PANE_PERCENT
  exact castToInt_half a

/-- The truncated half in terms of the floor division that `omega` knows. -/
theorem rawListPaneWidth_cases (a : Int) :
    (0 ≤ a → rawListPaneWidth a = a / 2) ∧ (a < 0 → rawListPaneWidth a = -((-a) / 2)) := by
  rw [rawListPaneWidth_eq]
  constructor
  · intro ha
    exact Int.tdiv_eq_ediv ha (by decide)
  · intro ha
    have h := Int.tdiv_eq_ediv (show 0 ≤ -a by omega) (show (0 : Int) ≤ 2 by decide)
    rw [Int.neg_tdiv] at h
    omega

end Auxiliary2

/-! ## Auxiliary facts about the detail cache -/

section DetailCache

theorem refreshDetail_hit (f : Int → Option Client) (s : ListState) (c : Client)
    (hsel : s.total_items > 0 ∧ s.selected_item_index ≥ 0
      ∧ s.selected_item_index < s.total_items)
    (hmiss : s.selected_item_index ≠ s.prev_selected_item_index
      ∨ s.details_loaded_for_selected = false)
    (hok : f (itemAt s.items s.selected_item_index).id = some c) :
    refreshDetail f s =
      { s with
        current_detailed_client := c
        details_loaded_for_selected := true
        prev_selected_item_index := s.selected_item_index } := by
  simp only [refreshDetail, hsel, and_self, if_true, hmiss, hok]

theorem refreshDetail_fail (f : Int → Option Client) (s : ListState)
    (hsel : s.total_items > 0 ∧ s.selected_item_index ≥ 0
      ∧ s.selected_item_index < s.total_items)
    (hmiss : s.selected_item_index ≠ s.prev_selected_item_index
      ∨ s.details_loaded_for_selected = false)
    (hfail : f (itemAt s.items s.selected_item_index).id = none) :
    refreshDetail f s =
      { s with
        current_detailed_client := errorClient (itemAt s.items s.selected_item_index).id
        details_loaded_for_selected := false
        prev_selected_item_index := s.selected_item_index } := by
  simp only [refreshDetail, hsel, and_self, if_true, hmiss, hfail]

theorem caseSelect_cache_kept (a : InteractiveListAction) (k : Key) (env : KeyEnv)
    (s : ListState) (hne : (caseSelect a k env s).edit_form = none)
    (hnd : (caseSelect a k env s).state.total_items = s.total_items) :
    (caseSelect a k env s).state = s := by
  by_cases h1 : s.total_items > 0 ∧ s.selected_item_index ≥ 0
      ∧ s.selected_item_index < s.total_items
  · cases a
    · by_cases hk : k = KEY_ACTION_DELETE ∨ k = KEY_ACTION_DELETE_ALT
      · simp only [caseSelect, h1, and_self, if_true, hk]
      · exfalso
        cases he : env.edit_refetch <;>
          simp [caseSelect, h1, hk, he] at hne
    · by_cases hk : k = KEY_EDIT_CLIENT ∨ k = KEY_EDIT_CLIENT_ALT
      · simp only [caseSelect, h1, and_self, if_true, hk]
      · by_cases hc : toupper env.confirm_key = CHAR_Y
        · by_cases hd : env.db_delete_ok = true
          · exfalso
            simp only [caseSelect, h1, and_self, if_true, hk, if_false, hc, hd] at hnd
            omega
          · have hd1 : env.db_delete_ok = false := by
              cases h : env.db_delete_ok
              · rfl
              · exact absurd h hd
            simp [caseSelect, h1, hk, hc, hd1]
        · simp only [caseSelect, h1, and_self, if_true, hk, if_false, hc]
  · simp only [caseSelect, h1, if_false]

theorem caseDelete_cache_kept (a : InteractiveListAction) (k : Key) (env : KeyEnv)
    (s : ListState) (hne : (caseDelete a k env s).edit_form = none)
    (hnd : (caseDelete a k env s).state.total_items = s.total_items) :
    (caseDelete a k env s).state = s := by
  unfold caseDelete at hne hnd ⊢
  split_ifs at hne hnd ⊢
  · rfl
  · rfl
  · exact caseSelect_cache_kept a k env s hne hnd

theorem caseEdit_cache_kept (a : InteractiveListAction) (k : Key) (env : KeyEnv)
    (s : ListState) (hne : (caseEdit a k env s).edit_form = none)
    (hnd : (caseEdit a k env s).state.total_items = s.total_items) :
    (caseEdit a k env s).state = s := by
  unfold caseEdit at hne hnd ⊢
  split_ifs at hne hnd ⊢
  · rfl
  · exact caseDelete_cache_kept a k env s hne hnd

/-- A key other than a resize that opens no edit form and deletes nothing
leaves the cache variables and the array alone. -/
theorem handleKey_cache_kept (a : InteractiveListAction) (p : Int) (k : Key) (env : KeyEnv)
    (s : ListState) (hk : k ≠ KEY_RESIZE)
    (hne : (handleKey a p k env s).edit_form = none)
    (hnd : (handleKey a p k env s).state.total_items = s.total_items) :
    (handleKey a p k env s).state.details_loaded_for_selected = s.details_loaded_for_selected
    ∧ (handleKey a p k env s).state.prev_selected_item_index = s.prev_selected_item_index
    ∧ (handleKey a p k env s).state.items = s.items := by
  cases k
  case KEY_RESIZE => exact absurd rfl hk
  case KEY_EDIT_CLIENT =>
    simp only [handleKey] at hne hnd ⊢
    rw [caseEdit_cache_kept a _ env s hne hnd]
    exact ⟨rfl, rfl, rfl⟩
  case KEY_EDIT_CLIENT_ALT =>
    simp only [handleKey] at hne hnd ⊢
    rw [caseEdit_cache_kept a _ env s hne hnd]
    exact ⟨rfl, rfl, rfl⟩
  case KEY_ACTION_DELETE =>
    simp only [handleKey] at hne hnd ⊢
    rw [caseDelete_cache_kept a _ env s hne hnd]
    exact ⟨rfl, rfl, rfl⟩
  case KEY_ACTION_DELETE_ALT =>
    simp only [handleKey] at hne hnd ⊢
    rw [caseDelete_cache_kept a _ env s hne hnd]
    exact ⟨rfl, rfl, rfl⟩
  case KEY_ACTION_SELECT =>
    simp only [handleKey] at hne hnd ⊢
    rw [caseSelect_cache_kept a _ env s hne hnd]
    exact ⟨rfl, rfl, rfl⟩
  case KEY_ACTION_ENTER =>
    simp only [handleKey] at hne hnd ⊢
    rw [caseSelect_cache_kept a _ env s hne hnd]
    exact ⟨rfl, rfl, rfl⟩
  all_goals
    simp only [handleKey]
    first
      | exact ⟨rfl, rfl, rfl⟩
      | exact ⟨trivial, trivial, trivial⟩
      | (split_ifs <;> exact ⟨rfl, rfl, rfl⟩)

theorem clampPass_cache_kept (p : Int) (s : ListState) (h : s.total_items > 0) :
    (clampPass p s).details_loaded_for_selected = s.details_loaded_for_selected
    ∧ (clampPass p s).prev_selected_item_index = s.prev_selected_item_index := by
  simp only [clampPass, h, if_true, and_self]

theorem detailFetchCalls_cached (s : ListState) (hl : s.details_loaded_for_selected = true)
    (hp : s.prev_selected_item_index = s.selected_item_index) : detailFetchCalls s = [] := by
  unfold detailFetchCalls
  split_ifs with h1 h2
  · rcases h2 with h2 | h2
    · exact absurd hp.symm h2
    · rw [hl] at h2
      exact absurd h2 (by decide)
  · rfl
  · rfl

/-- After an iteration whose redraw fetched successfully and whose key was
quiet, the next redraw finds the detail cached. -/
theorem loopIteration_quiet_cached (a : InteractiveListAction) (i : Input) (s s1 : ListState)
    (c : Client)
    (hsel : s.total_items > 0 ∧ s.selected_item_index ≥ 0
      ∧ s.selected_item_index < s.total_items)
    (hmiss : s.selected_item_index ≠ s.prev_selected_item_index
      ∨ s.details_loaded_for_selected = false)
    (hok : i.fetch_detail (itemAt s.items s.selected_item_index).id = some c)
    (hq : IsQuietEvent a i s) (hit : loopIteration a i s = some s1) :
    detailFetchCalls s1 = [] := by
  obtain ⟨hk, hne, hnd, hkeep⟩ := hq
  have hr := refreshDetail_hit i.fetch_detail s c hsel hmiss hok
  obtain ⟨_, f2, _, f4⟩ := refreshDetail_frame i.fetch_detail s
  have hl : (refreshDetail i.fetch_detail s).details_loaded_for_selected = true := by rw [hr]
  have hp : (refreshDetail i.fetch_detail s).prev_selected_item_index
      = s.selected_item_index := by rw [hr]
  simp only [loopIteration] at hit
  split_ifs at hit with h1 h2 h3
  · have e := Option.some.inj hit
    subst e
    exact detailFetchCalls_cached _ hl (by rw [hp, f4])
  · have e := Option.some.inj hit
    subst e
    obtain ⟨c1, c2, _⟩ := handleKey_cache_kept a _ i.key i.env _ hk hne (by rw [hnd, f2])
    obtain ⟨d1, d2⟩ := clampPass_cache_kept (items_per_page_nav i.main_win_height)
      (handleKey a (items_per_page_nav i.main_win_height) i.key i.env
        (refreshDetail i.fetch_detail s)).state (by rw [hnd]; exact hsel.1)
    exact detailFetchCalls_cached _ (by rw [d1, c1, hl]) (by rw [d2, c2, hp, hkeep])

theorem loopFetchCalls_cons (a : InteractiveListAction) (i : Input) (rest : List Input)
    (s : ListState) :
    loopFetchCalls a (i :: rest) s =
      if i.windows_ok = false then []
      else
        detailFetchCalls s ++
          (match loopIteration a i s with
            | some s1 => loopFetchCalls a rest s1
            | none => []) := rfl

theorem loopFetchCalls_single_cached (a : InteractiveListAction) (i : Input) (s : ListState)
    (h : detailFetchCalls s = []) : loopFetchCalls a [i] s = [] := by
  rw [loopFetchCalls_cons, h]
  split_ifs
  · rfl
  · cases loopIteration a i s <;> rfl

end DetailCache

/-! ## The claims about the key dispatch, the column plan and the pane layout -/

/-- The keys of the on-screen hint that do work: in edit mode Enter (either
code) opens the edit form for the selected record, and in delete mode `d`, `D`
and Enter ask the delete confirmation for it. -/
theorem key_dispatch_working_keys (p : Int) (k : Key) (env : KeyEnv) (s : ListState)
    (hsel : s.total_items > 0 ∧ s.selected_item_index ≥ 0
      ∧ s.selected_item_index < s.total_items) :
    ((k = KEY_ACTION_SELECT ∨ k = KEY_ACTION_ENTER) →
        (handleKey INTERACTIVE_LIST_ACTION_EDIT p k env s).edit_form
          = some (itemAt s.items s.selected_item_index).id)
    ∧ ((k = KEY_ACTION_DELETE ∨ k = KEY_ACTION_DELETE_ALT ∨ k = KEY_ACTION_SELECT
          ∨ k = KEY_ACTION_ENTER) →
        (handleKey INTERACTIVE_LIST_ACTION_DELETE p k env s).confirm_prompt
          = some (itemAt s.items s.selected_item_index).id) := by
  constructor
  · intro hk
    rcases hk with hk | hk <;> subst hk <;>
      simp only [handleKey, caseSelect, hsel, and_self, if_true] <;>
      simp <;> split <;> rfl
  · intro hk
    rcases hk with hk | hk | hk | hk <;> subst hk <;>
      simp only [handleKey, caseDelete, caseSelect, hsel, and_self, if_true] <;>
      simp <;> split_ifs <;> rfl

/-- C11 (the code departs from its on-screen hint "E/Enter: Edit"). In edit
mode the keys `e` and `E` pass the test of the edit labels, fall through into
the test of the delete labels, which holds for every key other than Enter when
the list was not opened for deletion, and end in `beep()`: no edit form is
opened and no loop variable changes, whatever the state. -/
theorem edit_keys_beep_in_edit_mode (p : Int) (env : KeyEnv) (s : ListState) :
    handleKey INTERACTIVE_LIST_ACTION_EDIT p KEY_EDIT_CLIENT env s
        = { state := s, beeped := true }
    ∧ handleKey INTERACTIVE_LIST_ACTION_EDIT p KEY_EDIT_CLIENT_ALT env s
        = { state := s, beeped := true }
    ∧ (handleKey INTERACTIVE_LIST_ACTION_EDIT p KEY_EDIT_CLIENT env s).edit_form = none
    ∧ (handleKey INTERACTIVE_LIST_ACTION_EDIT p KEY_EDIT_CLIENT_ALT env s).edit_form = none := by
  refine ⟨?_, ?_, ?_, ?_⟩
  · simp [handleKey, caseEdit, caseDelete]
  · simp [handleKey, caseEdit, caseDelete]
  · simp [handleKey, caseEdit, caseDelete]
  · simp [handleKey, caseEdit, caseDelete]

/-- C12. In delete mode, when the user answers the confirmation with a key
other than `y` and `Y`, or the store rejects the delete, the iteration leaves
the array, the count, the selection and the first visible index of a state
that satisfied the invariants as they were. -/
theorem rejected_delete_leaves_list_state (i : Input) (s : ListState)
    (hw : i.windows_ok = true)
    (hk : i.key = KEY_ACTION_DELETE ∨ i.key = KEY_ACTION_DELETE_ALT ∨ i.key = KEY_ACTION_SELECT
      ∨ i.key = KEY_ACTION_ENTER)
    (hlen : s.total_items > 0)
    (hinv : ListViewportInv (items_per_page_nav i.main_win_height) s)
    (hrej : (i.env.confirm_key ≠ 121 ∧ i.env.confirm_key ≠ 89) ∨ i.env.db_delete_ok = false) :
    ∃ s1, loopIteration INTERACTIVE_LIST_ACTION_DELETE i s = some s1
      ∧ s1.items = s.items ∧ s1.total_items = s.total_items
      ∧ s1.selected_item_index = s.selected_item_index
      ∧ s1.top_item_index = s.top_item_index
      ∧ resultSet s1 = resultSet s := by
  have hkk : i.key ≠ ERR ∧ i.key ≠ KEY_ACTION_QUIT ∧ i.key ≠ KEY_ACTION_QUIT_ALT
      ∧ i.key ≠ KEY_ESC := by
    rcases hk with h | h | h | h <;> rw [h] <;> decide
  have hit := loopIteration_eq INTERACTIVE_LIST_ACTION_DELETE i s hw hkk.1 hkk.2
  have hrej1 : toupper i.env.confirm_key ≠ CHAR_Y ∨ i.env.db_delete_ok = false := by
    rcases hrej with h | h
    · left
      rw [Ne, toupper_eq_Y]
      omega
    · right
      exact h
  rw [handleKey_delete_rejected _ i.key i.env _ hk hrej1] at hit
  obtain ⟨f1, f2, f3, f4⟩ := refreshDetail_frame i.fetch_detail s
  rw [clampPass_fix _ _ (by rw [f2]; omega) ((refreshDetail_inv _ _ s).2 hinv)] at hit
  exact ⟨_, hit, f1, f2, f4, f3, resultSet_refreshDetail _ s⟩

theorem rejected_delete_leaves_list_state_witness :
    (keyInput 8 KEY_ACTION_DELETE (fun _ => none)
        { edit_refetch := none, confirm_key := 110, db_delete_ok := true }).windows_ok = true
    ∧ (sampleState 5 3 1).total_items > 0
    ∧ ListViewportInv (items_per_page_nav 8) (sampleState 5 3 1)
    ∧ (∃ s1, loopIteration INTERACTIVE_LIST_ACTION_DELETE
          (keyInput 8 KEY_ACTION_DELETE (fun _ => none)
            { edit_refetch := none, confirm_key := 110, db_delete_ok := true })
          (sampleState 5 3 1) = some s1
        ∧ s1.items = sampleItems ∧ s1.total_items = 5
        ∧ s1.selected_item_index = 3 ∧ s1.top_item_index = 1)
    ∧ (∃ s1, loopIteration INTERACTIVE_LIST_ACTION_DELETE
          (keyInput 8 KEY_ACTION_ENTER (fun _ => none)
            { edit_refetch := none, confirm_key := 121, db_delete_ok := false })
          (sampleState 5 3 1) = some s1
        ∧ s1.items = sampleItems ∧ s1.total_items = 5
        ∧ s1.selected_item_index = 3 ∧ s1.top_item_index = 1) := by
  refine ⟨rfl, by decide, by decide, ?_, ?_⟩
  · obtain ⟨s1, h1, h2, h3, h4, h5, _⟩ :=
      rejected_delete_leaves_list_state
        (keyInput 8 KEY_ACTION_DELETE (fun _ => none)
          { edit_refetch := none, confirm_key := 110, db_delete_ok := true })
        (sampleState 5 3 1) rfl (Or.inl rfl) (by decide) (by decide)
        (Or.inl ⟨by decide, by decide⟩)
    exact ⟨s1, h1, h2, h3, h4, h5⟩
  · obtain ⟨s1, h1, h2, h3, h4, h5, _⟩ :=
      rejected_delete_leaves_list_state
        (keyInput 8 KEY_ACTION_ENTER (fun _ => none)
          { edit_refetch := none, confirm_key := 121, db_delete_ok := false })
        (sampleState 5 3 1) rfl (Or.inr (Or.inr (Or.inr rfl))) (by decide) (by decide)
        (Or.inr rfl)
    exact ⟨s1, h1, h2, h3, h4, h5⟩

/-- C13. ColumnPlan, narrow case: for every pane content width `w` with
`0 < w < 4 + LIST_COL_PADDING + 1` (that is, `w < 6`) the identifier column
takes the whole width and the name column is suppressed: `id_width = w`,
`name_width = 0`. -/
theorem column_plan_narrow (w : Int) (hpos : 0 < w) (hnarrow : w < 4 + LIST_COL_PADDING + 1) :
    (calculate_list_column_widths_for_pane w).id_width = w
    ∧ (calculate_list_column_widths_for_pane w).name_width = 0
    ∧ 4 + LIST_COL_PADDING + 1 = 6 := by
  have h1 : ¬ w ≤ 0 := by omega
  simp only [LIST_COL_PADDING] at hnarrow
  have h2 : w < 4 + 1 + 1 := by omega
  simp only [calculate_list_column_widths_for_pane, LIST_COL_PADDING, h1, h2, if_false, if_true]
  have h3 : ¬ w < 0 := by omega
  simp [h3]

theorem column_plan_narrow_witness :
    (0 : Int) < 3 ∧ (3 : Int) < 4 + LIST_COL_PADDING + 1
    ∧ (calculate_list_column_widths_for_pane 3).id_width = 3
    ∧ (calculate_list_column_widths_for_pane 3).name_width = 0 :=
  ⟨by decide, by decide, (column_plan_narrow 3 (by decide) (by decide)).1,
    (column_plan_narrow 3 (by decide) (by decide)).2.1⟩

/-- C14. ColumnPlan, normal case: for every pane content width
`w >= 4 + LIST_COL_PADDING + 1` (that is, `w >= 6`) the plan is `id_width = 4`,
`name_col_start = id_width + padding = 5` and `name_width = w - 5`. -/
theorem column_plan_normal (w : Int) (hwide : w ≥ 4 + LIST_COL_PADDING + 1) :
    (calculate_list_column_widths_for_pane w).id_width = 4
    ∧ (calculate_list_column_widths_for_pane w).name_col_start
        = (calculate_list_column_widths_for_pane w).id_width + LIST_COL_PADDING
    ∧ (calculate_list_column_widths_for_pane w).name_col_start = 5
    ∧ (calculate_list_column_widths_for_pane w).name_width
        = w - (calculate_list_column_widths_for_pane w).name_col_start
    ∧ (calculate_list_column_widths_for_pane w).name_width = w - 5 := by
  simp only [LIST_COL_PADDING] at hwide
  have h1 : ¬ w ≤ 0 := by omega
  have h2 : ¬ w < 4 + 1 + 1 := by omega
  have h3 : ¬ w - 4 - 1 < 0 := by omega
  have h4 : ¬ w - 4 < 1 := by omega
  simp only [calculate_list_column_widths_for_pane, LIST_COL_PADDING, h1, h2, h3, if_false]
  simp [h4]
  omega

theorem column_plan_normal_witness :
    (30 : Int) ≥ 4 + LIST_COL_PADDING + 1
    ∧ (calculate_list_column_widths_for_pane 30).id_width = 4
    ∧ (calculate_list_column_widths_for_pane 30).name_col_start = 5
    ∧ (calculate_list_column_widths_for_pane 30).name_width = 25 :=
  ⟨by decide, (column_plan_normal 30 (by decide)).1, (column_plan_normal 30 (by decide)).2.2.1,
    (column_plan_normal 30 (by decide)).2.2.2.2⟩

/-- C15. PaneLayout with an available content width of 60 (a main window 64
columns wide), the split 0.5, the list minimum 30, the detail minimum 45 and
the separator width 1: the raw widths are 30 and 29, neither adjustment is
applied although the detail pane is below its minimum, and the layout is
`list_pane_w = 30`, `detail_pane_w = 29`. -/
theorem pane_layout_width_60 :
    rawListPaneWidth 60 = 30 ∧ rawDetailPaneWidth 60 30 = 29
    ∧ 29 < DETAIL_PANE_MIN_WIDTH
    ∧ adjustPaneWidths 60 30 29 = (30, 29)
    ∧ (paneLayout 64).list_pane_w = 30 ∧ (paneLayout 64).detail_pane_w = 29 := by
  have h : rawListPaneWidth 60 = 30 := by rw [rawListPaneWidth_eq]; decide
  have h4 : (64 : Int) - 2 * MAIN_WIN_BORDER_WIDTH = 60 := by decide
  refine ⟨h, by decide, by decide, by decide, ?_, ?_⟩
  · simp only [paneLayout, h4, h]
    decide
  · simp only [paneLayout, h4, h]
    decide

theorem adjustPaneWidths_nonneg (a l d : Int) :
    0 ≤ (adjustPaneWidths a l d).1 ∧ 0 ≤ (adjustPaneWidths a l d).2 := by
  simp only [adjustPaneWidths]
  constructor <;> split_ifs <;> omega

/-- C16. For every width of the main window, also one smaller than the borders,
the computed `list_pane_w` and `detail_pane_w` are both at least 0. -/
theorem pane_widths_nonneg (main_win_width : Int) :
    0 ≤ (paneLayout main_win_width).list_pane_w
    ∧ 0 ≤ (paneLayout main_win_width).detail_pane_w := by
  simp only [paneLayout]
  exact adjustPaneWidths_nonneg _ _ _

/-- C17 (as stated, refuted). For the available width 61 the code computes the
raw list width 30, while `round(61 * 0.5)` is 31. -/
theorem raw_list_width_is_not_rounded :
    rawListPaneWidth 61 = 30 ∧ specRawListWidth 61 LIST_PANE_PERCENT = 31
    ∧ rawListPaneWidth 61 ≠ specRawListWidth 61 LIST_PANE_PERCENT := by
  have h1 : rawListPaneWidth 61 = 30 := by rw [rawListPaneWidth_eq]; decide
  have h2 : specRawListWidth 61 LIST_PANE_PERCENT = 31 := by
    unfold specRawListWidth LIST_PANE_PERCENT
    rw [round_eq]
    have : ((61 : ℤ) : ℚ) * (1 / 2) + 1 / 2 = ((31 : ℤ) : ℚ) := by norm_num
    rw [this, Int.floor_intCast]
  refine ⟨h1, h2, ?_⟩
  rw [h1, h2]
  decide

/-- C17 (amended). For every available width the raw list width is the width
times 0.5 truncated toward zero: it is within one half of `total_width / 2`,
equals `round(total_width * 0.5)` for even widths and is one less than it for
odd positive widths; the raw detail width is
`total_width - list_width - separator_width`. -/
theorem raw_list_width_is_truncated (a : Int) :
    rawListPaneWidth a = a.tdiv 2
    ∧ (2 * rawListPaneWidth a - a ≤ 1 ∧ a - 2 * rawListPaneWidth a ≤ 1)
    ∧ (a % 2 = 0 → rawListPaneWidth a = specRawListWidth a LIST_PANE_PERCENT)
    ∧ (0 < a → a % 2 = 1 → rawListPaneWidth a = specRawListWidth a LIST_PANE_PERCENT - 1)
    ∧ rawDetailPaneWidth a (rawListPaneWidth a)
        = a - rawListPaneWidth a - PANE_SEPARATOR_WIDTH := by
  obtain ⟨hpos, hneg⟩ := rawListPaneWidth_cases a
  refine ⟨rawListPaneWidth_eq a, ?_, ?_, ?_, rfl⟩
  · by_cases h : 0 ≤ a
    · rw [hpos h]; omega
    · rw [hneg (by omega)]; omega
  · intro heven
    obtain ⟨k, hk⟩ : ∃ k : Int, a = 2 * k := ⟨a / 2, by omega⟩
    have hr : specRawListWidth a LIST_PANE_PERCENT = k := by
      unfold specRawListWidth LIST_PANE_PERCENT
      have : ((a : ℤ) : ℚ) * (1 / 2) = ((k : ℤ) : ℚ) := by rw [hk]; push_cast; ring
      rw [this, round_intCast]
    rw [hr]
    by_cases h : 0 ≤ a
    · rw [hpos h]; omega
    · rw [hneg (by omega)]; omega
  · intro h0 hodd
    obtain ⟨k, hk⟩ : ∃ k : Int, a = 2 * k + 1 := ⟨a / 2, by omega⟩
    have hr : specRawListWidth a LIST_PANE_PERCENT = k + 1 := by
      unfold specRawListWidth LIST_PANE_PERCENT
      rw [round_eq]
      have : ((a : ℤ) : ℚ) * (1 / 2) + 1 / 2 = (((k + 1 : ℤ)) : ℚ) := by
        rw [hk]; push_cast; ring
      rw [this, Int.floor_intCast]
    rw [hr, hpos (by omega)]
    omega

theorem raw_list_width_is_truncated_witness :
    rawListPaneWidth 61 = Int.tdiv 61 2
    ∧ rawListPaneWidth 60 = specRawListWidth 60 LIST_PANE_PERCENT
    ∧ rawListPaneWidth 61 = specRawListWidth 61 LIST_PANE_PERCENT - 1 :=
  ⟨(raw_list_width_is_truncated 61).1, (raw_list_width_is_truncated 60).2.2.1 (by decide),
    (raw_list_width_is_truncated 61).2.2.2.1 (by decide) (by decide)⟩

/-- C18. Two-pass pane adjustment, for every raw pair of a split (the list
width a share between 0 and the total, the detail width the rest less the
separator): when `detail_width < 45` and the list side has slack
(`list_width > 45 + 1 + 20`), the result is `detail_width = 45` and
`list_width = total - 45 - 1`; otherwise, when `list_width < 30` and the detail
side has slack (`detail_width > 30 + 1 + 45`), the result is `list_width = 30`
and `detail_width = total - 30 - 1`.  The growth of the list side is tried only
when the shrink did not apply. -/
theorem pane_adjustment_two_pass (total list_width detail_width : Int)
    (hraw : detail_width = total - list_width - PANE_SEPARATOR_WIDTH)
    (hshare : (0 ≤ list_width ∧ list_width ≤ total) ∨ (total ≤ list_width ∧ list_width ≤ 0)) :
    (detail_width < DETAIL_PANE_MIN_WIDTH
        ∧ list_width > DETAIL_PANE_MIN_WIDTH + PANE_SEPARATOR_WIDTH + 20 →
      adjustPaneWidths total list_width detail_width
        = (total - DETAIL_PANE_MIN_WIDTH - PANE_SEPARATOR_WIDTH, DETAIL_PANE_MIN_WIDTH))
    ∧ (¬ (detail_width < DETAIL_PANE_MIN_WIDTH
          ∧ list_width > DETAIL_PANE_MIN_WIDTH + PANE_SEPARATOR_WIDTH + 20) →
        list_width < 30
          ∧ detail_width > 30 + PANE_SEPARATOR_WIDTH + DETAIL_PANE_MIN_WIDTH →
      adjustPaneWidths total list_width detail_width
        = (30, total - 30 - PANE_SEPARATOR_WIDTH)) := by
  simp only [DETAIL_PANE_MIN_WIDTH, PANE_SEPARATOR_WIDTH] at *
  constructor
  · intro hg
    have h1 : ¬ total - 45 - 1 < 0 := by omega
    simp only [adjustPaneWidths, DETAIL_PANE_MIN_WIDTH, PANE_SEPARATOR_WIDTH, hg, and_self,
      if_true, h1, if_false]
    simp
  · intro hng hg
    have h1 : ¬ total - 30 - 1 < 0 := by omega
    simp only [adjustPaneWidths, DETAIL_PANE_MIN_WIDTH, PANE_SEPARATOR_WIDTH, hng, hg, and_self,
      if_true, h1, if_false]
    simp

theorem pane_adjustment_two_pass_witness :
    ((19 : Int) = 200 - 180 - PANE_SEPARATOR_WIDTH
      ∧ ((0 : Int) ≤ 180 ∧ (180 : Int) ≤ 200)
      ∧ ((19 : Int) < DETAIL_PANE_MIN_WIDTH
          ∧ (180 : Int) > DETAIL_PANE_MIN_WIDTH + PANE_SEPARATOR_WIDTH + 20)
      ∧ adjustPaneWidths 200 180 19 = (154, 45))
    ∧ ((89 : Int) = 100 - 10 - PANE_SEPARATOR_WIDTH
      ∧ ((10 : Int) < 30 ∧ (89 : Int) > 30 + PANE_SEPARATOR_WIDTH + DETAIL_PANE_MIN_WIDTH)
      ∧ adjustPaneWidths 100 10 89 = (30, 69)) :=
  ⟨⟨by decide, by decide, by decide,
      (pane_adjustment_two_pass 200 180 19 (by decide) (Or.inl (by decide))).1 (by decide)⟩,
    ⟨by decide, by decide,
      (pane_adjustment_two_pass 100 10 89 (by decide) (Or.inl (by decide))).2 (by decide)
        (by decide)⟩⟩

/-! ## The claims about the detail cache -/

/-- C19 (as stated, refuted). Two consecutive redraws for the same selected
identifier 11, separated by an unrecognised key, call the fetch twice when it
fails; and they call a fetch that succeeds twice when the key in between is a
resize. -/
theorem detail_fetched_twice :
    loopFetchCalls INTERACTIVE_LIST_ACTION_EDIT
        [keyInput 8 OTHER (fun _ => none) sampleEnv, keyInput 8 OTHER (fun _ => none) sampleEnv]
        (initialState sampleItems 5 zeroClient) = [11, 11]
    ∧ loopFetchCalls INTERACTIVE_LIST_ACTION_EDIT
        [keyInput 8 KEY_RESIZE sampleFetch sampleEnv, keyInput 8 OTHER sampleFetch sampleEnv]
        (initialState sampleItems 5 zeroClient) = [11, 11] := by
  constructor <;> decide

/-- C19 (amended). Starting with no detail cached for the selection, two
consecutive redraws for the same selected record, separated by a key that
opens no edit form, deletes nothing, moves the selection nowhere and is not a
resize, call the fetch exactly once, provided that call succeeds. -/
theorem detail_fetched_once (a : InteractiveListAction) (i1 i2 : Input) (s : ListState)
    (c : Client) (hw : i1.windows_ok = true)
    (hsel : s.total_items > 0 ∧ s.selected_item_index ≥ 0
      ∧ s.selected_item_index < s.total_items)
    (hmiss : s.selected_item_index ≠ s.prev_selected_item_index
      ∨ s.details_loaded_for_selected = false)
    (hok : i1.fetch_detail (itemAt s.items s.selected_item_index).id = some c)
    (hq : IsQuietEvent a i1 s) :
    loopFetchCalls a [i1, i2] s = [(itemAt s.items s.selected_item_index).id] := by
  have h1 : detailFetchCalls s = [(itemAt s.items s.selected_item_index).id] := by
    simp only [detailFetchCalls, hsel, and_self, if_true, hmiss]
  have hw1 : ¬ i1.windows_ok = false := by rw [hw]; decide
  rw [loopFetchCalls_cons, if_neg hw1, h1]
  cases hit : loopIteration a i1 s with
  | none => rfl
  | some s1 =>
    have h2 := loopIteration_quiet_cached a i1 s s1 c hsel hmiss hok hq hit
    simp only [loopFetchCalls_single_cached a i2 s1 h2, List.append_nil]

theorem detail_fetched_once_witness :
    (keyInput 8 OTHER sampleFetch sampleEnv).windows_ok = true
    ∧ IsQuietEvent INTERACTIVE_LIST_ACTION_DELETE (keyInput 8 OTHER sampleFetch sampleEnv)
        (initialState sampleItems 5 zeroClient)
    ∧ loopFetchCalls INTERACTIVE_LIST_ACTION_DELETE
        [keyInput 8 OTHER sampleFetch sampleEnv, keyInput 8 KEY_NAV_DOWN sampleFetch sampleEnv]
        (initialState sampleItems 5 zeroClient) = [11] :=
  ⟨rfl, by decide,
    detail_fetched_once INTERACTIVE_LIST_ACTION_DELETE (keyInput 8 OTHER sampleFetch sampleEnv)
      (keyInput 8 KEY_NAV_DOWN sampleFetch sampleEnv) (initialState sampleItems 5 zeroClient)
      { zeroClient with id := 11 } rfl (by decide) (by decide) rfl (by decide)⟩

/-- C20 (as stated, refuted). When the fetch for the selected identifier 11
fails, the record handed to the detail pane has the identifier field 0, not 11. -/
theorem failure_placeholder_id_is_zero :
    (itemAt (sampleState 5 0 0).items (sampleState 5 0 0).selected_item_index).id = 11
    ∧ ∃ c, detailPaneArg (refreshDetail (fun _ => none) (sampleState 5 0 0)) = some c
        ∧ c.id = 0 ∧ c.id ≠ 11 :=
  ⟨by decide, errorClient 11, by decide, rfl, by decide⟩

/-- C20 (amended). Whenever the fetch for the selected record fails, the record
handed to the detail pane is a placeholder whose identifier field is 0, whose
name field is the text `Error loading ID ` followed by the requested identifier
in decimal (cut to the buffer), and all of whose other fields are empty or
zero, so that nothing of a record fetched before survives; no detail counts as
loaded. -/
theorem failure_placeholder (f : Int → Option Client) (s : ListState)
    (hsel : s.total_items > 0 ∧ s.selected_item_index ≥ 0
      ∧ s.selected_item_index < s.total_items)
    (hmiss : s.selected_item_index ≠ s.prev_selected_item_index
      ∨ s.details_loaded_for_selected = false)
    (hfail : f (itemAt s.items s.selected_item_index).id = none) :
    ∃ c, detailPaneArg (refreshDetail f s) = some c
      ∧ c.id = 0
      ∧ c.business_name
          = (cstr ("Error loading ID " ++ toString (itemAt s.items s.selected_item_index).id)).take
              (MAX_STR_LEN - 1)
      ∧ cstr "Error loading ID " <+: c.business_name
      ∧ { c with business_name := [] } = zeroClient
      ∧ (refreshDetail f s).details_loaded_for_selected = false := by
  refine ⟨errorClient (itemAt s.items s.selected_item_index).id, ?_, rfl, rfl, ?_, rfl, ?_⟩
  · rw [refreshDetail_fail f s hsel hmiss hfail]
    simp only [detailPaneArg, hsel, and_self, if_true]
  · have hlen : (cstr "Error loading ID ").length ≤ MAX_STR_LEN - 1 := by decide
    have happ : cstr ("Error loading ID "
          ++ toString (itemAt s.items s.selected_item_index).id)
        = cstr "Error loading ID "
          ++ cstr (toString (itemAt s.items s.selected_item_index).id) := by
      simp only [cstr, String.toList, String.data_append, List.map_append]
    simp only [errorClient, happ]
    rw [List.take_append_eq_append_take, List.take_of_length_le hlen]
    exact List.prefix_append _ _
  · rw [refreshDetail_fail f s hsel hmiss hfail]

theorem failure_placeholder_witness :
    ((sampleState 5 0 0).total_items > 0 ∧ (sampleState 5 0 0).selected_item_index ≥ 0
      ∧ (sampleState 5 0 0).selected_item_index < (sampleState 5 0 0).total_items)
    ∧ ((sampleState 5 0 0).selected_item_index ≠ (sampleState 5 0 0).prev_selected_item_index
      ∨ (sampleState 5 0 0).details_loaded_for_selected = false)
    ∧ ∃ c, detailPaneArg (refreshDetail (fun _ => none) (sampleState 5 0 0)) = some c
        ∧ c.id = 0 ∧ { c with business_name := [] } = zeroClient := by
  refine ⟨by decide, by decide, ?_⟩
  obtain ⟨c, h1, h2, _, _, h3, _⟩ :=
    failure_placeholder (fun _ => none) (sampleState 5 0 0) (by decide) (by decide) rfl
  exact ⟨c, h1, h2, h3⟩

/-! ## The detail handed to the pane is never stale -/

section NeverStaleProof

theorem loopIteration_cases (a : InteractiveListAction) (i : Input) (s s1 : ListState)
    (h : loopIteration a i s = some s1) :
    i.windows_ok = true
    ∧ ((i.key = ERR ∧ i.exit_requested = false ∧ s1 = refreshDetail i.fetch_detail s)
      ∨ (¬ (i.key = ERR ∧ i.exit_requested = false)
        ∧ s1 = clampPass (items_per_page_nav i.main_win_height)
            (handleKey a (items_per_page_nav i.main_win_height) i.key i.env
              (refreshDetail i.fetch_detail s)).state)) := by
  simp only [loopIteration] at h
  split_ifs at h with h1 h2 h3
  · have hw : i.windows_ok = true := by
      cases hb : i.windows_ok
      · exact absurd hb h1
      · rfl
    exact ⟨hw, Or.inl ⟨h2.1, h2.2, (Option.some.inj h).symm⟩⟩
  · have hw : i.windows_ok = true := by
      cases hb : i.windows_ok
      · exact absurd hb h1
      · rfl
    exact ⟨hw, Or.inr ⟨h2, (Option.some.inj h).symm⟩⟩

theorem clampPass_client (p : Int) (s : ListState) :
    (clampPass p s).current_detailed_client = s.current_detailed_client := by
  unfold clampPass
  split_ifs <;> rfl

theorem caseSelect_loaded_kept (a : InteractiveListAction) (k : Key) (env : KeyEnv)
    (s : ListState) (hl : (caseSelect a k env s).state.details_loaded_for_selected = true) :
    (caseSelect a k env s).state = s ∧ (caseSelect a k env s).edit_form = none
    ∧ ((caseSelect a k env s).db_delete = none ∨ env.db_delete_ok = false) := by
  by_cases h1 : s.total_items > 0 ∧ s.selected_item_index ≥ 0
      ∧ s.selected_item_index < s.total_items
  · cases a
    · by_cases hk : k = KEY_ACTION_DELETE ∨ k = KEY_ACTION_DELETE_ALT
      · simp only [caseSelect, h1, and_self, if_true, hk]
        exact ⟨trivial, trivial, Or.inl trivial⟩
      · exfalso
        cases he : env.edit_refetch <;>
          simp [caseSelect, h1, hk, he] at hl
    · by_cases hk : k = KEY_EDIT_CLIENT ∨ k = KEY_EDIT_CLIENT_ALT
      · simp only [caseSelect, h1, and_self, if_true, hk]
        exact ⟨trivial, trivial, Or.inl trivial⟩
      · by_cases hc : toupper env.confirm_key = CHAR_Y
        · cases hd : env.db_delete_ok
          · simp [caseSelect, h1, hk, hc, hd]
          · exfalso
            simp [caseSelect, h1, hk, hc, hd] at hl
        · simp only [caseSelect, h1, and_self, if_true, hk, if_false, hc]
          exact ⟨trivial, trivial, Or.inl trivial⟩
  · simp only [caseSelect, h1, if_false]
    exact ⟨trivial, trivial, Or.inl trivial⟩

theorem caseDelete_loaded_kept (a : InteractiveListAction) (k : Key) (env : KeyEnv)
    (s : ListState) (hl : (caseDelete a k env s).state.details_loaded_for_selected = true) :
    (caseDelete a k env s).state = s ∧ (caseDelete a k env s).edit_form = none
    ∧ ((caseDelete a k env s).db_delete = none ∨ env.db_delete_ok = false) := by
  unfold caseDelete at hl ⊢
  split_ifs at hl ⊢
  · exact ⟨rfl, rfl, Or.inl rfl⟩
  · exact ⟨rfl, rfl, Or.inl rfl⟩
  · exact caseSelect_loaded_kept a k env s hl

theorem caseEdit_loaded_kept (a : InteractiveListAction) (k : Key) (env : KeyEnv)
    (s : ListState) (hl : (caseEdit a k env s).state.details_loaded_for_selected = true) :
    (caseEdit a k env s).state = s ∧ (caseEdit a k env s).edit_form = none
    ∧ ((caseEdit a k env s).db_delete = none ∨ env.db_delete_ok = false) := by
  unfold caseEdit at hl ⊢
  split_ifs at hl ⊢
  · exact ⟨rfl, rfl, Or.inl rfl⟩
  · exact caseDelete_loaded_kept a k env s hl

/-- When a detail still counts as loaded after the key was handled, the key
opened no edit form, no delete was accepted, and the cache variables, the array
and the count are those of before. -/
theorem handleKey_loaded_kept (a : InteractiveListAction) (p : Int) (k : Key) (env : KeyEnv)
    (s : ListState)
    (hl : (handleKey a p k env s).state.details_loaded_for_selected = true) :
    (handleKey a p k env s).state.details_loaded_for_selected = s.details_loaded_for_selected
    ∧ (handleKey a p k env s).state.prev_selected_item_index = s.prev_selected_item_index
    ∧ (handleKey a p k env s).state.items = s.items
    ∧ (handleKey a p k env s).state.current_detailed_client = s.current_detailed_client
    ∧ (handleKey a p k env s).state.total_items = s.total_items
    ∧ (handleKey a p k env s).edit_form = none
    ∧ ((handleKey a p k env s).db_delete = none ∨ env.db_delete_ok = false) := by
  cases k
  case KEY_RESIZE => simp [handleKey] at hl
  case KEY_EDIT_CLIENT =>
    simp only [handleKey] at hl ⊢
    obtain ⟨h1, h2, h3⟩ := caseEdit_loaded_kept a _ env s hl
    rw [h1]
    exact ⟨rfl, rfl, rfl, rfl, rfl, h2, h3⟩
  case KEY_EDIT_CLIENT_ALT =>
    simp only [handleKey] at hl ⊢
    obtain ⟨h1, h2, h3⟩ := caseEdit_loaded_kept a _ env s hl
    rw [h1]
    exact ⟨rfl, rfl, rfl, rfl, rfl, h2, h3⟩
  case KEY_ACTION_DELETE =>
    simp only [handleKey] at hl ⊢
    obtain ⟨h1, h2, h3⟩ := caseDelete_loaded_kept a _ env s hl
    rw [h1]
    exact ⟨rfl, rfl, rfl, rfl, rfl, h2, h3⟩
  case KEY_ACTION_DELETE_ALT =>
    simp only [handleKey] at hl ⊢
    obtain ⟨h1, h2, h3⟩ := caseDelete_loaded_kept a _ env s hl
    rw [h1]
    exact ⟨rfl, rfl, rfl, rfl, rfl, h2, h3⟩
  case KEY_ACTION_SELECT =>
    simp only [handleKey] at hl ⊢
    obtain ⟨h1, h2, h3⟩ := caseSelect_loaded_kept a _ env s hl
    rw [h1]
    exact ⟨rfl, rfl, rfl, rfl, rfl, h2, h3⟩
  case KEY_ACTION_ENTER =>
    simp only [handleKey] at hl ⊢
    obtain ⟨h1, h2, h3⟩ := caseSelect_loaded_kept a _ env s hl
    rw [h1]
    exact ⟨rfl, rfl, rfl, rfl, rfl, h2, h3⟩
  all_goals
    simp only [handleKey]
    first
      | exact ⟨rfl, rfl, rfl, rfl, rfl, rfl, Or.inl rfl⟩
      | exact ⟨trivial, trivial, trivial, trivial, trivial, trivial, Or.inl trivial⟩
      | (split_ifs <;> exact ⟨rfl, rfl, rfl, rfl, rfl, rfl, Or.inl rfl⟩)

theorem detailFetchCalls_nil (s : ListState) (hs : hasSelection s)
    (h : detailFetchCalls s = []) :
    s.details_loaded_for_selected = true
    ∧ s.prev_selected_item_index = s.selected_item_index := by
  unfold hasSelection at hs
  simp only [detailFetchCalls, hs, and_self, if_true] at h
  split_ifs at h with h1
  push_neg at h1
  refine ⟨?_, h1.1.symm⟩
  cases hb : s.details_loaded_for_selected
  · exact absurd hb h1.2
  · rfl

theorem refreshDetail_no_calls (f : Int → Option Client) (s : ListState)
    (h : detailFetchCalls s = []) : refreshDetail f s = s := by
  unfold detailFetchCalls at h
  unfold refreshDetail
  split_ifs at h ⊢ with h1 h2
  · rfl
  · rfl

theorem refreshDetail_calls (f : Int → Option Client) (s : ListState)
    (h : detailFetchCalls s ≠ []) :
    (refreshDetail f s).current_detailed_client = fetchOutcome f (selectedId s)
    ∧ (refreshDetail f s).prev_selected_item_index = s.selected_item_index := by
  unfold detailFetchCalls at h
  unfold refreshDetail fetchOutcome selectedId
  split_ifs at h ⊢ with h1 h2
  · cases hf : f (itemAt s.items s.selected_item_index).id <;> exact ⟨rfl, rfl⟩
  · exact absurd rfl h
  · exact absurd rfl h

/-- The range invariant of the loop head: the count is not negative and the
selection lies in a non-empty list. -/
theorem loopIteration_range (a : InteractiveListAction) (i : Input) (s s1 : ListState)
    (hit : loopIteration a i s = some s1)
    (hr : s.total_items ≥ 0 ∧ (s.total_items > 0 →
      0 ≤ s.selected_item_index ∧ s.selected_item_index < s.total_items)) :
    s1.total_items ≥ 0 ∧ (s1.total_items > 0 →
      0 ≤ s1.selected_item_index ∧ s1.selected_item_index < s1.total_items) := by
  obtain ⟨_, hc⟩ := loopIteration_cases a i s s1 hit
  obtain ⟨_, f2, _, f4⟩ := refreshDetail_frame i.fetch_detail s
  rcases hc with ⟨_, _, rfl⟩ | ⟨_, rfl⟩
  · rw [f2, f4]
    exact hr
  · have hn : (handleKey a (items_per_page_nav i.main_win_height) i.key i.env
        (refreshDetail i.fetch_detail s)).state.total_items ≥ 0 :=
      handleKey_total_nonneg _ _ _ _ _ (by rw [f2]; exact hr.1)
    have hinv := clampPass_inv_nonneg (items_per_page_nav i.main_win_height) _ hn
      (items_per_page_nav_pos _)
    refine ⟨by rw [clampPass_total]; exact hn, hinv.1.1⟩

theorem neverStale_of_invariant (a : InteractiveListAction) :
    ∀ (inputs : List Input) (s : ListState) (fresh : Option (Int × Client)),
      (s.total_items ≥ 0 ∧ (s.total_items > 0 →
        0 ≤ s.selected_item_index ∧ s.selected_item_index < s.total_items)) →
      (hasSelection s → detailFetchCalls s = [] →
        fresh = some (selectedId s, s.current_detailed_client)) →
      NeverStale a inputs s fresh := by
  intro inputs
  induction inputs with
  | nil => intro s fresh _ _; trivial
  | cons i rest ih =>
    intro s fresh hr hj
    simp only [NeverStale]
    intro hw
    obtain ⟨f1, f2, f3, f4⟩ := refreshDetail_frame i.fetch_detail s
    have hfr : hasSelection s →
        freshAfterRedraw fresh i.fetch_detail s
          = some (selectedId s, (refreshDetail i.fetch_detail s).current_detailed_client) := by
      intro hs
      by_cases hc : detailFetchCalls s = []
      · simp only [freshAfterRedraw, hc, if_true, refreshDetail_no_calls _ s hc]
        exact hj hs hc
      · simp only [freshAfterRedraw, hc, if_false, (refreshDetail_calls i.fetch_detail s hc).1]
    have hprev : hasSelection s →
        (refreshDetail i.fetch_detail s).prev_selected_item_index = s.selected_item_index := by
      intro hs
      by_cases hc : detailFetchCalls s = []
      · rw [refreshDetail_no_calls _ s hc]
        exact (detailFetchCalls_nil s hs hc).2
      · exact (refreshDetail_calls i.fetch_detail s hc).2
    refine ⟨fun hs => ⟨?_, hfr hs⟩, ?_⟩
    · have hs' : (refreshDetail i.fetch_detail s).total_items > 0
          ∧ (refreshDetail i.fetch_detail s).selected_item_index ≥ 0
          ∧ (refreshDetail i.fetch_detail s).selected_item_index
              < (refreshDetail i.fetch_detail s).total_items := by
        rw [f2, f4]; exact hs
      simp only [detailPaneArg, hs', and_self, if_true]
    · cases hit : loopIteration a i s with
      | none => trivial
      | some s1 =>
        simp only
        apply ih s1 _ (loopIteration_range a i s s1 hit hr)
        intro hs1 hc1
        obtain ⟨hl1, hp1⟩ := detailFetchCalls_nil s1 hs1 hc1
        obtain ⟨_, hcase⟩ := loopIteration_cases a i s s1 hit
        rcases hcase with ⟨hk, _, rfl⟩ | ⟨_, rfl⟩
        · have hs : hasSelection s := by
            unfold hasSelection at hs1 ⊢
            rw [f2, f4] at hs1
            exact hs1
          have hni : ¬ invalidates a i s (refreshDetail i.fetch_detail s) := by
            simp [invalidates, f4, hk, handleKey]
          simp only [freshAfterKey, hni, if_false, hfr hs, selectedId, f1, f4]
        · have htot : (handleKey a (items_per_page_nav i.main_win_height) i.key i.env
              (refreshDetail i.fetch_detail s)).state.total_items > 0 := by
            have := hs1.1
            rw [clampPass_total] at this
            exact this
          obtain ⟨c1, c2⟩ := clampPass_cache_kept (items_per_page_nav i.main_win_height) _ htot
          rw [c1] at hl1
          rw [c2] at hp1
          obtain ⟨k1, k2, k3, k4, k5, k6, k7⟩ :=
            handleKey_loaded_kept a _ i.key i.env _ hl1
          have hs : hasSelection s := by
            have ht : s.total_items > 0 := by rw [← f2, ← k5]; exact htot
            exact ⟨ht, (hr.2 ht).1, (hr.2 ht).2⟩
          have hsel : (clampPass (items_per_page_nav i.main_win_height)
              (handleKey a (items_per_page_nav i.main_win_height) i.key i.env
                (refreshDetail i.fetch_detail s)).state).selected_item_index
              = s.selected_item_index := by
            rw [← hp1, k2, hprev hs]
          have hni : ¬ invalidates a i s (clampPass (items_per_page_nav i.main_win_height)
              (handleKey a (items_per_page_nav i.main_win_height) i.key i.env
                (refreshDetail i.fetch_detail s)).state) := by
            unfold invalidates
            rw [hsel, k6]
            rcases k7 with h7 | h7
            · rw [h7]
              simp
            · rw [h7]
              simp
          simp only [freshAfterKey, hni, if_false, hfr hs, selectedId, hsel, clampPass_items,
            clampPass_client, k3, k4, f1]

end NeverStaleProof

section DeleteCalls

theorem caseSelect_db_delete (a : InteractiveListAction) (k : Key) (env : KeyEnv)
    (s : ListState) (id : Int) (h : (caseSelect a k env s).db_delete = some id) :
    a = INTERACTIVE_LIST_ACTION_DELETE ∧ hasSelection s
    ∧ toupper env.confirm_key = CHAR_Y ∧ id = selectedId s := by
  by_cases h1 : s.total_items > 0 ∧ s.selected_item_index ≥ 0
      ∧ s.selected_item_index < s.total_items
  · cases a
    · exfalso
      by_cases hk : k = KEY_ACTION_DELETE ∨ k = KEY_ACTION_DELETE_ALT
      · simp [caseSelect, h1, hk] at h
      · cases he : env.edit_refetch <;> simp [caseSelect, h1, hk, he] at h
    · by_cases hk : k = KEY_EDIT_CLIENT ∨ k = KEY_EDIT_CLIENT_ALT
      · simp [caseSelect, h1, hk] at h
      · by_cases hc : toupper env.confirm_key = CHAR_Y
        · refine ⟨rfl, h1, hc, ?_⟩
          cases hd : env.db_delete_ok <;>
            simp [caseSelect, h1, hk, hc, hd] at h <;>
            exact h.symm
        · simp [caseSelect, h1, hk, hc] at h
  · simp only [caseSelect, h1, if_false] at h
    exact absurd h (by simp)

theorem caseDelete_db_delete (a : InteractiveListAction) (k : Key) (env : KeyEnv)
    (s : ListState) (id : Int) (h : (caseDelete a k env s).db_delete = some id) :
    a = INTERACTIVE_LIST_ACTION_DELETE ∧ hasSelection s
    ∧ toupper env.confirm_key = CHAR_Y ∧ id = selectedId s := by
  unfold caseDelete at h
  split_ifs at h
  exact caseSelect_db_delete a k env s id h

theorem caseEdit_db_delete (a : InteractiveListAction) (k : Key) (env : KeyEnv)
    (s : ListState) : (caseEdit a k env s).db_delete = none := by
  unfold caseEdit
  split_ifs with h
  · rfl
  · have ha : a = INTERACTIVE_LIST_ACTION_EDIT := by
      cases a
      · rfl
      · exact absurd (by decide) h
    cases hd : (caseDelete a k env s).db_delete with
    | none => rfl
    | some id =>
      have := (caseDelete_db_delete a k env s id hd).1
      rw [ha] at this
      exact absurd this (by decide)

/-- The only call of `db_delete_client` in the key dispatch. -/
theorem handleKey_db_delete (a : InteractiveListAction) (p : Int) (k : Key) (env : KeyEnv)
    (s : ListState) (id : Int) (h : (handleKey a p k env s).db_delete = some id) :
    a = INTERACTIVE_LIST_ACTION_DELETE
    ∧ (k = KEY_ACTION_DELETE ∨ k = KEY_ACTION_DELETE_ALT ∨ k = KEY_ACTION_SELECT
        ∨ k = KEY_ACTION_ENTER)
    ∧ hasSelection s ∧ toupper env.confirm_key = CHAR_Y ∧ id = selectedId s := by
  cases k
  case KEY_EDIT_CLIENT =>
    simp only [handleKey, caseEdit_db_delete] at h
    exact absurd h (by simp)
  case KEY_EDIT_CLIENT_ALT =>
    simp only [handleKey, caseEdit_db_delete] at h
    exact absurd h (by simp)
  case KEY_ACTION_DELETE =>
    obtain ⟨h1, h2⟩ := caseDelete_db_delete a _ env s id (by simpa only [handleKey] using h)
    exact ⟨h1, Or.inl rfl, h2⟩
  case KEY_ACTION_DELETE_ALT =>
    obtain ⟨h1, h2⟩ := caseDelete_db_delete a _ env s id (by simpa only [handleKey] using h)
    exact ⟨h1, Or.inr (Or.inl rfl), h2⟩
  case KEY_ACTION_SELECT =>
    obtain ⟨h1, h2⟩ := caseSelect_db_delete a _ env s id (by simpa only [handleKey] using h)
    exact ⟨h1, Or.inr (Or.inr (Or.inl rfl)), h2⟩
  case KEY_ACTION_ENTER =>
    obtain ⟨h1, h2⟩ := caseSelect_db_delete a _ env s id (by simpa only [handleKey] using h)
    exact ⟨h1, Or.inr (Or.inr (Or.inr rfl)), h2⟩
  all_goals
    exfalso
    simp only [handleKey] at h
    first
      | split_ifs at h
      | simp at h

theorem loopDeleteCalls_edit_mode :
    ∀ (inputs : List Input) (s : ListState),
      loopDeleteCalls INTERACTIVE_LIST_ACTION_EDIT inputs s = [] := by
  intro inputs
  induction inputs with
  | nil => intro s; rfl
  | cons i rest ih =>
    intro s
    have hnone : (handleKey INTERACTIVE_LIST_ACTION_EDIT (items_per_page_nav i.main_win_height)
        i.key i.env (refreshDetail i.fetch_detail s)).db_delete = none := by
      cases hd : (handleKey INTERACTIVE_LIST_ACTION_EDIT (items_per_page_nav i.main_win_height)
          i.key i.env (refreshDetail i.fetch_detail s)).db_delete with
      | none => rfl
      | some id => exact absurd (handleKey_db_delete _ _ _ _ _ id hd).1 (by decide)
    simp only [loopDeleteCalls, hnone, Option.toList, List.nil_append, ih]
    split_ifs
    · rfl
    · rfl
    · cases loopIteration INTERACTIVE_LIST_ACTION_EDIT i s <;> rfl

end DeleteCalls

section DrawLoop

/-- The loop of lines 1608-1612 draws consecutive items on consecutive rows,
as many as fit before the last visible index and the row limit; the fuel is
enough as soon as it covers the indices up to the last visible one. -/
theorem drawLoop_fuel (limit start top last : Int) :
    ∀ (fuel : Nat) (i : Int), (last - i + 1).toNat ≤ fuel →
      drawLoop limit start top last fuel i
        = (List.range (min (last - i + 1) (limit - (start + (i - top)))).toNat).map
            (fun k : Nat => (i + (k : Int), start + (i - top) + (k : Int))) := by
  intro fuel
  induction fuel with
  | zero =>
    intro i h
    have h0 : (min (last - i + 1) (limit - (start + (i - top)))).toNat = 0 := by omega
    simp only [drawLoop, h0, List.range_zero, List.map_nil]
  | succ n ih =>
    intro i h
    by_cases h1 : i ≤ last
    · by_cases h2 : start + (i - top) ≥ limit
      · have h0 : (min (last - i + 1) (limit - (start + (i - top)))).toNat = 0 := by omega
        simp only [drawLoop, h1, if_true, h2, h0, List.range_zero, List.map_nil]
      · have hn : (min (last - i + 1) (limit - (start + (i - top)))).toNat
            = (min (last - (i + 1) + 1) (limit - (start + (i + 1 - top)))).toNat + 1 := by
          omega
        simp only [drawLoop, h1, if_true, h2, if_false]
        rw [ih (i + 1) (by omega), hn, List.range_succ_eq_map, List.map_cons, List.map_map]
        congr 1
        · simp
        · apply List.map_congr_left
          intro k _
          simp only [Function.comp, Nat.succ_eq_add_one, Nat.cast_add, Nat.cast_one,
            Prod.mk.injEq]
          constructor <;> omega
    · have h0 : (min (last - i + 1) (limit - (start + (i - top)))).toNat = 0 := by omega
      simp only [drawLoop, h1, if_false, h0, List.range_zero, List.map_nil]

theorem list_pane_content_height_eq (h : Int) :
    list_pane_content_height h = max 1 (h - 4) := by
  simp only [list_pane_content_height, SCREEN_SEPARATOR_Y, SCREEN_TITLE_Y, MAIN_WIN_BORDER_WIDTH]
  omega

theorem items_per_page_list_eq (h : Int) : items_per_page_list h = max 1 (h - 5) := by
  simp only [items_per_page_list, SCREEN_SEPARATOR_Y, SCREEN_TITLE_Y, MAIN_WIN_BORDER_WIDTH]
  omega

/-- The items drawn, in closed form. -/
theorem drawnItems_eq (h total top : Int) :
    drawnItems h total top
      = (List.range (min (min (max 1 (h - 5)) (total - top)) (max 1 (h - 4) - 1)).toNat).map
          (fun k : Nat => (top + (k : Int), 4 + (k : Int))) := by
  simp only [drawnItems, list_pane_content_height_eq, items_per_page_list_eq]
  rw [drawLoop_fuel _ _ _ _ _ _ (le_refl _)]
  have hc : (SCREEN_SEPARATOR_Y + 1 : Int) = 3 := by decide
  simp only [hc]
  have hn : ∀ last : Int, last = (if top + max 1 (h - 5) - 1 ≥ total then total - 1
        else top + max 1 (h - 5) - 1) →
      (min (last - top + 1) (3 + max 1 (h - 4) - (3 + 1 + (top - top)))).toNat
        = (min (min (max 1 (h - 5)) (total - top)) (max 1 (h - 4) - 1)).toNat := by
    intro last hl
    omega
  rw [hn _ rfl]
  apply List.map_congr_left
  intro k _
  simp only [Prod.mk.injEq, true_and]
  omega

end DrawLoop

/-! ## NoteWrapper: the wrapping loops -/

section NoteWrapper

theorem byteAt_lt (text : CStr) (p : Nat) (h : byteAt text p ≠ 0) : p < text.length := by
  by_contra hge
  exact h (by simp [byteAt, List.getElem?_eq_none (Nat.le_of_not_lt hge)])

theorem byteAt_ne_zero (text : CStr) (h0 : 0 ∉ text) (p : Nat) (h : p < text.length) :
    byteAt text p ≠ 0 := by
  intro hz
  apply h0
  have : text[p] = 0 := by simpa [byteAt, List.getElem?_eq_getElem h] using hz
  rw [← this]
  exact List.getElem_mem h

theorem byteAt_mem_take_drop (text : CStr) (p n b : Nat)
    (h : b ∈ (text.drop p).take n) : ∃ k, k < n ∧ p + k < text.length ∧ byteAt text (p + k) = b := by
  obtain ⟨k, hk, rfl⟩ := List.getElem_of_mem h
  simp only [List.length_take, List.length_drop] at hk
  refine ⟨k, by omega, by omega, ?_⟩
  simp [byteAt, List.getElem?_eq_getElem (show p + k < text.length by omega)]

/-- One unfolding of the inner loop. -/
theorem scanLine_succ (mbtowc : CStr → Int × Int) (wcwidth : Int → Int) (text : CStr)
    (w : Int) (fuel : Nat) (st : LineScan) :
    scanLine mbtowc wcwidth text w (fuel + 1) st =
      if byteAt text st.temp_ptr ≠ 0 ∧ byteAt text st.temp_ptr ≠ NEWLINE then
        if (mbtowc (text.drop st.temp_ptr)).1 ≤ 0 then
          if (mbtowc (text.drop st.temp_ptr)).1 < 0 then
            some { temp_ptr := st.temp_ptr + 1
                   bytes_to_print_this_line := st.bytes_to_print_this_line + 1
                   current_visual_width := st.current_visual_width }
          else some st
        else
          if st.current_visual_width + charWidthAt mbtowc wcwidth text st.temp_ptr > w then
            some st
          else
            scanLine mbtowc wcwidth text w fuel
              { temp_ptr := st.temp_ptr + (mbtowc (text.drop st.temp_ptr)).1.toNat
                bytes_to_print_this_line :=
                  st.bytes_to_print_this_line + (mbtowc (text.drop st.temp_ptr)).1.toNat
                current_visual_width :=
                  st.current_visual_width + charWidthAt mbtowc wcwidth text st.temp_ptr }
      else some st := rfl

/-- Induction along the inner loop: a relation between the variables at a loop
head and at the exit holds once it holds at each of the four exits and is
carried back over a consumed character. -/
theorem scanLine_rec (mbtowc : CStr → Int × Int) (wcwidth : Int → Int) (text : CStr)
    (w : Int) (P : LineScan → LineScan → Prop)
    (hstop : ∀ st, ¬ (byteAt text st.temp_ptr ≠ 0 ∧ byteAt text st.temp_ptr ≠ NEWLINE) → P st st)
    (hzero : ∀ st, byteAt text st.temp_ptr ≠ 0 → byteAt text st.temp_ptr ≠ NEWLINE →
      (mbtowc (text.drop st.temp_ptr)).1 = 0 → P st st)
    (hbad : ∀ st, byteAt text st.temp_ptr ≠ 0 → byteAt text st.temp_ptr ≠ NEWLINE →
      (mbtowc (text.drop st.temp_ptr)).1 < 0 →
      P st { temp_ptr := st.temp_ptr + 1
             bytes_to_print_this_line := st.bytes_to_print_this_line + 1
             current_visual_width := st.current_visual_width })
    (hwide : ∀ st, byteAt text st.temp_ptr ≠ 0 → byteAt text st.temp_ptr ≠ NEWLINE →
      0 < (mbtowc (text.drop st.temp_ptr)).1 →
      st.current_visual_width + charWidthAt mbtowc wcwidth text st.temp_ptr > w → P st st)
    (hstep : ∀ st r, byteAt text st.temp_ptr ≠ 0 → byteAt text st.temp_ptr ≠ NEWLINE →
      0 < (mbtowc (text.drop st.temp_ptr)).1 →
      st.current_visual_width + charWidthAt mbtowc wcwidth text st.temp_ptr ≤ w →
      P { temp_ptr := st.temp_ptr + (mbtowc (text.drop st.temp_ptr)).1.toNat
          bytes_to_print_this_line :=
            st.bytes_to_print_this_line + (mbtowc (text.drop st.temp_ptr)).1.toNat
          current_visual_width :=
            st.current_visual_width + charWidthAt mbtowc wcwidth text st.temp_ptr } r →
      P st r) :
    ∀ fuel st r, scanLine mbtowc wcwidth text w fuel st = some r → P st r := by
  intro fuel
  induction fuel with
  | zero => intro st r h; simp [scanLine] at h
  | succ n ih =>
    intro st r h
    rw [scanLine_succ] at h
    by_cases hc : byteAt text st.temp_ptr ≠ 0 ∧ byteAt text st.temp_ptr ≠ NEWLINE
    · rw [if_pos hc] at h
      by_cases hle : (mbtowc (text.drop st.temp_ptr)).1 ≤ 0
      · rw [if_pos hle] at h
        by_cases hlt : (mbtowc (text.drop st.temp_ptr)).1 < 0
        · rw [if_pos hlt] at h
          cases h
          exact hbad st hc.1 hc.2 hlt
        · rw [if_neg hlt] at h
          cases h
          exact hzero st hc.1 hc.2 (by omega)
      · rw [if_neg hle] at h
        by_cases hw : st.current_visual_width + charWidthAt mbtowc wcwidth text st.temp_ptr > w
        · rw [if_pos hw] at h
          cases h
          exact hwide st hc.1 hc.2 (by omega) hw
        · rw [if_neg hw] at h
          exact hstep st r hc.1 hc.2 (by omega) (by omega) (ih _ r h)
    · rw [if_neg hc] at h
      cases h
      exact hstop st hc

/-- The inner loop is left: fuel for one step more than the bytes that remain
is enough. -/
theorem scanLine_returns (mbtowc : CStr → Int × Int) (wcwidth : Int → Int) (text : CStr)
    (w : Int) : ∀ fuel st, text.length - st.temp_ptr + 1 ≤ fuel →
      ∃ r, scanLine mbtowc wcwidth text w fuel st = some r := by
  intro fuel
  induction fuel with
  | zero => intro st h; omega
  | succ n ih =>
    intro st h
    rw [scanLine_succ]
    by_cases hc : byteAt text st.temp_ptr ≠ 0 ∧ byteAt text st.temp_ptr ≠ NEWLINE
    · rw [if_pos hc]
      have hp := byteAt_lt text _ hc.1
      by_cases hle : (mbtowc (text.drop st.temp_ptr)).1 ≤ 0
      · rw [if_pos hle]
        by_cases hlt : (mbtowc (text.drop st.temp_ptr)).1 < 0
        · rw [if_pos hlt]; exact ⟨_, rfl⟩
        · rw [if_neg hlt]; exact ⟨_, rfl⟩
      · rw [if_neg hle]
        by_cases hw : st.current_visual_width + charWidthAt mbtowc wcwidth text st.temp_ptr > w
        · rw [if_pos hw]; exact ⟨_, rfl⟩
        · rw [if_neg hw]
          apply ih
          show text.length - (st.temp_ptr + (mbtowc (text.drop st.temp_ptr)).1.toNat) + 1 ≤ n
          have : 0 < (mbtowc (text.drop st.temp_ptr)).1.toNat := by omega
          omega
    · rw [if_neg hc]; exact ⟨_, rfl⟩

/-- The bookkeeping of the inner loop: the pointer moves by the bytes counted,
and neither count decreases. -/
theorem scanLine_counts (mbtowc : CStr → Int × Int) (wcwidth : Int → Int) (text : CStr)
    (w : Int) (fuel : Nat) (st r : LineScan)
    (h : scanLine mbtowc wcwidth text w fuel st = some r) :
    st.bytes_to_print_this_line ≤ r.bytes_to_print_this_line
    ∧ r.temp_ptr = st.temp_ptr + (r.bytes_to_print_this_line - st.bytes_to_print_this_line)
    ∧ st.current_visual_width ≤ r.current_visual_width
    ∧ (st.current_visual_width ≤ w → r.current_visual_width ≤ w) := by
  refine scanLine_rec mbtowc wcwidth text w
    (fun st r => st.bytes_to_print_this_line ≤ r.bytes_to_print_this_line
      ∧ r.temp_ptr = st.temp_ptr + (r.bytes_to_print_this_line - st.bytes_to_print_this_line)
      ∧ st.current_visual_width ≤ r.current_visual_width
      ∧ (st.current_visual_width ≤ w → r.current_visual_width ≤ w))
    ?_ ?_ ?_ ?_ ?_ fuel st r h
  · intro st _; simp
  · intro st _ _ _; simp
  · intro st _ _ _; simp
  · intro st _ _ _ _; simp
  · intro st r _ _ hpos hfit ih
    simp only at ih
    have hcw : 0 ≤ charWidthAt mbtowc wcwidth text st.temp_ptr := by
      simp only [charWidthAt]; split_ifs <;> omega
    refine ⟨by omega, by omega, by omega, fun _ => ih.2.2.2 hfit⟩

end NoteWrapper

section NoteWrapperRows

/-- One iteration of the outer loop always yields its row. -/
theorem wrapIteration_returns (mbtowc : CStr → Int × Int) (wcwidth : Int → Int) (text : CStr)
    (w : Int) (notes_ptr : Nat) (y : Int) :
    ∃ sc, scanLine mbtowc wcwidth text w (text.length + 1)
        { temp_ptr := notes_ptr, bytes_to_print_this_line := 0, current_visual_width := 0 }
        = some sc
      ∧ wrapIteration mbtowc wcwidth text w notes_ptr y = some
        { y := y
          line_start := notes_ptr
          bytes_to_print_this_line := sc.bytes_to_print_this_line
          current_visual_width := sc.current_visual_width
          next_ptr :=
            if byteAt text (notes_ptr + sc.bytes_to_print_this_line) = NEWLINE then
              notes_ptr + sc.bytes_to_print_this_line + 1
            else if sc.bytes_to_print_this_line = 0
                ∧ byteAt text (notes_ptr + sc.bytes_to_print_this_line) ≠ 0 then
              notes_ptr + sc.bytes_to_print_this_line + 1
            else notes_ptr + sc.bytes_to_print_this_line } := by
  obtain ⟨sc, hsc⟩ := scanLine_returns mbtowc wcwidth text w (text.length + 1)
    { temp_ptr := notes_ptr, bytes_to_print_this_line := 0, current_visual_width := 0 }
    (by simp only; omega)
  exact ⟨sc, hsc, by simp only [wrapIteration, hsc]⟩

/-- The frame of a row: where it starts, and that the cursor moves over its
line and at most one byte more, and by at least one byte when the text has not
ended. -/
theorem wrapIteration_frame (mbtowc : CStr → Int × Int) (wcwidth : Int → Int) (text : CStr)
    (w : Int) (notes_ptr : Nat) (y : Int) (row : NoteRow)
    (h : wrapIteration mbtowc wcwidth text w notes_ptr y = some row) :
    row.y = y ∧ row.line_start = notes_ptr
    ∧ (row.next_ptr = notes_ptr + row.bytes_to_print_this_line
      ∨ row.next_ptr = notes_ptr + row.bytes_to_print_this_line + 1)
    ∧ (byteAt text notes_ptr ≠ 0 → notes_ptr + 1 ≤ row.next_ptr) := by
  obtain ⟨sc, _, hrow⟩ := wrapIteration_returns mbtowc wcwidth text w notes_ptr y
  rw [hrow] at h
  cases h
  refine ⟨rfl, rfl, ?_, ?_⟩
  · simp only
    split_ifs <;> simp
  · intro hne
    simp only
    by_cases hb : sc.bytes_to_print_this_line = 0
    · simp only [hb, Nat.add_zero, hne, ne_eq, not_false_eq_true, and_self, if_true]
      split_ifs <;> omega
    · split_ifs <;> omega

/-- Induction along the outer loop. -/
theorem wrapNotes_rec (mbtowc : CStr → Int × Int) (wcwidth : Int → Int) (text : CStr)
    (w y_limit : Int) (P : Nat → Int → List NoteRow → Nat → Prop)
    (hexit : ∀ p y, ¬ (byteAt text p ≠ 0 ∧ y < y_limit) → P p y [] p)
    (hstep : ∀ p y row rows q, byteAt text p ≠ 0 → y < y_limit →
      wrapIteration mbtowc wcwidth text w p y = some row →
      P row.next_ptr (y + 1) rows q → P p y (row :: rows) q) :
    ∀ fuel p y rows q, wrapNotes mbtowc wcwidth text w y_limit fuel p y = some (rows, q) →
      P p y rows q := by
  intro fuel
  induction fuel with
  | zero => intro p y rows q h; simp [wrapNotes] at h
  | succ n ih =>
    intro p y rows q h
    rw [wrapNotes] at h
    by_cases hc : byteAt text p ≠ 0 ∧ y < y_limit
    · rw [if_pos hc] at h
      cases hrow : wrapIteration mbtowc wcwidth text w p y with
      | none => simp [hrow] at h
      | some row =>
        cases hrest : wrapNotes mbtowc wcwidth text w y_limit n row.next_ptr (y + 1) with
        | none => simp [hrow, hrest] at h
        | some res =>
          obtain ⟨rows1, q1⟩ := res
          simp only [hrow, hrest, Option.some.injEq, Prod.mk.injEq] at h
          obtain ⟨rfl, rfl⟩ := h
          exact hstep p y row rows1 q1 hc.1 hc.2 hrow (ih _ _ _ _ hrest)
    · rw [if_neg hc] at h
      simp only [Option.some.injEq, Prod.mk.injEq] at h
      obtain ⟨rfl, rfl⟩ := h
      exact hexit p y hc

/-- The outer loop is left after at most as many rows as bytes remain. -/
theorem wrapNotes_returns (mbtowc : CStr → Int × Int) (wcwidth : Int → Int) (text : CStr)
    (w y_limit : Int) : ∀ fuel p y, text.length - p + 1 ≤ fuel →
      ∃ rows q, wrapNotes mbtowc wcwidth text w y_limit fuel p y = some (rows, q)
        ∧ rows.length ≤ text.length - p := by
  intro fuel
  induction fuel with
  | zero => intro p y h; omega
  | succ n ih =>
    intro p y h
    rw [wrapNotes]
    by_cases hc : byteAt text p ≠ 0 ∧ y < y_limit
    · rw [if_pos hc]
      have hp := byteAt_lt text p hc.1
      obtain ⟨row, hrow⟩ : ∃ row, wrapIteration mbtowc wcwidth text w p y = some row := by
        obtain ⟨sc, _, hrow⟩ := wrapIteration_returns mbtowc wcwidth text w p y
        exact ⟨_, hrow⟩
      have hadv := (wrapIteration_frame mbtowc wcwidth text w p y row hrow).2.2.2 hc.1
      obtain ⟨rows, q, hrest, hlen⟩ := ih row.next_ptr (y + 1) (by omega)
      rw [hrow]
      simp only
      rw [hrest]
      exact ⟨_, _, rfl, by simp only [List.length_cons]; omega⟩
    · rw [if_neg hc]
      exact ⟨[], p, rfl, by simp⟩

/-- Every row of a run starts where the loop found the text not ended, moves
the cursor by at least one byte, and the rows are chained. -/
theorem wrapNotes_rows (mbtowc : CStr → Int × Int) (wcwidth : Int → Int) (text : CStr)
    (w y_limit : Int) (fuel p : Nat) (y : Int) (rows : List NoteRow) (q : Nat)
    (h : wrapNotes mbtowc wcwidth text w y_limit fuel p y = some (rows, q)) :
    Chained p rows q ∧ p ≤ q
    ∧ (∀ row ∈ rows, byteAt text row.line_start ≠ 0 ∧ row.line_start + 1 ≤ row.next_ptr
        ∧ p ≤ row.line_start ∧ row.next_ptr ≤ q ∧ y ≤ row.y ∧ row.y < y_limit
        ∧ wrapIteration mbtowc wcwidth text w row.line_start row.y = some row)
    ∧ ¬ (byteAt text q ≠ 0 ∧ y + rows.length < y_limit) := by
  refine wrapNotes_rec mbtowc wcwidth text w y_limit
    (fun p y rows q => Chained p rows q ∧ p ≤ q
      ∧ (∀ row ∈ rows, byteAt text row.line_start ≠ 0 ∧ row.line_start + 1 ≤ row.next_ptr
          ∧ p ≤ row.line_start ∧ row.next_ptr ≤ q ∧ y ≤ row.y ∧ row.y < y_limit
          ∧ wrapIteration mbtowc wcwidth text w row.line_start row.y = some row)
      ∧ ¬ (byteAt text q ≠ 0 ∧ y + rows.length < y_limit))
    ?_ ?_ fuel p y rows q h
  · intro p y hc
    exact ⟨rfl, le_refl _, by simp, by simpa using hc⟩
  · intro p y row rows q hne hy hrow ih
    obtain ⟨hch, hle, hall, hend⟩ := ih
    obtain ⟨hy1, hls, hnext, hadv⟩ := wrapIteration_frame mbtowc wcwidth text w p y row hrow
    have hadv := hadv hne
    refine ⟨⟨hls, hnext, hch⟩, by omega, ?_, ?_⟩
    · intro r hr
      rcases List.mem_cons.1 hr with rfl | hr
      · exact ⟨by rw [hls]; exact hne, by omega, by omega, hle, by omega, by omega,
          by rw [hls, hy1]; exact hrow⟩
      · obtain ⟨a, b, c, d, e, f, g⟩ := hall r hr
        exact ⟨a, b, by omega, d, by omega, f, g⟩
    · simp only [List.length_cons, Nat.cast_add, Nat.cast_one]
      intro hcon
      exact hend ⟨hcon.1, by omega⟩

end NoteWrapperRows

section NoteWrapperConsumes

theorem chained_sum : ∀ (rows : List NoteRow) (p q : Nat), Chained p rows q →
    p + (rows.map (fun row => row.next_ptr - row.line_start)).sum = q := by
  intro rows
  induction rows with
  | nil => intro p q h; simpa [Chained] using h
  | cons row rest ih =>
    intro p q h
    obtain ⟨hls, hnext, hrest⟩ := h
    have := ih _ _ hrest
    simp only [List.map_cons, List.sum_cons]
    omega

theorem chained_length : ∀ (rows : List NoteRow) (p q : Nat), Chained p rows q →
    (∀ row ∈ rows, row.line_start + 1 ≤ row.next_ptr) → p + rows.length ≤ q := by
  intro rows
  induction rows with
  | nil => intro p q h _; simp only [Chained] at h; simp [h]
  | cons row rest ih =>
    intro p q h hadv
    obtain ⟨hls, hnext, hrest⟩ := h
    have := ih _ _ hrest (fun r hr => hadv r (List.mem_cons_of_mem _ hr))
    have := hadv row (List.mem_cons_self _ _)
    simp only [List.length_cons]
    omega

theorem scanLine_in_bounds (mbtowc : CStr → Int × Int) (wcwidth : Int → Int) (text : CStr)
    (w : Int) (hdec : DecoderInBounds mbtowc text) (fuel : Nat) (st r : LineScan)
    (h : scanLine mbtowc wcwidth text w fuel st = some r) :
    st.temp_ptr ≤ text.length → r.temp_ptr ≤ text.length := by
  refine scanLine_rec mbtowc wcwidth text w
    (fun st r => st.temp_ptr ≤ text.length → r.temp_ptr ≤ text.length)
    ?_ ?_ ?_ ?_ ?_ fuel st r h
  · intro st _ h; exact h
  · intro st _ _ _ h; exact h
  · intro st hne _ _ _
    have := byteAt_lt text _ hne
    simp only
    omega
  · intro st _ _ _ _ h; exact h
  · intro st r hne _ hpos _ ih _
    have hp := byteAt_lt text _ hne
    have := hdec _ hp
    apply ih
    simp only
    omega

theorem wrapIteration_in_bounds (mbtowc : CStr → Int × Int) (wcwidth : Int → Int)
    (text : CStr) (w : Int) (hdec : DecoderInBounds mbtowc text) (p : Nat) (y : Int)
    (row : NoteRow) (h : wrapIteration mbtowc wcwidth text w p y = some row)
    (hp : p ≤ text.length) : row.next_ptr ≤ text.length := by
  obtain ⟨sc, hsc, hrow⟩ := wrapIteration_returns mbtowc wcwidth text w p y
  rw [hrow] at h
  cases h
  have hb := scanLine_in_bounds mbtowc wcwidth text w hdec _ _ _ hsc hp
  have hc := (scanLine_counts mbtowc wcwidth text w _ _ _ hsc).2.1
  simp only [Nat.sub_zero] at hb hc
  rw [hc] at hb
  simp only
  by_cases hnl : byteAt text (p + sc.bytes_to_print_this_line) = NEWLINE
  · rw [if_pos hnl]
    have := byteAt_lt text _ (by rw [hnl]; decide)
    omega
  · rw [if_neg hnl]
    split_ifs with hskip
    · have := byteAt_lt text _ hskip.2
      omega
    · exact hb

theorem wrapNotes_in_bounds (mbtowc : CStr → Int × Int) (wcwidth : Int → Int) (text : CStr)
    (w y_limit : Int) (hdec : DecoderInBounds mbtowc text) (fuel p : Nat) (y : Int)
    (rows : List NoteRow) (q : Nat)
    (h : wrapNotes mbtowc wcwidth text w y_limit fuel p y = some (rows, q)) :
    p ≤ text.length → q ≤ text.length := by
  refine wrapNotes_rec mbtowc wcwidth text w y_limit
    (fun p _ _ q => p ≤ text.length → q ≤ text.length) ?_ ?_ fuel p y rows q h
  · intro p y _ h; exact h
  · intro p y row rows q _ _ hrow ih hp
    exact ih (wrapIteration_in_bounds mbtowc wcwidth text w hdec p y row hrow hp)

end NoteWrapperConsumes

section NoteWrapperLineBreak

theorem scanLine_no_newline (mbtowc : CStr → Int × Int) (wcwidth : Int → Int) (text : CStr)
    (w : Int) (hkeep : DecoderKeepsLineBreaks mbtowc text) (fuel : Nat) (st r : LineScan)
    (h : scanLine mbtowc wcwidth text w fuel st = some r) :
    ∀ e, st.temp_ptr ≤ e → e < r.temp_ptr → byteAt text e ≠ NEWLINE := by
  refine scanLine_rec mbtowc wcwidth text w
    (fun st r => ∀ e, st.temp_ptr ≤ e → e < r.temp_ptr → byteAt text e ≠ NEWLINE)
    ?_ ?_ ?_ ?_ ?_ fuel st r h
  · intro st _ e h1 h2; omega
  · intro st _ _ _ e h1 h2; omega
  · intro st _ hnl _ e h1 h2
    simp only at h2
    have : e = st.temp_ptr := by omega
    rw [this]; exact hnl
  · intro st _ _ _ _ e h1 h2; omega
  · intro st r hne hnl hpos _ ih e h1 h2
    simp only at ih
    by_cases he : e = st.temp_ptr
    · rw [he]; exact hnl
    · by_cases hin : e < st.temp_ptr + (mbtowc (text.drop st.temp_ptr)).1.toNat
      · by_cases hlen : e < text.length
        · have := hkeep st.temp_ptr (byteAt_lt text _ hne) (e - st.temp_ptr) (by omega)
            (by omega) (by omega)
          rwa [show st.temp_ptr + (e - st.temp_ptr) = e by omega] at this
        · intro hcon
          have := byteAt_lt text e (by rw [hcon]; decide)
          omega
      · exact ih e (by omega) h2

theorem wrapIteration_line_break (mbtowc : CStr → Int × Int) (wcwidth : Int → Int)
    (text : CStr) (w : Int) (hkeep : DecoderKeepsLineBreaks mbtowc text) (p : Nat) (y : Int)
    (row : NoteRow) (h : wrapIteration mbtowc wcwidth text w p y = some row) :
    NEWLINE ∉ row.line text
    ∧ (byteAt text (row.line_start + row.bytes_to_print_this_line) = NEWLINE →
        row.next_ptr = row.line_start + row.bytes_to_print_this_line + 1)
    ∧ (∀ e, byteAt text e = NEWLINE → row.line_start ≤ e → e < row.next_ptr →
        e = row.line_start + row.bytes_to_print_this_line ∧ row.next_ptr = e + 1) := by
  obtain ⟨sc, hsc, hrow⟩ := wrapIteration_returns mbtowc wcwidth text w p y
  rw [hrow] at h
  have hno := scanLine_no_newline mbtowc wcwidth text w hkeep _ _ _ hsc
  have hc := (scanLine_counts mbtowc wcwidth text w _ _ _ hsc).2.1
  simp only [Nat.sub_zero] at hno hc
  rw [hc] at hno
  have e1 : row.line_start = p := by rw [← Option.some.inj h]
  have e2 : row.bytes_to_print_this_line = sc.bytes_to_print_this_line := by
    rw [← Option.some.inj h]
  have e3 : row.next_ptr =
      if byteAt text (p + sc.bytes_to_print_this_line) = NEWLINE then
        p + sc.bytes_to_print_this_line + 1
      else if sc.bytes_to_print_this_line = 0
          ∧ byteAt text (p + sc.bytes_to_print_this_line) ≠ 0 then
        p + sc.bytes_to_print_this_line + 1
      else p + sc.bytes_to_print_this_line := by
    rw [← Option.some.inj h]
  have hnext : byteAt text (p + sc.bytes_to_print_this_line) = NEWLINE →
      row.next_ptr = p + sc.bytes_to_print_this_line + 1 := by
    intro hnl
    rw [e3, if_pos hnl]
  have hup : row.next_ptr ≤ p + sc.bytes_to_print_this_line + 1 := by
    rw [e3]; split_ifs <;> omega
  rw [e1, e2]
  refine ⟨?_, hnext, ?_⟩
  · intro hmem
    obtain ⟨k, hk, _, hb⟩ := byteAt_mem_take_drop text _ _ _
      (show NEWLINE ∈ (text.drop row.line_start).take row.bytes_to_print_this_line from hmem)
    rw [e1] at hb
    rw [e2] at hk
    exact hno (p + k) (by omega) (by omega) hb
  · intro e he h1 h2
    have hge : ¬ e < p + sc.bytes_to_print_this_line := fun hlt => hno e h1 hlt he
    have hee : e = p + sc.bytes_to_print_this_line := by omega
    subst hee
    exact ⟨rfl, hnext he⟩

end NoteWrapperLineBreak

section NoteWrapperValid

theorem charWidthAt_nonneg (mbtowc : CStr → Int × Int) (wcwidth : Int → Int) (text : CStr)
    (p : Nat) : 0 ≤ charWidthAt mbtowc wcwidth text p := by
  simp only [charWidthAt]; split_ifs <;> omega

/-- The inner loop on a validly encoded text: started on a character boundary
it stops on one, and it stops at the terminator, at a line break, or in front
of a character that does not fit any more. -/
theorem scanLine_valid (mbtowc : CStr → Int × Int) (wcwidth : Int → Int) (text : CStr)
    (w : Int) (hvalid : ValidlyEncoded mbtowc text) (fuel : Nat) (st r : LineScan)
    (h : scanLine mbtowc wcwidth text w fuel st = some r) :
    CharBoundary mbtowc text st.temp_ptr →
      CharBoundary mbtowc text r.temp_ptr
      ∧ (byteAt text r.temp_ptr = 0 ∨ byteAt text r.temp_ptr = NEWLINE
        ∨ (0 < (mbtowc (text.drop r.temp_ptr)).1
          ∧ r.current_visual_width + charWidthAt mbtowc wcwidth text r.temp_ptr > w)) := by
  refine scanLine_rec mbtowc wcwidth text w
    (fun st r => CharBoundary mbtowc text st.temp_ptr →
      CharBoundary mbtowc text r.temp_ptr
      ∧ (byteAt text r.temp_ptr = 0 ∨ byteAt text r.temp_ptr = NEWLINE
        ∨ (0 < (mbtowc (text.drop r.temp_ptr)).1
          ∧ r.current_visual_width + charWidthAt mbtowc wcwidth text r.temp_ptr > w)))
    ?_ ?_ ?_ ?_ ?_ fuel st r h
  · intro st hc hb
    refine ⟨hb, ?_⟩
    by_cases h0 : byteAt text st.temp_ptr = 0
    · exact Or.inl h0
    · by_cases hnl : byteAt text st.temp_ptr = NEWLINE
      · exact Or.inr (Or.inl hnl)
      · exact absurd ⟨h0, hnl⟩ hc
  · intro st hne _ hz hb
    have := (hvalid _ hb (byteAt_lt text _ hne)).1
    omega
  · intro st hne _ hz hb
    have := (hvalid _ hb (byteAt_lt text _ hne)).1
    omega
  · intro st _ _ hpos hw hb
    exact ⟨hb, Or.inr (Or.inr ⟨hpos, hw⟩)⟩
  · intro st r hne _ hpos _ ih hb
    exact ih (CharBoundary.next _ hb (byteAt_lt text _ hne) hpos)

/-- A row of a validly encoded text none of whose characters is wider than the
width, started on a character boundary. -/
theorem wrapIteration_valid (mbtowc : CStr → Int × Int) (wcwidth : Int → Int) (text : CStr)
    (w : Int) (hvalid : ValidlyEncoded mbtowc text) (hfits : FitsWidth mbtowc wcwidth text w)
    (p : Nat) (y : Int) (row : NoteRow)
    (h : wrapIteration mbtowc wcwidth text w p y = some row)
    (hne : byteAt text p ≠ 0) (hb : CharBoundary mbtowc text p) :
    CharBoundary mbtowc text (row.line_start + row.bytes_to_print_this_line)
    ∧ CharBoundary mbtowc text row.next_ptr
    ∧ (row.next_ptr = row.line_start + row.bytes_to_print_this_line
      ∨ (byteAt text (row.line_start + row.bytes_to_print_this_line) = NEWLINE
        ∧ row.next_ptr = row.line_start + row.bytes_to_print_this_line + 1))
    ∧ GreedyLine mbtowc wcwidth text w row := by
  obtain ⟨sc, hsc, hrow⟩ := wrapIteration_returns mbtowc wcwidth text w p y
  rw [hrow] at h
  have e1 : row.line_start = p := by rw [← Option.some.inj h]
  have e2 : row.bytes_to_print_this_line = sc.bytes_to_print_this_line := by
    rw [← Option.some.inj h]
  have e3 : row.next_ptr =
      if byteAt text (p + sc.bytes_to_print_this_line) = NEWLINE then
        p + sc.bytes_to_print_this_line + 1
      else if sc.bytes_to_print_this_line = 0
          ∧ byteAt text (p + sc.bytes_to_print_this_line) ≠ 0 then
        p + sc.bytes_to_print_this_line + 1
      else p + sc.bytes_to_print_this_line := by
    rw [← Option.some.inj h]
  have e4 : row.current_visual_width = sc.current_visual_width := by
    rw [← Option.some.inj h]
  have hp := byteAt_lt text p hne
  have hw0 : 0 ≤ w :=
    le_trans (charWidthAt_nonneg mbtowc wcwidth text p) (hfits p hb hp)
  obtain ⟨_, hc, _, hwle⟩ := scanLine_counts mbtowc wcwidth text w _ _ _ hsc
  obtain ⟨hbe, hexit⟩ := scanLine_valid mbtowc wcwidth text w hvalid _ _ _ hsc hb
  simp only [Nat.sub_zero] at hc hwle
  rw [hc] at hbe hexit
  -- a row started in front of a character consumes it
  have hfirst : byteAt text p ≠ NEWLINE → 1 ≤ sc.bytes_to_print_this_line := by
    intro hnl
    have hpos := (hvalid p hb hp).1
    have hfit := hfits p hb hp
    rw [scanLine_succ] at hsc
    simp only [hne, hnl, ne_eq, not_false_eq_true, and_self, if_true,
      show ¬ (mbtowc (text.drop p)).1 ≤ 0 by omega, if_false, Int.zero_add,
      show ¬ charWidthAt mbtowc wcwidth text p > w by omega, Nat.zero_add] at hsc
    have := (scanLine_counts mbtowc wcwidth text w _ _ _ hsc).1
    simp only at this
    omega
  rw [e1, e2]
  refine ⟨hbe, ?_, ?_, ?_, ?_⟩
  · rw [e3]
    by_cases hnl : byteAt text (p + sc.bytes_to_print_this_line) = NEWLINE
    · rw [if_pos hnl]
      have hlt := byteAt_lt text _ (show byteAt text (p + sc.bytes_to_print_this_line) ≠ 0 by
        rw [hnl]; decide)
      have hone := (hvalid _ hbe hlt).2.2 hnl
      have := CharBoundary.next _ hbe hlt (by omega)
      rwa [hone] at this
    · rw [if_neg hnl]
      split_ifs with hskip
      · exfalso
        have := hfirst (by
          intro hcon
          apply hnl
          rw [hskip.1, Nat.add_zero]
          exact hcon)
        omega
      · exact hbe
  · rw [e3]
    by_cases hnl : byteAt text (p + sc.bytes_to_print_this_line) = NEWLINE
    · rw [if_pos hnl]
      exact Or.inr ⟨hnl, rfl⟩
    · rw [if_neg hnl]
      split_ifs with hskip
      · exfalso
        have := hfirst (by
          intro hcon
          apply hnl
          rw [hskip.1, Nat.add_zero]
          exact hcon)
        omega
      · exact Or.inl rfl
  · rw [e4]
    exact hwle hw0
  · intro h0 hnl
    rw [e1, e2] at h0 hnl
    rw [e1, e2, e4]
    rcases hexit with hz | hn | hwide
    · exact absurd hz h0
    · exact absurd hn hnl
    · exact hwide

/-- The rows of a run on a validly encoded text without a character wider than
the width. -/
theorem wrapNotes_valid (mbtowc : CStr → Int × Int) (wcwidth : Int → Int) (text : CStr)
    (w y_limit : Int) (hvalid : ValidlyEncoded mbtowc text)
    (hfits : FitsWidth mbtowc wcwidth text w) (fuel p : Nat) (y : Int)
    (rows : List NoteRow) (q : Nat)
    (h : wrapNotes mbtowc wcwidth text w y_limit fuel p y = some (rows, q)) :
    CharBoundary mbtowc text p →
      CharBoundary mbtowc text q
      ∧ ∀ row ∈ rows,
        CharBoundary mbtowc text row.line_start
        ∧ CharBoundary mbtowc text (row.line_start + row.bytes_to_print_this_line)
        ∧ CharBoundary mbtowc text row.next_ptr
        ∧ (row.next_ptr = row.line_start + row.bytes_to_print_this_line
          ∨ (byteAt text (row.line_start + row.bytes_to_print_this_line) = NEWLINE
            ∧ row.next_ptr = row.line_start + row.bytes_to_print_this_line + 1))
        ∧ GreedyLine mbtowc wcwidth text w row := by
  refine wrapNotes_rec mbtowc wcwidth text w y_limit
    (fun p _ rows q => CharBoundary mbtowc text p →
      CharBoundary mbtowc text q
      ∧ ∀ row ∈ rows,
        CharBoundary mbtowc text row.line_start
        ∧ CharBoundary mbtowc text (row.line_start + row.bytes_to_print_this_line)
        ∧ CharBoundary mbtowc text row.next_ptr
        ∧ (row.next_ptr = row.line_start + row.bytes_to_print_this_line
          ∨ (byteAt text (row.line_start + row.bytes_to_print_this_line) = NEWLINE
            ∧ row.next_ptr = row.line_start + row.bytes_to_print_this_line + 1))
        ∧ GreedyLine mbtowc wcwidth text w row)
    ?_ ?_ fuel p y rows q h
  · intro p y _ hb
    exact ⟨hb, by simp⟩
  · intro p y row rows q hne _ hrow ih hb
    obtain ⟨h1, h2, h3, h4⟩ :=
      wrapIteration_valid mbtowc wcwidth text w hvalid hfits p y row hrow hne hb
    have hls := (wrapIteration_frame mbtowc wcwidth text w p y row hrow).2.1
    obtain ⟨hq, hall⟩ := ih h2
    refine ⟨hq, ?_⟩
    intro r hr
    rcases List.mem_cons.1 hr with rfl | hr
    · exact ⟨by rw [hls]; exact hb, h1, h2, h3, h4⟩
    · exact hall r hr

/-- The column total of a row never exceeds a width that is not negative,
whatever the text and the decoder. -/
theorem wrapIteration_width (mbtowc : CStr → Int × Int) (wcwidth : Int → Int) (text : CStr)
    (w : Int) (hw : 0 ≤ w) (p : Nat) (y : Int) (row : NoteRow)
    (h : wrapIteration mbtowc wcwidth text w p y = some row) :
    0 ≤ row.current_visual_width ∧ row.current_visual_width ≤ w := by
  obtain ⟨sc, hsc, hrow⟩ := wrapIteration_returns mbtowc wcwidth text w p y
  rw [hrow] at h
  have e4 : row.current_visual_width = sc.current_visual_width := by
    rw [← Option.some.inj h]
  obtain ⟨_, _, h0, hwle⟩ := scanLine_counts mbtowc wcwidth text w _ _ _ hsc
  rw [e4]
  exact ⟨h0, hwle hw⟩

theorem note_wide_boundaries (p : Nat) (h : CharBoundary utf8_mbtowc note_wide p) :
    p = 0 ∨ p = 3 := by
  induction h with
  | start => exact Or.inl rfl
  | next p _ hlt _ ih =>
    rcases ih with rfl | rfl
    · exact Or.inr (by decide)
    · exact absurd hlt (by decide)

theorem note_wide_valid : ValidlyEncoded utf8_mbtowc note_wide := by
  intro p hp hlt
  rcases note_wide_boundaries p hp with rfl | rfl
  · decide
  · exact absurd hlt (by decide)

theorem note_abc_wide_d_boundaries (p : Nat)
    (h : CharBoundary utf8_mbtowc note_abc_wide_d p) :
    p = 0 ∨ p = 1 ∨ p = 2 ∨ p = 3 ∨ p = 6 ∨ p = 7 := by
  induction h with
  | start => exact Or.inl rfl
  | next p _ hlt _ ih =>
    rcases ih with rfl | rfl | rfl | rfl | rfl | rfl
    · exact Or.inr (Or.inl (by decide))
    · exact Or.inr (Or.inr (Or.inl (by decide)))
    · exact Or.inr (Or.inr (Or.inr (Or.inl (by decide))))
    · exact Or.inr (Or.inr (Or.inr (Or.inr (Or.inl (by decide)))))
    · exact Or.inr (Or.inr (Or.inr (Or.inr (Or.inr (by decide)))))
    · exact absurd hlt (by decide)

theorem note_abc_wide_d_valid : ValidlyEncoded utf8_mbtowc note_abc_wide_d := by
  intro p hp hlt
  rcases note_abc_wide_d_boundaries p hp with rfl | rfl | rfl | rfl | rfl | rfl
  · decide
  · decide
  · decide
  · decide
  · decide
  · exact absurd hlt (by decide)

theorem note_abc_wide_d_fits :
    FitsWidth utf8_mbtowc sample_wcwidth note_abc_wide_d 4 := by
  intro p hp hlt
  rcases note_abc_wide_d_boundaries p hp with rfl | rfl | rfl | rfl | rfl | rfl
  · decide
  · decide
  · decide
  · decide
  · decide
  · exact absurd hlt (by decide)

end NoteWrapperValid

section NoteWrapperColumns

/-- The column count of the inner loop is the column total of the bytes it
consumed. -/
theorem scanLine_columns (mbtowc : CStr → Int × Int) (wcwidth : Int → Int) (text : CStr)
    (w : Int) (fuel : Nat) (st r : LineScan)
    (h : scanLine mbtowc wcwidth text w fuel st = some r) :
    ∀ n, r.temp_ptr - st.temp_ptr + 1 ≤ n →
      r.current_visual_width
        = st.current_visual_width + lineColumns mbtowc wcwidth text n st.temp_ptr r.temp_ptr := by
  have hcount : ∀ fuel st r, scanLine mbtowc wcwidth text w fuel st = some r →
      st.temp_ptr ≤ r.temp_ptr := by
    intro fuel st r h
    have := scanLine_counts mbtowc wcwidth text w fuel st r h
    omega
  revert h
  revert r st fuel
  intro fuel
  induction fuel with
  | zero => intro st r h; simp [scanLine] at h
  | succ k ih =>
    intro st r h n hn
    obtain ⟨m, rfl⟩ : ∃ m, n = m + 1 := ⟨n - 1, by omega⟩
    rw [scanLine_succ] at h
    by_cases hc : byteAt text st.temp_ptr ≠ 0 ∧ byteAt text st.temp_ptr ≠ NEWLINE
    · rw [if_pos hc] at h
      by_cases hle : (mbtowc (text.drop st.temp_ptr)).1 ≤ 0
      · rw [if_pos hle] at h
        have hcond : ¬ (st.temp_ptr < r.temp_ptr ∧ 0 < (mbtowc (text.drop st.temp_ptr)).1) :=
          fun hcon => by omega
        by_cases hlt : (mbtowc (text.drop st.temp_ptr)).1 < 0
        · rw [if_pos hlt] at h
          rw [lineColumns, if_neg hcond, ← Option.some.inj h]
          simp
        · rw [if_neg hlt] at h
          rw [lineColumns, if_neg hcond, ← Option.some.inj h]
          simp
      · rw [if_neg hle] at h
        by_cases hw : st.current_visual_width + charWidthAt mbtowc wcwidth text st.temp_ptr > w
        · rw [if_pos hw] at h
          cases h
          rw [lineColumns, if_neg (by omega)]
          simp
        · rw [if_neg hw] at h
          have hmono := hcount _ _ _ h
          simp only at hmono
          have := ih _ r h m (by simp only; omega)
          simp only at this
          rw [lineColumns, if_pos ⟨by omega, by omega⟩, this]
          ring
    · rw [if_neg hc] at h
      cases h
      rw [lineColumns, if_neg (by omega)]
      simp

/-- The column total of a row is the column total of the bytes of its line. -/
theorem wrapIteration_columns (mbtowc : CStr → Int × Int) (wcwidth : Int → Int) (text : CStr)
    (w : Int) (p : Nat) (y : Int) (row : NoteRow)
    (h : wrapIteration mbtowc wcwidth text w p y = some row) :
    row.current_visual_width
      = lineColumns mbtowc wcwidth text (row.bytes_to_print_this_line + 1) row.line_start
          (row.line_start + row.bytes_to_print_this_line) := by
  obtain ⟨sc, hsc, hrow⟩ := wrapIteration_returns mbtowc wcwidth text w p y
  rw [hrow] at h
  have e1 : row.line_start = p := by rw [← Option.some.inj h]
  have e2 : row.bytes_to_print_this_line = sc.bytes_to_print_this_line := by
    rw [← Option.some.inj h]
  have e4 : row.current_visual_width = sc.current_visual_width := by
    rw [← Option.some.inj h]
  have hc := (scanLine_counts mbtowc wcwidth text w _ _ _ hsc).2.1
  simp only [Nat.sub_zero] at hc
  have := scanLine_columns mbtowc wcwidth text w _ _ _ hsc (sc.bytes_to_print_this_line + 1)
    (by simp only; omega)
  simp only [Int.zero_add] at this
  rw [e1, e2, e4, this, hc]

end NoteWrapperColumns

section NoteWrapperMalformed

/-- How the inner loop is left, for any decoder: in front of the terminator, of
a line break, of a byte for which the decoder answers 0 or of a character that
does not fit, with all bytes before decoded as characters; or right after a
byte at which decoding failed, which it counted as the last byte. -/
theorem scanLine_exit (mbtowc : CStr → Int × Int) (wcwidth : Int → Int) (text : CStr)
    (w : Int) (fuel : Nat) (st r : LineScan)
    (h : scanLine mbtowc wcwidth text w fuel st = some r) :
    (byteAt text r.temp_ptr = 0 ∨ byteAt text r.temp_ptr = NEWLINE
      ∨ (mbtowc (text.drop r.temp_ptr)).1 = 0
      ∨ (0 < (mbtowc (text.drop r.temp_ptr)).1
        ∧ r.current_visual_width + charWidthAt mbtowc wcwidth text r.temp_ptr > w))
    ∨ (st.bytes_to_print_this_line + 1 ≤ r.bytes_to_print_this_line
      ∧ st.temp_ptr + 1 ≤ r.temp_ptr
      ∧ (mbtowc (text.drop (r.temp_ptr - 1))).1 < 0
      ∧ byteAt text (r.temp_ptr - 1) ≠ 0 ∧ byteAt text (r.temp_ptr - 1) ≠ NEWLINE) := by
  refine scanLine_rec mbtowc wcwidth text w
    (fun st r =>
      (byteAt text r.temp_ptr = 0 ∨ byteAt text r.temp_ptr = NEWLINE
        ∨ (mbtowc (text.drop r.temp_ptr)).1 = 0
        ∨ (0 < (mbtowc (text.drop r.temp_ptr)).1
          ∧ r.current_visual_width + charWidthAt mbtowc wcwidth text r.temp_ptr > w))
      ∨ (st.bytes_to_print_this_line + 1 ≤ r.bytes_to_print_this_line
        ∧ st.temp_ptr + 1 ≤ r.temp_ptr
        ∧ (mbtowc (text.drop (r.temp_ptr - 1))).1 < 0
        ∧ byteAt text (r.temp_ptr - 1) ≠ 0 ∧ byteAt text (r.temp_ptr - 1) ≠ NEWLINE))
    ?_ ?_ ?_ ?_ ?_ fuel st r h
  · intro st hc
    left
    by_cases h0 : byteAt text st.temp_ptr = 0
    · exact Or.inl h0
    · by_cases hnl : byteAt text st.temp_ptr = NEWLINE
      · exact Or.inr (Or.inl hnl)
      · exact absurd ⟨h0, hnl⟩ hc
  · intro st _ _ hz
    exact Or.inl (Or.inr (Or.inr (Or.inl hz)))
  · intro st hne hnl hbad
    right
    simp only [Nat.add_sub_cancel]
    exact ⟨le_refl _, le_refl _, hbad, hne, hnl⟩
  · intro st _ _ hpos hw
    exact Or.inl (Or.inr (Or.inr (Or.inr ⟨hpos, hw⟩)))
  · intro st r _ _ _ _ ih
    rcases ih with ih | ⟨h1, h2, h3⟩
    · exact Or.inl ih
    · simp only at h1 h2
      exact Or.inr ⟨by omega, by omega, h3⟩

/-- A row that starts at a byte at which decoding fails: its line is that byte
alone. -/
theorem wrapIteration_malformed_start (mbtowc : CStr → Int × Int) (wcwidth : Int → Int)
    (text : CStr) (w : Int) (p : Nat) (y : Int) (row : NoteRow)
    (h : wrapIteration mbtowc wcwidth text w p y = some row)
    (hne : byteAt text p ≠ 0) (hnl : byteAt text p ≠ NEWLINE)
    (hbad : (mbtowc (text.drop p)).1 < 0) :
    row.bytes_to_print_this_line = 1 ∧ row.current_visual_width = 0
    ∧ row.line text = [byteAt text p]
    ∧ (row.next_ptr = p + 1 ∨ (byteAt text (p + 1) = NEWLINE ∧ row.next_ptr = p + 2)) := by
  have hp := byteAt_lt text p hne
  have hsc : scanLine mbtowc wcwidth text w (text.length + 1)
      { temp_ptr := p, bytes_to_print_this_line := 0, current_visual_width := 0 }
      = some { temp_ptr := p + 1, bytes_to_print_this_line := 1, current_visual_width := 0 } := by
    rw [scanLine_succ]
    simp only [hne, hnl, ne_eq, not_false_eq_true, and_self, if_true, le_of_lt hbad, hbad,
      Nat.zero_add]
  simp only [wrapIteration, hsc] at h
  have e := Option.some.inj h
  subst e
  refine ⟨rfl, rfl, ?_, ?_⟩
  · simp only [NoteRow.line, byteAt]
    rw [List.take_one_drop_eq_of_lt_length hp, List.getD_eq_getElem _ _ hp]
    rfl
  · simp only
    split_ifs with h1 h2
    · exact Or.inr ⟨h1, rfl⟩
    · exact absurd h2.1 (by decide)
    · exact Or.inl rfl

end NoteWrapperMalformed

section NoteWrapperPane

/-- The width of the notes is at least 1, and at least 22 whenever the pane
draws the fields (the early return of line 1367 is not taken). -/
theorem notes_available_width_in_pane (pane_content_width : Int) :
    1 ≤ notes_available_width pane_content_width
    ∧ (detailPaneDrawsFields pane_content_width = true →
        notes_available_width pane_content_width = pane_content_width - 2
        ∧ 22 ≤ notes_available_width pane_content_width) := by
  simp only [notes_available_width, detailPaneDrawsFields, DETAIL_LABEL_WIDTH,
    Bool.not_eq_true', decide_eq_false_iff_not]
  refine ⟨by split_ifs <;> omega, fun h => ?_⟩
  split_ifs <;> omega

/-- With a width function that answers at most 2, no character is wider than
the width of the notes in a pane that draws the fields. -/
theorem fitsWidth_in_pane (mbtowc : CStr → Int × Int) (wcwidth : Int → Int) (text : CStr)
    (pane_content_width : Int) (hwc : ∀ wch, wcwidth wch ≤ 2)
    (h : detailPaneDrawsFields pane_content_width = true) :
    FitsWidth mbtowc wcwidth text (notes_available_width pane_content_width) := by
  intro p _ _
  have h22 := ((notes_available_width_in_pane pane_content_width).2 h).2
  have := hwc (mbtowc (text.drop p)).2
  simp only [charWidthAt]
  split_ifs <;> omega

end NoteWrapperPane

section NoteWrapperWidths

theorem sample_wcwidth_le_two (wch : Int) : sample_wcwidth wch ≤ 2 := by
  simp only [sample_wcwidth]
  split_ifs <;> omega

/-- With a width function that answers at most 2, no character is wider than a
width of 2 or more. -/
theorem fitsWidth_of_two_le (mbtowc : CStr → Int × Int) (wcwidth : Int → Int) (text : CStr)
    (w : Int) (hw : 2 ≤ w) (hwc : ∀ wch, wcwidth wch ≤ 2) :
    FitsWidth mbtowc wcwidth text w := by
  intro p _ _
  have := hwc (mbtowc (text.drop p)).2
  simp only [charWidthAt]
  split_ifs <;> omega

/-- The rows of a validly encoded text none of whose characters is wider than
the width advance by whole characters and are greedy, and the column total of
each is the column total of the bytes of its line. -/
theorem drawNotes_valid (mbtowc : CStr → Int × Int) (wcwidth : Int → Int) (text : CStr)
    (w y y_limit : Int) (hvalid : ValidlyEncoded mbtowc text)
    (hfits : FitsWidth mbtowc wcwidth text w) :
    ∃ rows q, drawNotes mbtowc wcwidth text w y y_limit = some (rows, q)
      ∧ CharBoundary mbtowc text q
      ∧ ∀ row ∈ rows,
        WholeCharacters mbtowc text row
        ∧ row.current_visual_width
            = lineColumns mbtowc wcwidth text (row.bytes_to_print_this_line + 1)
                row.line_start (row.line_start + row.bytes_to_print_this_line)
        ∧ GreedyLine mbtowc wcwidth text w row := by
  obtain ⟨rows, q, hrun, _⟩ := wrapNotes_returns mbtowc wcwidth text
    w y_limit (text.length + 1) 0 y (by omega)
  obtain ⟨hq, hall⟩ := wrapNotes_valid mbtowc wcwidth text w y_limit
    hvalid hfits _ _ _ _ _ hrun CharBoundary.start
  have hrows := (wrapNotes_rows mbtowc wcwidth text w y_limit _ _ _ _ _ hrun).2.2.1
  refine ⟨rows, q, hrun, hq, fun row hr => ?_⟩
  obtain ⟨a, b, c, d, e⟩ := hall row hr
  exact ⟨⟨a, b, c, d⟩,
    wrapIteration_columns mbtowc wcwidth text w _ _ _ (hrows row hr).2.2.2.2.2.2, e⟩

/-- Below the width of a character the wrapper advances by bytes: at the width
1, which the pane never passes (`notes_available_width_in_pane`), the first byte
of the wide character U+4E2D is skipped and its other two bytes are the lines
of the next two rows. -/
theorem wide_character_at_width_one :
    ¬ FitsWidth utf8_mbtowc sample_wcwidth note_wide 1
    ∧ drawNotes utf8_mbtowc sample_wcwidth note_wide 1 0 3
        = some ([(⟨0, 0, 0, 0, 1⟩ : NoteRow), (⟨1, 1, 1, 0, 2⟩ : NoteRow),
            (⟨2, 2, 1, 0, 3⟩ : NoteRow)], 3) :=
  ⟨fun h => absurd (h 0 CharBoundary.start (by decide)) (by decide), by decide⟩

end NoteWrapperWidths

section NoteWrapperMalformedScan

theorem decodedFrom_le (mbtowc : CStr → Int × Int) (text : CStr) (s q : Nat)
    (h : DecodedFrom mbtowc text s q) : s ≤ q := by
  induction h with
  | start => exact le_refl _
  | next p _ _ ih => omega

/-- A position decoded from `s` is `s` itself or is decoded from the end of the
character found at `s`. -/
theorem decodedFrom_inv (mbtowc : CStr → Int × Int) (text : CStr) (s q : Nat)
    (h : DecodedFrom mbtowc text s q) :
    q = s ∨ (0 < (mbtowc (text.drop s)).1
      ∧ DecodedFrom mbtowc text (s + (mbtowc (text.drop s)).1.toNat) q) := by
  induction h with
  | start => exact Or.inl rfl
  | next p _ hpos ih =>
    rcases ih with rfl | ⟨h0, hd⟩
    · exact Or.inr ⟨hpos, DecodedFrom.start⟩
    · exact Or.inr ⟨h0, DecodedFrom.next p hd hpos⟩

/-- The inner loop and a byte at which decoding fails: when the decoder, walking
from the loop head, arrives at such a byte not beyond the exit, that byte is the
last one the loop counted.  The loop never stops in front of it. -/
theorem scanLine_malformed (mbtowc : CStr → Int × Int) (wcwidth : Int → Int) (text : CStr)
    (w : Int) (fuel : Nat) (st r : LineScan)
    (h : scanLine mbtowc wcwidth text w fuel st = some r) :
    ∀ q, DecodedFrom mbtowc text st.temp_ptr q → byteAt text q ≠ 0 →
      byteAt text q ≠ NEWLINE → (mbtowc (text.drop q)).1 < 0 → q ≤ r.temp_ptr →
      q + 1 = r.temp_ptr := by
  refine scanLine_rec mbtowc wcwidth text w
    (fun st r => ∀ q, DecodedFrom mbtowc text st.temp_ptr q → byteAt text q ≠ 0 →
      byteAt text q ≠ NEWLINE → (mbtowc (text.drop q)).1 < 0 → q ≤ r.temp_ptr →
      q + 1 = r.temp_ptr)
    ?_ ?_ ?_ ?_ ?_ fuel st r h
  · intro st hc q hd h0 hnl _ hle
    have := decodedFrom_le mbtowc text _ _ hd
    have hq : q = st.temp_ptr := by omega
    subst hq
    exact absurd ⟨h0, hnl⟩ hc
  · intro st _ _ hz q hd _ _ hbad hle
    have := decodedFrom_le mbtowc text _ _ hd
    have hq : q = st.temp_ptr := by omega
    subst hq
    omega
  · intro st _ _ hb q hd _ _ _ _
    rcases decodedFrom_inv mbtowc text _ _ hd with hq | ⟨hpos, _⟩
    · simp only [hq]
    · omega
  · intro st _ _ hpos _ q hd _ _ hbad hle
    have := decodedFrom_le mbtowc text _ _ hd
    have hq : q = st.temp_ptr := by omega
    subst hq
    omega
  · intro st r _ _ hpos _ ih q hd h0 hnl hbad hle
    rcases decodedFrom_inv mbtowc text _ _ hd with hq | ⟨_, hd2⟩
    · subst hq
      omega
    · exact ih q hd2 h0 hnl hbad hle

/-- A row and a byte at which decoding fails: when the decoder, walking from
the start of the row, arrives at such a byte within the line or right after it,
the byte is the last byte of the line and the cursor moves to the byte after
it, past a line break that follows it. -/
theorem wrapIteration_malformed (mbtowc : CStr → Int × Int) (wcwidth : Int → Int)
    (text : CStr) (w : Int) (p : Nat) (y : Int) (row : NoteRow)
    (h : wrapIteration mbtowc wcwidth text w p y = some row) (q : Nat)
    (hd : DecodedFrom mbtowc text p q) (h0 : byteAt text q ≠ 0)
    (hnl : byteAt text q ≠ NEWLINE) (hbad : (mbtowc (text.drop q)).1 < 0)
    (hle : q ≤ p + row.bytes_to_print_this_line) :
    q + 1 = p + row.bytes_to_print_this_line
    ∧ row.line text = (text.drop p).take (q - p) ++ [byteAt text q]
    ∧ (row.next_ptr = q + 1 ∨ (byteAt text (q + 1) = NEWLINE ∧ row.next_ptr = q + 2)) := by
  obtain ⟨sc, hsc, hrow⟩ := wrapIteration_returns mbtowc wcwidth text w p y
  rw [hrow] at h
  have e1 : row.line_start = p := by rw [← Option.some.inj h]
  have e2 : row.bytes_to_print_this_line = sc.bytes_to_print_this_line := by
    rw [← Option.some.inj h]
  have e3 : row.next_ptr =
      if byteAt text (p + sc.bytes_to_print_this_line) = NEWLINE then
        p + sc.bytes_to_print_this_line + 1
      else if sc.bytes_to_print_this_line = 0
          ∧ byteAt text (p + sc.bytes_to_print_this_line) ≠ 0 then
        p + sc.bytes_to_print_this_line + 1
      else p + sc.bytes_to_print_this_line := by
    rw [← Option.some.inj h]
  have hc := (scanLine_counts mbtowc wcwidth text w _ _ _ hsc).2.1
  simp only [Nat.sub_zero] at hc
  have hpq := decodedFrom_le mbtowc text _ _ hd
  have hq := scanLine_malformed mbtowc wcwidth text w _ _ _ hsc q hd h0 hnl hbad
    (by rw [hc, ← e2]; exact hle)
  rw [hc] at hq
  have hqlt := byteAt_lt text q h0
  refine ⟨by rw [e2]; exact hq, ?_, ?_⟩
  · simp only [NoteRow.line, e1, e2]
    have hb : sc.bytes_to_print_this_line = (q - p) + 1 := by omega
    rw [hb, List.take_succ]
    congr 1
    have hidx : (text.drop p)[q - p]? = some (byteAt text q) := by
      rw [List.getElem?_drop, show p + (q - p) = q by omega]
      simp [byteAt, List.getElem?_eq_getElem hqlt]
    rw [hidx]
    rfl
  · rw [e3, ← hq]
    by_cases hn : byteAt text (q + 1) = NEWLINE
    · rw [if_pos hn]
      exact Or.inr ⟨hn, rfl⟩
    · rw [if_neg hn, if_neg (by omega)]
      exact Or.inl rfl

end NoteWrapperMalformedScan

/-! ## The claims about the detail cache and the NoteWrapper -/

/-- C21. The detail cache is never stale: in every run of the loop from the
initial state on a non-empty result set, at every redraw with a selection the
record handed to the detail pane is the outcome (the answer of the store, or
the error placeholder) of a fetch for the identifier of the selected summary
that was made after the most recent selection change, edit or successful
delete. -/
theorem detail_cache_never_stale (a : InteractiveListAction) (items : List ClientListItem)
    (total_items : Int) (uninit : Client) (inputs : List Input) (hlen : total_items > 0) :
    NeverStale a inputs (initialState items total_items uninit) none := by
  apply neverStale_of_invariant
  · simp only [initialState]
    omega
  · intro _ hc
    exfalso
    simp [detailFetchCalls, initialState, hlen] at hc

theorem detail_cache_never_stale_witness :
    (5 : Int) > 0
    ∧ NeverStale INTERACTIVE_LIST_ACTION_DELETE
        [keyInput 8 OTHER sampleFetch sampleEnv, keyInput 8 KEY_NAV_DOWN sampleFetch sampleEnv,
          keyInput 8 KEY_ACTION_DELETE (fun _ => none) sampleEnv,
          keyInput 8 KEY_RESIZE sampleFetch sampleEnv]
        (initialState sampleItems 5 zeroClient) none :=
  ⟨by decide, detail_cache_never_stale INTERACTIVE_LIST_ACTION_DELETE sampleItems 5 zeroClient
    _ (by decide)⟩

/-- C22. NoteWrapper never stalls, whatever the decoder and the width function
answer and whatever the width is: from every cursor position where the text
has not ended one iteration of the outer loop yields its row and moves the
cursor by at least one byte (and over the line and at most one byte more), and
the loop over a whole text returns after at most as many iterations as the
text has bytes, each of which moved the cursor by at least one byte. -/
theorem note_wrapper_never_stalls (mbtowc : CStr → Int × Int) (wcwidth : Int → Int)
    (text : CStr) (notes_available_width : Int) :
    (∀ notes_ptr y, byteAt text notes_ptr ≠ 0 →
      ∃ row, wrapIteration mbtowc wcwidth text notes_available_width notes_ptr y = some row
        ∧ row.line_start = notes_ptr ∧ notes_ptr + 1 ≤ row.next_ptr
        ∧ row.next_ptr ≤ notes_ptr + row.bytes_to_print_this_line + 1)
    ∧ (∀ y y_limit, ∃ rows q,
        drawNotes mbtowc wcwidth text notes_available_width y y_limit = some (rows, q)
        ∧ rows.length ≤ text.length
        ∧ Chained 0 rows q
        ∧ ∀ row ∈ rows, row.line_start + 1 ≤ row.next_ptr) := by
  constructor
  · intro p y hne
    obtain ⟨sc, _, hrow⟩ := wrapIteration_returns mbtowc wcwidth text notes_available_width p y
    obtain ⟨_, hls, hnext, hadv⟩ :=
      wrapIteration_frame mbtowc wcwidth text notes_available_width p y _ hrow
    exact ⟨_, hrow, hls, hadv hne, by omega⟩
  · intro y y_limit
    obtain ⟨rows, q, hrun, hlen⟩ := wrapNotes_returns mbtowc wcwidth text
      notes_available_width y_limit (text.length + 1) 0 y (by omega)
    have hrows := wrapNotes_rows mbtowc wcwidth text notes_available_width y_limit _ _ _ _ _ hrun
    exact ⟨rows, q, hrun, by omega, hrows.1, fun row hr => (hrows.2.2.1 row hr).2.1⟩

theorem note_wrapper_never_stalls_witness :
    byteAt note_invalid_ab 0 ≠ 0
    ∧ (∃ row, wrapIteration utf8_mbtowc sample_wcwidth note_invalid_ab 1 0 0 = some row
        ∧ row.line_start = 0 ∧ 0 + 1 ≤ row.next_ptr
        ∧ row.next_ptr ≤ 0 + row.bytes_to_print_this_line + 1)
    ∧ ∃ rows q, drawNotes utf8_mbtowc sample_wcwidth note_invalid_ab 1 0 3 = some (rows, q)
        ∧ rows.length ≤ note_invalid_ab.length
        ∧ Chained 0 rows q
        ∧ ∀ row ∈ rows, row.line_start + 1 ≤ row.next_ptr :=
  ⟨by decide,
    (note_wrapper_never_stalls utf8_mbtowc sample_wcwidth note_invalid_ab 1).1 0 0 (by decide),
    (note_wrapper_never_stalls utf8_mbtowc sample_wcwidth note_invalid_ab 1).2 0 3⟩

/-- C23. NoteWrapper consumes exactly the input.  For a text without a NUL
byte, a decoder that reports no character reaching beyond the terminator, and
any width and pane: the loop returns; the rows are chained from the start of
the text to the final cursor, each consuming its line and at most one byte more
(the line break or a skipped byte), so the bytes consumed by the rows add up to
the final cursor position, which is never beyond the terminator; and when the
pane has enough rows (the loop did not stop at the last row of the pane, or
there is a row for every byte) the final cursor is exactly at the terminator
and the total is the length of the text.  In a pane with a free row a non-empty
text yields at least one row, and when decoding fails at its first byte the
first row has a line of at least one byte. -/
theorem note_wrapper_consumes_input (mbtowc : CStr → Int × Int) (wcwidth : Int → Int)
    (text : CStr) (notes_available_width y y_limit : Int)
    (hnul : 0 ∉ text) (hdec : DecoderInBounds mbtowc text) :
    ∃ rows q, drawNotes mbtowc wcwidth text notes_available_width y y_limit = some (rows, q)
      ∧ Chained 0 rows q ∧ q ≤ text.length
      ∧ (∀ row ∈ rows, row.line_start + row.bytes_to_print_this_line ≤ row.next_ptr
          ∧ row.line_start + 1 ≤ row.next_ptr ∧ row.next_ptr ≤ q)
      ∧ (rows.map (fun row => row.next_ptr - row.line_start)).sum = q
      ∧ (y + rows.length < y_limit ∨ y + text.length ≤ y_limit → q = text.length)
      ∧ (y < y_limit → text ≠ [] → rows ≠ [])
      ∧ (y < y_limit → (mbtowc text).1 < 0 → byteAt text 0 ≠ NEWLINE → text ≠ [] →
          ∃ row rest, rows = row :: rest ∧ row.line_start = 0
            ∧ 1 ≤ row.bytes_to_print_this_line) := by
  obtain ⟨rows, q, hrun, hlen⟩ := wrapNotes_returns mbtowc wcwidth text
    notes_available_width y_limit (text.length + 1) 0 y (by omega)
  obtain ⟨hch, _, hall, hend⟩ :=
    wrapNotes_rows mbtowc wcwidth text notes_available_width y_limit _ _ _ _ _ hrun
  have hq := wrapNotes_in_bounds mbtowc wcwidth text notes_available_width y_limit hdec
    _ _ _ _ _ hrun (Nat.zero_le _)
  have hcl := chained_length rows 0 q hch (fun row hr => (hall row hr).2.1)
  have hsum := chained_sum rows 0 _ hch
  have hne : y < y_limit → text ≠ [] → rows ≠ [] := by
    intro hy ht hr
    subst hr
    simp only [Chained] at hch
    subst hch
    exact hend ⟨byteAt_ne_zero text hnul 0 (List.length_pos.2 ht), by simpa using hy⟩
  refine ⟨rows, q, hrun, hch, hq, ?_, by omega, ?_, hne, ?_⟩
  · intro row hr
    obtain ⟨_, hadv, _, hle, _, _, hrow⟩ := hall row hr
    obtain ⟨_, _, hnext, _⟩ :=
      wrapIteration_frame mbtowc wcwidth text notes_available_width _ _ _ hrow
    exact ⟨by omega, hadv, hle⟩
  · intro hfree
    by_contra hqne
    have hlt : q < text.length := by omega
    exact hend ⟨byteAt_ne_zero text hnul q hlt, by omega⟩
  · intro hy hbad hnl ht
    cases rows with
    | nil => exact absurd rfl (hne hy ht)
    | cons row rest =>
      obtain ⟨hls, _, _⟩ := hch
      refine ⟨row, rest, rfl, hls, ?_⟩
      obtain ⟨_, _, _, _, _, _, hrow⟩ := hall row (List.mem_cons_self _ _)
      rw [hls] at hrow
      obtain ⟨sc, hsc, hrow2⟩ :=
        wrapIteration_returns mbtowc wcwidth text notes_available_width 0 row.y
      rw [hrow2] at hrow
      have hb : row.bytes_to_print_this_line = sc.bytes_to_print_this_line := by
        rw [← Option.some.inj hrow]
      rw [hb]
      have h0 : byteAt text 0 ≠ 0 :=
        byteAt_ne_zero text hnul 0 (List.length_pos.2 ht)
      rw [scanLine_succ] at hsc
      simp only [List.drop_zero, h0, hnl, ne_eq, not_false_eq_true, and_self, if_true,
        le_of_lt hbad, hbad, Option.some.injEq] at hsc
      rw [← hsc]

theorem note_wrapper_consumes_input_witness :
    0 ∉ note_invalid_ab ∧ DecoderInBounds utf8_mbtowc note_invalid_ab
    ∧ ∃ rows q, drawNotes utf8_mbtowc sample_wcwidth note_invalid_ab 10 0 3 = some (rows, q)
      ∧ Chained 0 rows q ∧ q ≤ note_invalid_ab.length
      ∧ (∀ row ∈ rows, row.line_start + row.bytes_to_print_this_line ≤ row.next_ptr
          ∧ row.line_start + 1 ≤ row.next_ptr ∧ row.next_ptr ≤ q)
      ∧ (rows.map (fun row => row.next_ptr - row.line_start)).sum = q
      ∧ ((0 : Int) + rows.length < 3 ∨ (0 : Int) + note_invalid_ab.length ≤ 3 →
          q = note_invalid_ab.length)
      ∧ ((0 : Int) < 3 → note_invalid_ab ≠ [] → rows ≠ [])
      ∧ ((0 : Int) < 3 → (utf8_mbtowc note_invalid_ab).1 < 0 →
          byteAt note_invalid_ab 0 ≠ NEWLINE → note_invalid_ab ≠ [] →
          ∃ row rest, rows = row :: rest ∧ row.line_start = 0
            ∧ 1 ≤ row.bytes_to_print_this_line) :=
  ⟨by decide, by decide,
    note_wrapper_consumes_input utf8_mbtowc sample_wcwidth note_invalid_ab 10 0 3
      (by decide) (by decide)⟩

/-- C24. An explicit line break ends the line, is consumed and is not counted.
The inner loop stops at a line-break byte with its byte count and column total
unchanged.  For a decoder that reports no character with a line-break byte
after its first byte, in every row of a run: no byte of the line is a line
break; a line break right after the line is consumed with it; a line break
anywhere in the bytes the row consumed is that byte right after the line; and
the column total of the row is the column total of the bytes of its line alone.
Wrapping `ab\ncd` at width 10 in a pane with two free rows yields exactly two
rows, whose lines are `ab` and `cd`, of two columns each. -/
theorem line_break_ends_the_line (mbtowc : CStr → Int × Int) (wcwidth : Int → Int)
    (text : CStr) (notes_available_width : Int)
    (hkeep : DecoderKeepsLineBreaks mbtowc text) :
    (∀ fuel st, byteAt text st.temp_ptr = NEWLINE →
      scanLine mbtowc wcwidth text notes_available_width (fuel + 1) st = some st)
    ∧ (∀ y y_limit, ∃ rows q,
        drawNotes mbtowc wcwidth text notes_available_width y y_limit = some (rows, q)
        ∧ ∀ row ∈ rows,
          NEWLINE ∉ row.line text
          ∧ (byteAt text (row.line_start + row.bytes_to_print_this_line) = NEWLINE →
              row.next_ptr = row.line_start + row.bytes_to_print_this_line + 1)
          ∧ (∀ e, byteAt text e = NEWLINE → row.line_start ≤ e → e < row.next_ptr →
              e = row.line_start + row.bytes_to_print_this_line ∧ row.next_ptr = e + 1)
          ∧ row.current_visual_width
              = lineColumns mbtowc wcwidth text (row.bytes_to_print_this_line + 1)
                  row.line_start (row.line_start + row.bytes_to_print_this_line))
    ∧ (∀ y y_limit : Int, y + 2 ≤ y_limit →
        drawNotes utf8_mbtowc sample_wcwidth note_ab_cd 10 y y_limit
          = some ([(⟨y, 0, 2, 2, 3⟩ : NoteRow), (⟨y + 1, 3, 2, 2, 5⟩ : NoteRow)], 5)
        ∧ NoteRow.line note_ab_cd (⟨y, 0, 2, 2, 3⟩ : NoteRow) = [97, 98]
        ∧ NoteRow.line note_ab_cd (⟨y + 1, 3, 2, 2, 5⟩ : NoteRow) = [99, 100]) := by
  refine ⟨?_, ?_, ?_⟩
  · intro fuel st hnl
    rw [scanLine_succ, if_neg (by simp [hnl])]
  · intro y y_limit
    obtain ⟨rows, q, hrun, _⟩ := wrapNotes_returns mbtowc wcwidth text
      notes_available_width y_limit (text.length + 1) 0 y (by omega)
    refine ⟨rows, q, hrun, fun row hr => ?_⟩
    obtain ⟨_, _, _, _, _, _, hrow⟩ :=
      (wrapNotes_rows mbtowc wcwidth text notes_available_width y_limit _ _ _ _ _ hrun).2.2.1
        row hr
    obtain ⟨h1, h2, h3⟩ :=
      wrapIteration_line_break mbtowc wcwidth text notes_available_width hkeep _ _ _ hrow
    exact ⟨h1, h2, h3,
      wrapIteration_columns mbtowc wcwidth text notes_available_width _ _ _ hrow⟩
  · intro y y_limit hy
    have w1 : wrapIteration utf8_mbtowc sample_wcwidth note_ab_cd 10 0 y
        = some (⟨y, 0, 2, 2, 3⟩ : NoteRow) := rfl
    have w2 : wrapIteration utf8_mbtowc sample_wcwidth note_ab_cd 10 3 (y + 1)
        = some (⟨y + 1, 3, 2, 2, 5⟩ : NoteRow) := rfl
    have b0 : byteAt note_ab_cd 0 ≠ 0 := by decide
    have b3 : byteAt note_ab_cd 3 ≠ 0 := by decide
    have b5 : ¬ (byteAt note_ab_cd 5 ≠ 0 ∧ y + 1 + 1 < y_limit) := fun h => h.1 (by decide)
    refine ⟨?_, rfl, rfl⟩
    have e0 : drawNotes utf8_mbtowc sample_wcwidth note_ab_cd 10 y y_limit
        = wrapNotes utf8_mbtowc sample_wcwidth note_ab_cd 10 y_limit (5 + 1) 0 y := rfl
    rw [e0, wrapNotes, if_pos ⟨b0, by omega⟩, w1]
    simp only
    rw [show (5 : Nat) = 4 + 1 from rfl, wrapNotes, if_pos ⟨b3, by omega⟩, w2]
    simp only
    rw [show (4 : Nat) = 3 + 1 from rfl, wrapNotes, if_neg b5]

theorem line_break_ends_the_line_witness :
    DecoderKeepsLineBreaks utf8_mbtowc note_ab_cd
    ∧ (∃ rows q, drawNotes utf8_mbtowc sample_wcwidth note_ab_cd 10 0 2 = some (rows, q)
        ∧ ∀ row ∈ rows,
          NEWLINE ∉ row.line note_ab_cd
          ∧ (byteAt note_ab_cd (row.line_start + row.bytes_to_print_this_line) = NEWLINE →
              row.next_ptr = row.line_start + row.bytes_to_print_this_line + 1)
          ∧ (∀ e, byteAt note_ab_cd e = NEWLINE → row.line_start ≤ e → e < row.next_ptr →
              e = row.line_start + row.bytes_to_print_this_line ∧ row.next_ptr = e + 1)
          ∧ row.current_visual_width
              = lineColumns utf8_mbtowc sample_wcwidth note_ab_cd
                  (row.bytes_to_print_this_line + 1) row.line_start
                  (row.line_start + row.bytes_to_print_this_line))
    ∧ (drawNotes utf8_mbtowc sample_wcwidth note_ab_cd 10 0 2
          = some ([(⟨0, 0, 2, 2, 3⟩ : NoteRow), (⟨0 + 1, 3, 2, 2, 5⟩ : NoteRow)], 5)
        ∧ NoteRow.line note_ab_cd (⟨0, 0, 2, 2, 3⟩ : NoteRow) = [97, 98]
        ∧ NoteRow.line note_ab_cd (⟨0 + 1, 3, 2, 2, 5⟩ : NoteRow) = [99, 100]) :=
  ⟨by decide,
    (line_break_ends_the_line utf8_mbtowc sample_wcwidth note_ab_cd 10 (by decide)).2.1 0 2,
    (line_break_ends_the_line utf8_mbtowc sample_wcwidth note_ab_cd 10 (by decide)).2.2 0 2
      (by decide)⟩

/-- C25. Greedy width-bounded lines.  For every validly encoded text, each
character counted with its `wcwidth`, a negative one as 1: at every width at
which each character of the text fits, the loop returns its rows, and for every
row the column total is the column total of the bytes of its line, it is at
most the width, and when the line ends neither at a line break nor at the end
of the text it ends in front of a character whose width added to the column
total exceeds the width.  This is so at every width the pane passes to the
loop: with a width function that answers at most 2, in a pane that draws the
fields the width is at least 22 and every row has these properties. -/
theorem lines_are_greedy (mbtowc : CStr → Int × Int) (wcwidth : Int → Int) (text : CStr)
    (y y_limit : Int) (hvalid : ValidlyEncoded mbtowc text) :
    (∀ w, FitsWidth mbtowc wcwidth text w →
      ∃ rows q, drawNotes mbtowc wcwidth text w y y_limit = some (rows, q)
        ∧ ∀ row ∈ rows,
          row.current_visual_width
              = lineColumns mbtowc wcwidth text (row.bytes_to_print_this_line + 1)
                  row.line_start (row.line_start + row.bytes_to_print_this_line)
          ∧ GreedyLine mbtowc wcwidth text w row)
    ∧ (∀ pane_content_width, (∀ wch, wcwidth wch ≤ 2) →
        detailPaneDrawsFields pane_content_width = true →
        22 ≤ notes_available_width pane_content_width
        ∧ ∃ rows q, drawNotes mbtowc wcwidth text (notes_available_width pane_content_width)
              y y_limit = some (rows, q)
          ∧ ∀ row ∈ rows,
            row.current_visual_width
                = lineColumns mbtowc wcwidth text (row.bytes_to_print_this_line + 1)
                    row.line_start (row.line_start + row.bytes_to_print_this_line)
            ∧ GreedyLine mbtowc wcwidth text (notes_available_width pane_content_width)
                row) := by
  have hgen : ∀ w, FitsWidth mbtowc wcwidth text w →
      ∃ rows q, drawNotes mbtowc wcwidth text w y y_limit = some (rows, q)
        ∧ ∀ row ∈ rows,
          row.current_visual_width
              = lineColumns mbtowc wcwidth text (row.bytes_to_print_this_line + 1)
                  row.line_start (row.line_start + row.bytes_to_print_this_line)
          ∧ GreedyLine mbtowc wcwidth text w row := by
    intro w hfits
    obtain ⟨rows, q, hrun, _, hall⟩ :=
      drawNotes_valid mbtowc wcwidth text w y y_limit hvalid hfits
    exact ⟨rows, q, hrun, fun row hr => (hall row hr).2⟩
  refine ⟨hgen, fun pcw hwc hpane => ?_⟩
  exact ⟨((notes_available_width_in_pane pcw).2 hpane).2,
    hgen _ (fitsWidth_in_pane mbtowc wcwidth text pcw hwc hpane)⟩

theorem lines_are_greedy_witness :
    ValidlyEncoded utf8_mbtowc note_abc_wide_d
    ∧ FitsWidth utf8_mbtowc sample_wcwidth note_abc_wide_d 4
    ∧ (∃ rows q, drawNotes utf8_mbtowc sample_wcwidth note_abc_wide_d 4 0 3 = some (rows, q)
        ∧ ∀ row ∈ rows,
          row.current_visual_width
              = lineColumns utf8_mbtowc sample_wcwidth note_abc_wide_d
                  (row.bytes_to_print_this_line + 1) row.line_start
                  (row.line_start + row.bytes_to_print_this_line)
          ∧ GreedyLine utf8_mbtowc sample_wcwidth note_abc_wide_d 4 row)
    ∧ (∀ wch, sample_wcwidth wch ≤ 2) ∧ detailPaneDrawsFields 24 = true
    ∧ 22 ≤ notes_available_width 24
    ∧ ∃ rows q, drawNotes utf8_mbtowc sample_wcwidth note_abc_wide_d
          (notes_available_width 24) 0 3 = some (rows, q)
      ∧ ∀ row ∈ rows,
        row.current_visual_width
            = lineColumns utf8_mbtowc sample_wcwidth note_abc_wide_d
                (row.bytes_to_print_this_line + 1) row.line_start
                (row.line_start + row.bytes_to_print_this_line)
        ∧ GreedyLine utf8_mbtowc sample_wcwidth note_abc_wide_d (notes_available_width 24)
            row :=
  ⟨note_abc_wide_d_valid, note_abc_wide_d_fits,
    (lines_are_greedy utf8_mbtowc sample_wcwidth note_abc_wide_d 0 3
      note_abc_wide_d_valid).1 4 note_abc_wide_d_fits,
    sample_wcwidth_le_two, by decide,
    (lines_are_greedy utf8_mbtowc sample_wcwidth note_abc_wide_d 0 3
      note_abc_wide_d_valid).2 24 sample_wcwidth_le_two (by decide)⟩

/-- C26. NoteWrapper advances by whole characters.  For every validly encoded
text: at every width at which each character of the text fits, the loop returns
its rows with the final cursor on a character boundary, and every row starts on
a character boundary, its line ends on one, and the cursor after it is on one,
at the end of the line or one byte further when that byte is a line break, so
that no byte is skipped and no character has its bytes in two lines.  This is
so at every width the pane passes to the loop: with a width function that
answers at most 2, in a pane that draws the fields the width is at least 22 and
every row has these properties. -/
theorem lines_end_on_character_boundaries (mbtowc : CStr → Int × Int)
    (wcwidth : Int → Int) (text : CStr) (y y_limit : Int)
    (hvalid : ValidlyEncoded mbtowc text) :
    (∀ w, FitsWidth mbtowc wcwidth text w →
      ∃ rows q, drawNotes mbtowc wcwidth text w y y_limit = some (rows, q)
        ∧ CharBoundary mbtowc text q
        ∧ ∀ row ∈ rows, WholeCharacters mbtowc text row)
    ∧ (∀ pane_content_width, (∀ wch, wcwidth wch ≤ 2) →
        detailPaneDrawsFields pane_content_width = true →
        22 ≤ notes_available_width pane_content_width
        ∧ ∃ rows q, drawNotes mbtowc wcwidth text (notes_available_width pane_content_width)
              y y_limit = some (rows, q)
          ∧ CharBoundary mbtowc text q
          ∧ ∀ row ∈ rows, WholeCharacters mbtowc text row) := by
  have hgen : ∀ w, FitsWidth mbtowc wcwidth text w →
      ∃ rows q, drawNotes mbtowc wcwidth text w y y_limit = some (rows, q)
        ∧ CharBoundary mbtowc text q
        ∧ ∀ row ∈ rows, WholeCharacters mbtowc text row := by
    intro w hfits
    obtain ⟨rows, q, hrun, hq, hall⟩ :=
      drawNotes_valid mbtowc wcwidth text w y y_limit hvalid hfits
    exact ⟨rows, q, hrun, hq, fun row hr => (hall row hr).1⟩
  refine ⟨hgen, fun pcw hwc hpane => ?_⟩
  exact ⟨((notes_available_width_in_pane pcw).2 hpane).2,
    hgen _ (fitsWidth_in_pane mbtowc wcwidth text pcw hwc hpane)⟩

theorem lines_end_on_character_boundaries_witness :
    ValidlyEncoded utf8_mbtowc note_abc_wide_d
    ∧ FitsWidth utf8_mbtowc sample_wcwidth note_abc_wide_d 4
    ∧ (∃ rows q, drawNotes utf8_mbtowc sample_wcwidth note_abc_wide_d 4 0 3 = some (rows, q)
        ∧ CharBoundary utf8_mbtowc note_abc_wide_d q
        ∧ ∀ row ∈ rows, WholeCharacters utf8_mbtowc note_abc_wide_d row)
    ∧ (∀ wch, sample_wcwidth wch ≤ 2) ∧ detailPaneDrawsFields 24 = true
    ∧ 22 ≤ notes_available_width 24
    ∧ ∃ rows q, drawNotes utf8_mbtowc sample_wcwidth note_abc_wide_d
          (notes_available_width 24) 0 3 = some (rows, q)
      ∧ CharBoundary utf8_mbtowc note_abc_wide_d q
      ∧ ∀ row ∈ rows, WholeCharacters utf8_mbtowc note_abc_wide_d row :=
  ⟨note_abc_wide_d_valid, note_abc_wide_d_fits,
    (lines_end_on_character_boundaries utf8_mbtowc sample_wcwidth note_abc_wide_d 0 3
      note_abc_wide_d_valid).1 4 note_abc_wide_d_fits,
    sample_wcwidth_le_two, by decide,
    (lines_end_on_character_boundaries utf8_mbtowc sample_wcwidth note_abc_wide_d 0 3
      note_abc_wide_d_valid).2 24 sample_wcwidth_le_two (by decide)⟩

/-- C27 (as stated, refuted): the byte at which decoding fails is printed.
In `a`, the byte 255 and `b`, at the width 22 of a pane of content width 24,
the decoder fails at the byte 255; the first row has the line of the two bytes
97 and 255, which ends there, and `b` is the line of the second row, whereas
the text `ab` without that byte is wrapped into the one row `ab`. -/
theorem malformed_byte_is_printed :
    detailPaneDrawsFields 24 = true ∧ notes_available_width 24 = 22
    ∧ (utf8_mbtowc (note_a_invalid_b.drop 1)).1 < 0
    ∧ drawNotes utf8_mbtowc sample_wcwidth note_a_invalid_b (notes_available_width 24) 0 3
        = some ([(⟨0, 0, 2, 1, 2⟩ : NoteRow), (⟨1, 2, 1, 1, 3⟩ : NoteRow)], 3)
    ∧ NoteRow.line note_a_invalid_b (⟨0, 0, 2, 1, 2⟩ : NoteRow) = [97, 255]
    ∧ NoteRow.line note_a_invalid_b (⟨1, 2, 1, 1, 3⟩ : NoteRow) = [98]
    ∧ drawNotes utf8_mbtowc sample_wcwidth [97, 98] (notes_available_width 24) 0 3
        = some ([(⟨0, 0, 2, 2, 2⟩ : NoteRow)], 2)
    ∧ NoteRow.line [97, 98] (⟨0, 0, 2, 2, 2⟩ : NoteRow) = [97, 98] :=
  ⟨by decide, by decide, by decide, by decide, by decide, by decide, by decide, by decide⟩

/-- C27 (amended).  A byte at which decoding fails is consumed as one byte and
printed as the last byte of the line being built.  For any text, decoder and
width the loop returns its rows, and for every row: when the decoder, walking
from the start of the row over the characters it finds, arrives within the line
or right after it at a byte, not a line break, at which it fails, then that
byte is the last byte of the line (the line is the bytes before it followed by
it, and never ends in front of it) and the cursor moves to the byte after it,
past a line break that follows it, where the next row starts; when the failure
is at the first byte of the row, the line is that byte alone, with column total
0; and a byte other than a line break is consumed without being part of the
line only when the line is empty and decoding did not fail at that byte. -/
theorem malformed_byte_ends_its_line (mbtowc : CStr → Int × Int) (wcwidth : Int → Int)
    (text : CStr) (notes_available_width y y_limit : Int) :
    ∃ rows q, drawNotes mbtowc wcwidth text notes_available_width y y_limit = some (rows, q)
      ∧ ∀ row ∈ rows,
        (∀ b, DecodedFrom mbtowc text row.line_start b → byteAt text b ≠ 0 →
          byteAt text b ≠ NEWLINE → (mbtowc (text.drop b)).1 < 0 →
          b ≤ row.line_start + row.bytes_to_print_this_line →
          b + 1 = row.line_start + row.bytes_to_print_this_line
          ∧ row.line text = (text.drop row.line_start).take (b - row.line_start)
              ++ [byteAt text b]
          ∧ (row.next_ptr = b + 1
            ∨ (byteAt text (b + 1) = NEWLINE ∧ row.next_ptr = b + 2)))
        ∧ ((mbtowc (text.drop row.line_start)).1 < 0 → byteAt text row.line_start ≠ NEWLINE →
          row.bytes_to_print_this_line = 1 ∧ row.current_visual_width = 0
          ∧ row.line text = [byteAt text row.line_start])
        ∧ (row.next_ptr = row.line_start + row.bytes_to_print_this_line + 1 →
            byteAt text (row.line_start + row.bytes_to_print_this_line) ≠ NEWLINE →
            row.bytes_to_print_this_line = 0
            ∧ ¬ (mbtowc (text.drop row.line_start)).1 < 0) := by
  obtain ⟨rows, q, hrun, _⟩ := wrapNotes_returns mbtowc wcwidth text
    notes_available_width y_limit (text.length + 1) 0 y (by omega)
  refine ⟨rows, q, hrun, fun row hr => ?_⟩
  obtain ⟨hne, _, _, _, _, _, hrow⟩ :=
    (wrapNotes_rows mbtowc wcwidth text notes_available_width y_limit _ _ _ _ _ hrun).2.2.1
      row hr
  have hstart := wrapIteration_malformed_start mbtowc wcwidth text notes_available_width
    _ _ _ hrow hne
  have hmid := wrapIteration_malformed mbtowc wcwidth text notes_available_width _ _ _ hrow
  obtain ⟨_, _, hnext, _⟩ :=
    wrapIteration_frame mbtowc wcwidth text notes_available_width _ _ _ hrow
  refine ⟨fun b hd h0 hnl hbad hle => hmid b hd h0 hnl hbad hle, ?_, ?_⟩
  · intro hbad hnl
    obtain ⟨h1, h2, h3, _⟩ := hstart hnl hbad
    exact ⟨h1, h2, h3⟩
  · intro hn hnl
    by_cases hb : row.bytes_to_print_this_line = 0
    · refine ⟨hb, fun hbad => ?_⟩
      have hnl0 : byteAt text row.line_start ≠ NEWLINE := by
        have := hnl
        rwa [hb, Nat.add_zero] at this
      have := (hstart hnl0 hbad).1
      omega
    · exfalso
      obtain ⟨sc, hsc, hrow2⟩ :=
        wrapIteration_returns mbtowc wcwidth text notes_available_width row.line_start row.y
      rw [hrow2] at hrow
      have e2 : row.bytes_to_print_this_line = sc.bytes_to_print_this_line := by
        rw [← Option.some.inj hrow]
      have e3 : row.next_ptr =
          if byteAt text (row.line_start + sc.bytes_to_print_this_line) = NEWLINE then
            row.line_start + sc.bytes_to_print_this_line + 1
          else if sc.bytes_to_print_this_line = 0
              ∧ byteAt text (row.line_start + sc.bytes_to_print_this_line) ≠ 0 then
            row.line_start + sc.bytes_to_print_this_line + 1
          else row.line_start + sc.bytes_to_print_this_line := by
        rw [← Option.some.inj hrow]
      rw [e2] at hn hnl hb
      rw [e3, if_neg hnl, if_neg (fun hcon => hb hcon.1)] at hn
      omega

theorem malformed_byte_ends_its_line_witness :
    DecodedFrom utf8_mbtowc note_a_invalid_b 0 1
    ∧ byteAt note_a_invalid_b 1 ≠ 0 ∧ byteAt note_a_invalid_b 1 ≠ NEWLINE
    ∧ (utf8_mbtowc (note_a_invalid_b.drop 1)).1 < 0
    ∧ drawNotes utf8_mbtowc sample_wcwidth note_a_invalid_b (notes_available_width 24) 0 3
        = some ([(⟨0, 0, 2, 1, 2⟩ : NoteRow), (⟨1, 2, 1, 1, 3⟩ : NoteRow)], 3)
    ∧ 1 + 1 = (⟨0, 0, 2, 1, 2⟩ : NoteRow).line_start
        + (⟨0, 0, 2, 1, 2⟩ : NoteRow).bytes_to_print_this_line
    ∧ NoteRow.line note_a_invalid_b (⟨0, 0, 2, 1, 2⟩ : NoteRow)
        = (note_a_invalid_b.drop 0).take (1 - 0) ++ [byteAt note_a_invalid_b 1]
    ∧ (⟨0, 0, 2, 1, 2⟩ : NoteRow).next_ptr = 1 + 1 := by
  have hd : DecodedFrom utf8_mbtowc note_a_invalid_b 0 1 :=
    DecodedFrom.next 0 DecodedFrom.start (by decide)
  have hc : drawNotes utf8_mbtowc sample_wcwidth note_a_invalid_b (notes_available_width 24) 0 3
      = some ([(⟨0, 0, 2, 1, 2⟩ : NoteRow), (⟨1, 2, 1, 1, 3⟩ : NoteRow)], 3) := by decide
  obtain ⟨rows, q, hrun, hall⟩ := malformed_byte_ends_its_line utf8_mbtowc sample_wcwidth
    note_a_invalid_b (notes_available_width 24) 0 3
  rw [hc] at hrun
  obtain ⟨rfl, rfl⟩ := Prod.mk.inj (Option.some.inj hrun)
  obtain ⟨h1, h2, h3⟩ := (hall _ (List.mem_cons_self _ _)).1 1 hd (by decide) (by decide)
    (by decide) (by decide)
  rcases h3 with h3 | h3
  · exact ⟨hd, by decide, by decide, by decide, hc, h1, h2, h3⟩
  · exact absurd h3.1 (by decide)

/-! ## The claims about the fixed split, the delete calls and the rows drawn -/

section Geometry

/-- C28. With the fixed split 0.5 neither width adjustment can apply: for every
available content width `A` both guards of lines 1560-1566 are false, so the
geometry is `list_pane_w = max(0, A div 2)` and
`detail_pane_w = max(0, A - (A div 2) - 1)`, and for every `A >= 1` the panes
and the separator tile the content area: `list_pane_w + 1 + detail_pane_w = A`. -/
theorem pane_adjustments_never_apply (A : Int) :
    ¬ (rawDetailPaneWidth A (rawListPaneWidth A) < DETAIL_PANE_MIN_WIDTH
        ∧ rawListPaneWidth A > DETAIL_PANE_MIN_WIDTH + PANE_SEPARATOR_WIDTH + 20)
    ∧ ¬ (rawListPaneWidth A < 30
        ∧ rawDetailPaneWidth A (rawListPaneWidth A)
            > 30 + PANE_SEPARATOR_WIDTH + DETAIL_PANE_MIN_WIDTH)
    ∧ (DETAIL_PANE_MIN_WIDTH + PANE_SEPARATOR_WIDTH + 20 = 66
        ∧ 30 + PANE_SEPARATOR_WIDTH + DETAIL_PANE_MIN_WIDTH = 76)
    ∧ adjustPaneWidths A (rawListPaneWidth A) (rawDetailPaneWidth A (rawListPaneWidth A))
        = (max 0 (A.tdiv 2), max 0 (A - A.tdiv 2 - 1))
    ∧ (paneLayout (A + 2 * MAIN_WIN_BORDER_WIDTH)).list_pane_w = max 0 (A.tdiv 2)
    ∧ (paneLayout (A + 2 * MAIN_WIN_BORDER_WIDTH)).detail_pane_w = max 0 (A - A.tdiv 2 - 1)
    ∧ (A ≥ 1 →
        (paneLayout (A + 2 * MAIN_WIN_BORDER_WIDTH)).list_pane_w + PANE_SEPARATOR_WIDTH
          + (paneLayout (A + 2 * MAIN_WIN_BORDER_WIDTH)).detail_pane_w = A) := by
  obtain ⟨hpos, hneg⟩ := rawListPaneWidth_cases A
  have htd := rawListPaneWidth_eq A
  have hg1 : ¬ (rawDetailPaneWidth A (rawListPaneWidth A) < DETAIL_PANE_MIN_WIDTH
        ∧ rawListPaneWidth A > DETAIL_PANE_MIN_WIDTH + PANE_SEPARATOR_WIDTH + 20) := by
    simp only [rawDetailPaneWidth, DETAIL_PANE_MIN_WIDTH, PANE_SEPARATOR_WIDTH]
    by_cases h : 0 ≤ A
    · rw [hpos h]; omega
    · rw [hneg (by omega)]; omega
  have hg2 : ¬ (rawListPaneWidth A < 30
        ∧ rawDetailPaneWidth A (rawListPaneWidth A)
            > 30 + PANE_SEPARATOR_WIDTH + DETAIL_PANE_MIN_WIDTH) := by
    simp only [rawDetailPaneWidth, DETAIL_PANE_MIN_WIDTH, PANE_SEPARATOR_WIDTH]
    by_cases h : 0 ≤ A
    · rw [hpos h]; omega
    · rw [hneg (by omega)]; omega
  have hadj : adjustPaneWidths A (rawListPaneWidth A)
        (rawDetailPaneWidth A (rawListPaneWidth A))
      = (max 0 (A.tdiv 2), max 0 (A - A.tdiv 2 - 1)) := by
    simp only [adjustPaneWidths, hg1, hg2, if_false]
    rw [← htd]
    simp only [rawDetailPaneWidth, PANE_SEPARATOR_WIDTH, Prod.mk.injEq]
    constructor <;> omega
  have hA : A + 2 * MAIN_WIN_BORDER_WIDTH - 2 * MAIN_WIN_BORDER_WIDTH = A := by omega
  have hl : (paneLayout (A + 2 * MAIN_WIN_BORDER_WIDTH)).list_pane_w = max 0 (A.tdiv 2) := by
    simp only [paneLayout, hA, hadj]
  have hd : (paneLayout (A + 2 * MAIN_WIN_BORDER_WIDTH)).detail_pane_w
      = max 0 (A - A.tdiv 2 - 1) := by
    simp only [paneLayout, hA, hadj]
  refine ⟨hg1, hg2, ⟨by decide, by decide⟩, hadj, hl, hd, ?_⟩
  intro h1
  rw [hl, hd, ← htd, hpos (by omega)]
  simp only [PANE_SEPARATOR_WIDTH]
  omega

theorem pane_adjustments_never_apply_witness :
    (61 : Int) ≥ 1
    ∧ (paneLayout (61 + 2 * MAIN_WIN_BORDER_WIDTH)).list_pane_w + PANE_SEPARATOR_WIDTH
        + (paneLayout (61 + 2 * MAIN_WIN_BORDER_WIDTH)).detail_pane_w = 61 :=
  ⟨by decide, (pane_adjustments_never_apply 61).2.2.2.2.2.2 (by decide)⟩

end Geometry

/-- C29. The store's delete is called by the key dispatch only when the list
was opened in delete mode, the key is `d`, `D` or Enter (either code), the list
is not empty with `0 <= selected_item_index < total_items`, and the
confirmation key is `y` or `Y`; the identifier passed is that of the summary at
`selected_item_index`.  In edit mode no sequence of iterations calls it. -/
theorem delete_called_only_when_confirmed (a : InteractiveListAction) (p : Int) (k : Key)
    (env : KeyEnv) (s : ListState) :
    (∀ id, (handleKey a p k env s).db_delete = some id →
        a = INTERACTIVE_LIST_ACTION_DELETE
        ∧ (k = KEY_ACTION_DELETE ∨ k = KEY_ACTION_DELETE_ALT ∨ k = KEY_ACTION_SELECT
            ∨ k = KEY_ACTION_ENTER)
        ∧ (s.total_items > 0 ∧ 0 ≤ s.selected_item_index
            ∧ s.selected_item_index < s.total_items)
        ∧ (env.confirm_key = 121 ∨ env.confirm_key = 89)
        ∧ id = (itemAt s.items s.selected_item_index).id)
    ∧ (∀ (inputs : List Input) (s0 : ListState),
        loopDeleteCalls INTERACTIVE_LIST_ACTION_EDIT inputs s0 = []) := by
  refine ⟨fun id h => ?_, loopDeleteCalls_edit_mode⟩
  obtain ⟨h1, h2, h3, h4, h5⟩ := handleKey_db_delete a p k env s id h
  refine ⟨h1, h2, h3, ?_, h5⟩
  have := (toupper_eq_Y env.confirm_key).1 h4
  omega

theorem delete_called_only_when_confirmed_witness :
    (handleKey INTERACTIVE_LIST_ACTION_DELETE 3 KEY_ACTION_DELETE sampleEnv
        (sampleState 5 1 0)).db_delete = some 12
    ∧ sampleEnv.confirm_key = 121
    ∧ (12 : Int) = (itemAt (sampleState 5 1 0).items (sampleState 5 1 0).selected_item_index).id
    ∧ loopDeleteCalls INTERACTIVE_LIST_ACTION_EDIT
        [sampleInput 8 KEY_ACTION_DELETE, sampleInput 8 KEY_ACTION_ENTER,
          sampleInput 8 KEY_EDIT_CLIENT] (sampleState 5 1 0) = [] :=
  ⟨by decide, rfl,
    ((delete_called_only_when_confirmed INTERACTIVE_LIST_ACTION_DELETE 3 KEY_ACTION_DELETE
      sampleEnv (sampleState 5 1 0)).1 12 (by decide)).2.2.2.2,
    (delete_called_only_when_confirmed INTERACTIVE_LIST_ACTION_DELETE 3 KEY_ACTION_DELETE
      sampleEnv (sampleState 5 1 0)).2 _ _⟩

/-- C30. For every main-window height `h >= 6` the page size is `h - 5` and, in
a state of a non-empty list that satisfies the invariants for it, the draw loop
draws exactly `min(page_size, len - first_visible_index)` items, consecutive
from `first_visible_index`, on the distinct rows `4 .. h - 2`, the selected item
among them; for every `h <= 5` the page size is forced to 1 but the draw loop
draws no item at all. -/
theorem page_size_matches_rows_drawn (h : Int) (s : ListState) :
    (h ≥ 6 →
        items_per_page_nav h = h - 5
        ∧ (s.total_items > 0 → ListViewportInv (items_per_page_nav h) s →
            drawnItems h s.total_items s.top_item_index
                = (List.range (min (h - 5) (s.total_items - s.top_item_index)).toNat).map
                    (fun k : Nat => (s.top_item_index + (k : Int), 4 + (k : Int)))
            ∧ ((drawnItems h s.total_items s.top_item_index).length : Int)
                = min (items_per_page_nav h) (s.total_items - s.top_item_index)
            ∧ (∀ r ∈ drawnItems h s.total_items s.top_item_index, 4 ≤ r.2 ∧ r.2 ≤ h - 2)
            ∧ ((drawnItems h s.total_items s.top_item_index).map Prod.snd).Nodup
            ∧ (s.selected_item_index, 4 + (s.selected_item_index - s.top_item_index))
                ∈ drawnItems h s.total_items s.top_item_index))
    ∧ (h ≤ 5 →
        items_per_page_nav h = 1 ∧ drawnItems h s.total_items s.top_item_index = []) := by
  constructor
  · intro hh
    have hp : items_per_page_nav h = h - 5 := items_per_page_nav_eq h hh
    refine ⟨hp, fun hlen hinv => ?_⟩
    rw [hp] at hinv
    obtain ⟨⟨h1, _⟩, h2, h3, h4⟩ := hinv
    have h1 := h1 hlen
    have hcount : (min (min (max 1 (h - 5)) (s.total_items - s.top_item_index))
          (max 1 (h - 4) - 1)).toNat
        = (min (h - 5) (s.total_items - s.top_item_index)).toNat := by omega
    have heq : drawnItems h s.total_items s.top_item_index
        = (List.range (min (h - 5) (s.total_items - s.top_item_index)).toNat).map
            (fun k : Nat => (s.top_item_index + (k : Int), 4 + (k : Int))) := by
      rw [drawnItems_eq, hcount]
    refine ⟨heq, ?_, ?_, ?_, ?_⟩
    · rw [heq, hp, List.length_map, List.length_range]
      omega
    · intro r hr
      rw [heq, List.mem_map] at hr
      obtain ⟨k, hk, rfl⟩ := hr
      rw [List.mem_range] at hk
      simp only
      omega
    · rw [heq, List.map_map]
      apply List.Nodup.map _ (List.nodup_range _)
      intro a b hab
      simp only [Function.comp] at hab
      omega
    · rw [heq, List.mem_map]
      refine ⟨(s.selected_item_index - s.top_item_index).toNat, ?_, ?_⟩
      · rw [List.mem_range]
        omega
      · simp only [Prod.mk.injEq]
        constructor <;> omega
  · intro hh
    constructor
    · simp only [items_per_page_nav, items_per_page_list_eq]
      omega
    · rw [drawnItems_eq]
      have : (min (min (max 1 (h - 5)) (s.total_items - s.top_item_index))
          (max 1 (h - 4) - 1)).toNat = 0 := by omega
      rw [this, List.range_zero, List.map_nil]

theorem page_size_matches_rows_drawn_witness :
    ((8 : Int) ≥ 6 ∧ (sampleState 5 3 1).total_items > 0
      ∧ ListViewportInv (items_per_page_nav 8) (sampleState 5 3 1)
      ∧ drawnItems 8 5 1 = [(1, 4), (2, 5), (3, 6)])
    ∧ ((5 : Int) ≤ 5 ∧ items_per_page_nav 5 = 1 ∧ drawnItems 5 5 1 = []) := by
  refine ⟨⟨by decide, by decide, by decide, ?_⟩, by decide, ?_⟩
  · have h := ((page_size_matches_rows_drawn 8 (sampleState 5 3 1)).1 (by decide)).2
      (by decide) (by decide)
    exact h.1
  · exact (page_size_matches_rows_drawn 5 (sampleState 5 3 1)).2 (by decide)

end Gextux
